import Mathlib

/-!
RM (rugby manager) match engine: shallow embedding and verified properties.

The C++ sources are embedded as pure Lean functions.  Fixed-width machine
integers are natural numbers (or integers) with an explicit reduction at
every place where the source stores into, or returns, a fixed-width type.
-/

set_option maxRecDepth 20000

namespace RM

/-! ## Machine integers -/

/-- Value stored in a `uint8_t`. -/
def u8 (n : Nat) : Nat := n % 256

/-- Value stored in a `uint16_t`. -/
def u16 (n : Nat) : Nat := n % 65536

/-- Value stored in an `int8_t` (two's complement wrap-around). -/
def i8 (z : Int) : Int := (z + 128) % 256 - 128

/-! ## Point values (shared/constants.h) -/

/-- Modelled from the spec: the constant table `pointValue` of shared/constants.h,
which is not part of the sources at hand; the spec fixes try = 5, conversion = 2,
penalty = 3, drop goal = 3. -/
structure PointValue where
  Try : Nat
  Conversion : Nat
  Penalty : Nat
  DropGoal : Nat

/-- Modelled from the spec: the values of `pointValue`. -/
def pointValue : PointValue := { Try := 5, Conversion := 2, Penalty := 3, DropGoal := 3 }

/-! ## player_points.cpp -/

/-- The four counters of `PlayerPoints` (each a `uint16_t`). -/
structure PlayerPoints where
  tries : Nat := 0
  conversions : Nat := 0
  penalties : Nat := 0
  dropGoals : Nat := 0
  deriving DecidableEq, Repr

/-- Embeds `PlayerPoints::points`: the weighted sum is formed in `int` and returned as `uint16_t`. -/
def PlayerPoints.points (p : PlayerPoints) : Nat :=
  u16 (p.tries * pointValue.Try + p.conversions * pointValue.Conversion +
       p.penalties * pointValue.Penalty + p.dropGoals * pointValue.DropGoal)

/-! ## matchscore.cpp -/

inductive PointEvent
  | TRY | CONVERSION | PENALTY | DROPGOAL
  deriving DecidableEq, Repr

inductive Tackles
  | COMPLETED | MISSED | ATTEMPTED
  deriving DecidableEq, Repr

inductive Passes
  | COMPLETED | MISSED | ATTEMPTED
  deriving DecidableEq, Repr

inductive Lineouts
  | WON | LOST | THROWN
  deriving DecidableEq, Repr

inductive Scrums
  | WON | LOST | THROWN_INTO | UNDETERMINED
  deriving DecidableEq, Repr

/-- The counters of `MatchScore` used below.  The scoring, line-out, scrum and
shoot-out counters are 8-bit, the tackle and pass counters 16-bit (the widths
of the accessors that return them). -/
structure MatchScore where
  tries : Nat := 0
  conversions : Nat := 0
  penalties : Nat := 0
  dropGoals : Nat := 0
  tacklesCompleted : Nat := 0
  tacklesMissed : Nat := 0
  passesCompleted : Nat := 0
  passesMissed : Nat := 0
  lineoutsWon : Nat := 0
  lineoutsLost : Nat := 0
  scrumsWon : Nat := 0
  scrumsLost : Nat := 0
  shootOutGoals : Nat := 0
  deriving DecidableEq, Repr

/-- Embeds `MatchScore::points(PointEvent)`, returned as `uint8_t`. -/
def MatchScore.points (s : MatchScore) : PointEvent → Nat
  | .TRY => u8 s.tries
  | .CONVERSION => u8 s.conversions
  | .PENALTY => u8 s.penalties
  | .DROPGOAL => u8 s.dropGoals

/-- Embeds `MatchScore::tackles`, returned as `uint16_t`. -/
def MatchScore.tackles (s : MatchScore) : Tackles → Nat
  | .COMPLETED => u16 s.tacklesCompleted
  | .MISSED => u16 s.tacklesMissed
  | .ATTEMPTED => u16 (s.tacklesCompleted + s.tacklesMissed)

/-- Embeds `MatchScore::tackleAttempted`. -/
def MatchScore.tackleAttempted (s : MatchScore) (type : Tackles) : MatchScore :=
  let s1 := if type = .COMPLETED then { s with tacklesCompleted := u16 (s.tacklesCompleted + 1) } else s
  if type = .MISSED then { s1 with tacklesMissed := u16 (s1.tacklesMissed + 1) } else s1

/-- Embeds `MatchScore::passes`, returned as `uint16_t`. -/
def MatchScore.passes (s : MatchScore) : Passes → Nat
  | .COMPLETED => u16 s.passesCompleted
  | .MISSED => u16 s.passesMissed
  | .ATTEMPTED => u16 (s.passesCompleted + s.passesMissed)

/-- Embeds `MatchScore::passAttempted`. -/
def MatchScore.passAttempted (s : MatchScore) (type : Passes) : MatchScore :=
  let s1 := if type = .COMPLETED then { s with passesCompleted := u16 (s.passesCompleted + 1) } else s
  if type = .MISSED then { s1 with passesMissed := u16 (s1.passesMissed + 1) } else s1

/-- Embeds `MatchScore::lineouts`, returned as `uint8_t`. -/
def MatchScore.lineouts (s : MatchScore) : Lineouts → Nat
  | .WON => u8 s.lineoutsWon
  | .LOST => u8 s.lineoutsLost
  | .THROWN => u8 (s.lineoutsWon + s.lineoutsLost)

/-- Embeds `MatchScore::lineoutThrown`. -/
def MatchScore.lineoutThrown (s : MatchScore) (type : Lineouts) : MatchScore :=
  let s1 := if type = .WON then { s with lineoutsWon := u8 (s.lineoutsWon + 1) } else s
  if type = .LOST then { s1 with lineoutsLost := u8 (s1.lineoutsLost + 1) } else s1

/-- Embeds `MatchScore::scrums`, returned as `uint8_t`; `UNDETERMINED` takes the `default` branch. -/
def MatchScore.scrums (s : MatchScore) : Scrums → Nat
  | .WON => u8 s.scrumsWon
  | .LOST => u8 s.scrumsLost
  | .THROWN_INTO => u8 (s.scrumsWon + s.scrumsLost)
  | .UNDETERMINED => u8 (s.scrumsWon + s.scrumsLost)

/-- Embeds `MatchScore::scrumThrown`. -/
def MatchScore.scrumThrown (s : MatchScore) (type : Scrums) : MatchScore :=
  let s1 := if type = .WON then { s with scrumsWon := u8 (s.scrumsWon + 1) } else s
  if type = .LOST then { s1 with scrumsLost := u8 (s1.scrumsLost + 1) } else s1

/-- One call of a statistics mutator of `MatchScore`. -/
inductive ScoreCall
  | tackleAttempted (type : Tackles)
  | passAttempted (type : Passes)
  | lineoutThrown (type : Lineouts)
  | scrumThrown (type : Scrums)
  deriving DecidableEq, Repr

/-- Effect of one mutator call. -/
def MatchScore.call (s : MatchScore) : ScoreCall → MatchScore
  | .tackleAttempted t => s.tackleAttempted t
  | .passAttempted t => s.passAttempted t
  | .lineoutThrown t => s.lineoutThrown t
  | .scrumThrown t => s.scrumThrown t

/-- Effect of a sequence of mutator calls, first call first. -/
def MatchScore.run (s : MatchScore) (calls : List ScoreCall) : MatchScore :=
  calls.foldl MatchScore.call s

/-! ## team.h, team.cpp -/

/-- The counters of `TeamPoints` (each a `uint16_t`). -/
structure TeamPoints where
  pointsAgainst : Nat := 0
  triesAgainst : Nat := 0
  tries : Nat := 0
  conversions : Nat := 0
  penalties : Nat := 0
  dropgoals : Nat := 0
  deriving DecidableEq, Repr

/-- Embeds `TeamPoints::points`: the weighted sum is formed in `int` and returned as `uint16_t`. -/
def TeamPoints.points (t : TeamPoints) : Nat :=
  u16 (t.tries * pointValue.Try + t.conversions * pointValue.Conversion +
       t.penalties * pointValue.Penalty + t.dropgoals * pointValue.DropGoal)

/-- Embeds `TeamPoints::updateFromMatchScore`: every `+=` stores into a `uint16_t`. -/
def TeamPoints.updateFromMatchScore (t : TeamPoints) (score : MatchScore)
    (pointsAgainst triesAgainst : Nat) : TeamPoints :=
  { tries := u16 (t.tries + score.points .TRY)
    conversions := u16 (t.conversions + score.points .CONVERSION)
    penalties := u16 (t.penalties + score.points .PENALTY)
    dropgoals := u16 (t.dropgoals + score.points .DROPGOAL)
    pointsAgainst := u16 (t.pointsAgainst + pointsAgainst)
    triesAgainst := u16 (t.triesAgainst + triesAgainst) }

/-! ## Enumerations of match/matchperiod.h, match/matchtype.h, team.h -/

/-- Modelled from the spec: the ordered enumeration `MatchPeriod::TimePeriod` (its header is
not part of the sources at hand); the order is the one of the spec and of
`MatchTime::_periodDescriptions`, with `UNDETERMINED` before every playable period. -/
inductive TimePeriod
  | UNDETERMINED | WARM_UP | DRAW | FIRST_HALF_TIME | HALF_TIME_INTERVAL | SECOND_HALF_TIME
  | BEFORE_EXTRA_TIME_INTERVAL | FIRST_EXTRA_TIME | EXTRA_TIME_INTERVAL | SECOND_EXTRA_TIME
  | BEFORE_SUDDEN_DEATH_TIME_INTERVAL | SUDDEN_DEATH_TIME | BEFORE_KICKING_INTERVAL
  | KICKING_COMPETITION | FULL_TIME
  deriving DecidableEq, Repr

/-- Modelled from the spec: the numeric value of each enumerator (an `int8_t`), consecutive in
declaration order, `UNDETERMINED` being -1. -/
def TimePeriod.code : TimePeriod → Int
  | .UNDETERMINED => -1
  | .WARM_UP => 0
  | .DRAW => 1
  | .FIRST_HALF_TIME => 2
  | .HALF_TIME_INTERVAL => 3
  | .SECOND_HALF_TIME => 4
  | .BEFORE_EXTRA_TIME_INTERVAL => 5
  | .FIRST_EXTRA_TIME => 6
  | .EXTRA_TIME_INTERVAL => 7
  | .SECOND_EXTRA_TIME => 8
  | .BEFORE_SUDDEN_DEATH_TIME_INTERVAL => 9
  | .SUDDEN_DEATH_TIME => 10
  | .BEFORE_KICKING_INTERVAL => 11
  | .KICKING_COMPETITION => 12
  | .FULL_TIME => 13

/-- All enumerators, in declaration order. -/
def TimePeriod.all : List TimePeriod :=
  [.UNDETERMINED, .WARM_UP, .DRAW, .FIRST_HALF_TIME, .HALF_TIME_INTERVAL, .SECOND_HALF_TIME,
   .BEFORE_EXTRA_TIME_INTERVAL, .FIRST_EXTRA_TIME, .EXTRA_TIME_INTERVAL, .SECOND_EXTRA_TIME,
   .BEFORE_SUDDEN_DEATH_TIME_INTERVAL, .SUDDEN_DEATH_TIME, .BEFORE_KICKING_INTERVAL,
   .KICKING_COMPETITION, .FULL_TIME]

/-- The enumerator with a given numeric value, if there is one. -/
def TimePeriod.ofCode (c : Int) : Option TimePeriod :=
  TimePeriod.all.find? (fun p => p.code = c)

inductive TimePeriodType
  | UNDEFINED | REGULAR_TIME_PERIOD | EXTRA_TIME_PERIOD | SUDDEN_DEATH_TIME_PERIOD
  | INTERVAL_PERIOD | OTHER_PERIOD
  deriving DecidableEq, Repr

inductive MatchType
  | UNDEFINED | REGULAR | PLAYOFFS
  deriving DecidableEq, Repr

/-- Embeds `MatchType::ToPlayOff`, the kind of rule that fills the sides of a play-off match. -/
inductive ToPlayOff
  | UNDEFINED | FROM_REGULAR | FROM_PLAYOFFS
  deriving DecidableEq, Repr

inductive Location
  | HOSTS | VISITORS
  deriving DecidableEq, Repr

/-- Embeds `TeamResults::ResultType` (team.h): LOSS = 0, WIN = 1, DRAW = 2. -/
inductive ResultType
  | LOSS | WIN | DRAW
  deriving DecidableEq, Repr

/-! ## matchperiod.cpp -/

/-- The constant table `matchTime` of shared/constants.h (minutes), not part of the sources
at hand; it is a parameter of the period table. -/
structure MatchTimeConsts where
  HalfTime : Nat
  RegularTime : Nat
  HalfTimeInterval : Nat
  ExtraTimeInterval : Nat
  ExtraTimePeriod : Nat
  ExtraTime : Nat
  SuddenDeathTime : Nat
  deriving DecidableEq, Repr

/-- A sample table: two halves of 40 minutes, two extra-time periods of 10 minutes and
10 minutes of sudden death. -/
def sampleMatchTime : MatchTimeConsts :=
  { HalfTime := 40, RegularTime := 80, HalfTimeInterval := 10, ExtraTimeInterval := 5,
    ExtraTimePeriod := 10, ExtraTime := 20, SuddenDeathTime := 10 }

/-- The data members of `MatchPeriod` that the engine reads (captions and progress-bar styles
are left out). -/
structure MatchPeriod where
  period : TimePeriod
  periodType : TimePeriodType
  length : Nat
  timePlayed : Nat
  matchContinuesIf : MatchType × ResultType
  deriving DecidableEq, Repr

/-- Embeds `MatchPeriod::MatchPeriod()`, the default-constructed period. -/
def MatchPeriod.default : MatchPeriod :=
  { period := .UNDETERMINED, periodType := .UNDEFINED, length := 0, timePlayed := 0,
    matchContinuesIf := (.UNDEFINED, .DRAW) }

/-- Embeds `MatchPeriod::MatchPeriod(...)`: `length` and `timePlayed` are `uint8_t` parameters. -/
def MatchPeriod.make (period : TimePeriod) (periodType : TimePeriodType) (length timePlayed : Nat)
    (matchContinuesIf : MatchType × ResultType) : MatchPeriod :=
  { period := period, periodType := periodType, length := u8 length,
    timePlayed := u8 timePlayed, matchContinuesIf := matchContinuesIf }

/-- Embeds `MatchPeriod::isPlayingTime`. -/
def MatchPeriod.isPlayingTime (p : MatchPeriod) : Bool :=
  p.periodType == .REGULAR_TIME_PERIOD || p.periodType == .EXTRA_TIME_PERIOD ||
    p.periodType == .SUDDEN_DEATH_TIME_PERIOD

/-- The object `MatchPeriods`: the table `_periods` is determined by the constants, so the
state is the constants and `_doNotStopAt_diag` (a raw enumeration value). -/
structure MatchPeriods where
  mt : MatchTimeConsts
  doNotStopAt_diag : Int := TimePeriod.UNDETERMINED.code
  deriving DecidableEq, Repr

/-- The entries inserted into `_periods` by `MatchPeriods::MatchPeriods()`; `UNDETERMINED` is
not inserted, a lookup of it yields the default-constructed period. -/
def MatchPeriods.table (mt : MatchTimeConsts) : TimePeriod → MatchPeriod
  | .UNDETERMINED => MatchPeriod.default
  | .WARM_UP => .make .WARM_UP .OTHER_PERIOD 0 0 (.UNDEFINED, .DRAW)
  | .DRAW => .make .DRAW .INTERVAL_PERIOD 0 0 (.UNDEFINED, .DRAW)
  | .FIRST_HALF_TIME =>
      .make .FIRST_HALF_TIME .REGULAR_TIME_PERIOD mt.HalfTime mt.HalfTime (.UNDEFINED, .DRAW)
  | .HALF_TIME_INTERVAL =>
      .make .HALF_TIME_INTERVAL .INTERVAL_PERIOD mt.HalfTimeInterval mt.HalfTime
        (.UNDEFINED, .DRAW)
  | .SECOND_HALF_TIME =>
      .make .SECOND_HALF_TIME .REGULAR_TIME_PERIOD mt.HalfTime mt.RegularTime (.PLAYOFFS, .DRAW)
  | .BEFORE_EXTRA_TIME_INTERVAL =>
      .make .BEFORE_EXTRA_TIME_INTERVAL .INTERVAL_PERIOD mt.ExtraTimeInterval mt.RegularTime
        (.UNDEFINED, .DRAW)
  | .FIRST_EXTRA_TIME =>
      .make .FIRST_EXTRA_TIME .EXTRA_TIME_PERIOD mt.ExtraTimePeriod
        (mt.RegularTime + mt.ExtraTimePeriod) (.UNDEFINED, .DRAW)
  | .EXTRA_TIME_INTERVAL =>
      .make .EXTRA_TIME_INTERVAL .INTERVAL_PERIOD mt.ExtraTimeInterval
        (mt.RegularTime + mt.ExtraTimePeriod) (.UNDEFINED, .DRAW)
  | .SECOND_EXTRA_TIME =>
      .make .SECOND_EXTRA_TIME .EXTRA_TIME_PERIOD mt.ExtraTimePeriod
        (mt.RegularTime + mt.ExtraTime) (.PLAYOFFS, .DRAW)
  | .BEFORE_SUDDEN_DEATH_TIME_INTERVAL =>
      .make .BEFORE_SUDDEN_DEATH_TIME_INTERVAL .INTERVAL_PERIOD mt.ExtraTimeInterval
        (mt.RegularTime + mt.ExtraTime) (.UNDEFINED, .DRAW)
  | .SUDDEN_DEATH_TIME =>
      .make .SUDDEN_DEATH_TIME .SUDDEN_DEATH_TIME_PERIOD mt.SuddenDeathTime
        (mt.RegularTime + mt.ExtraTime + mt.SuddenDeathTime) (.PLAYOFFS, .DRAW)
  | .BEFORE_KICKING_INTERVAL =>
      .make .BEFORE_KICKING_INTERVAL .INTERVAL_PERIOD 0
        (mt.RegularTime + mt.ExtraTime + mt.SuddenDeathTime) (.UNDEFINED, .DRAW)
  | .KICKING_COMPETITION =>
      .make .KICKING_COMPETITION .OTHER_PERIOD 5
        (mt.RegularTime + mt.ExtraTime + mt.SuddenDeathTime) (.UNDEFINED, .DRAW)
  | .FULL_TIME => .make .FULL_TIME .OTHER_PERIOD 3 255 (.UNDEFINED, .DRAW)

/-- Lookup `_periods.value(period)` by raw enumeration value: a value that is no key of the
map yields the default-constructed period. -/
def MatchPeriods.value (ps : MatchPeriods) (period : Int) : MatchPeriod :=
  match TimePeriod.ofCode period with
  | some p => MatchPeriods.table ps.mt p
  | none => MatchPeriod.default

/-- Modelled from the spec: the accessor `MatchPeriods::matchType(period)` of the absent
header, the match type under which play continues past the period. -/
def MatchPeriods.matchType (ps : MatchPeriods) (period : Int) : MatchType :=
  (ps.value period).matchContinuesIf.1

/-- Modelled from the spec: the accessor `MatchPeriods::resultType(period)` of the absent
header, the result under which play continues past the period. -/
def MatchPeriods.resultType (ps : MatchPeriods) (period : Int) : ResultType :=
  (ps.value period).matchContinuesIf.2

/-- Modelled from the spec: `MatchPeriods::isPlayingTime(period)` of the absent header,
forwarding to `MatchPeriod::isPlayingTime`. -/
def MatchPeriods.isPlayingTime (ps : MatchPeriods) (period : Int) : Bool :=
  (ps.value period).isPlayingTime

/-- Modelled from the spec: `MatchPeriods::timePlayed(period, multiplier)` of the absent
header, the nominal match time at the end of the period times the multiplier. -/
def MatchPeriods.timePlayed (ps : MatchPeriods) (period : Int) (multiplier : Nat) : Nat :=
  u16 ((ps.value period).timePlayed * multiplier)

/-- Modelled from the spec: `MatchPeriods::matchEndsWithResultChange(period)` of the absent
header: true for sudden-death-type periods, where the next score ends the match. -/
def MatchPeriods.matchEndsWithResultChange (ps : MatchPeriods) (period : Int) : Bool :=
  (ps.value period).periodType == .SUDDEN_DEATH_TIME_PERIOD

/-- Embeds `MatchPeriods::changeDoNotStopAtPeriodTo` (absent header), setting `_doNotStopAt_diag`. -/
def MatchPeriods.changeDoNotStopAtPeriodTo (ps : MatchPeriods) (period : Int) : MatchPeriods :=
  { ps with doNotStopAt_diag := period }

/-- Embeds `MatchPeriods::matchEnds`. -/
def MatchPeriods.matchEnds (ps : MatchPeriods) (period : Int) (type : MatchType)
    (result : ResultType) : Bool :=
  ps.matchType period != .UNDEFINED && decide (ps.doNotStopAt_diag ≤ period) &&
    (ps.matchType period != type || ps.resultType period != result)

/-! ## matchtime.cpp -/

/-- The state of `MatchTime`.  The minute, second and increment counters are 8-bit (the width
of the parameters of `addMinutes`, `addSeconds` and `timePlayed`, and of the callers'
`const uint8_t` copies of `minutesPlayed()` and `lastIncrement()`); the current period is a raw
enumeration value; `timePeriodLengths` is the map from period to banked seconds (16-bit). -/
structure MatchTime where
  currentTimePeriod : Int := TimePeriod.WARM_UP.code
  minutesPlayed : Nat := 0
  secondsPlayed : Nat := 0
  lastIncrement : Nat := 0
  timePeriodLengths : Int → Option Nat := fun _ => none

/-- Embeds `QMap::insert`: set the value stored under a key. -/
def mapInsert (m : Int → Option Nat) (k : Int) (v : Nat) : Int → Option Nat :=
  fun k2 => if k2 = k then some v else m k2

/-- Embeds `MatchTime::switchTimePeriodTo`; the argument `UNDETERMINED` (the default in the source)
means the next period by numeric value, formed in `int` from the `int8_t` value and cast
back. -/
def MatchTime.switchTimePeriodTo (t : MatchTime) (nextPeriod : Int) : MatchTime :=
  let cur := if nextPeriod ≠ TimePeriod.UNDETERMINED.code then nextPeriod
             else i8 (i8 t.currentTimePeriod + 1)
  { t with currentTimePeriod := cur, timePeriodLengths := mapInsert t.timePeriodLengths cur 0 }

/-- Embeds `MatchTime::addMinutes(const uint8_t)`. -/
def MatchTime.addMinutes (t : MatchTime) (minutes : Nat) : MatchTime :=
  { t with minutesPlayed := u8 (t.minutesPlayed + minutes),
           lastIncrement := u8 (t.lastIncrement + minutes) }

/-- Embeds `MatchTime::addSeconds(const uint8_t)`. -/
def MatchTime.addSeconds (t : MatchTime) (seconds : Nat) : MatchTime :=
  let secondsPlayed := u8 (t.secondsPlayed + seconds)
  { t with lastIncrement := u8 (t.lastIncrement + secondsPlayed / 60),
           minutesPlayed := u8 (t.minutesPlayed + secondsPlayed / 60),
           secondsPlayed := secondsPlayed % 60 }

/-- Embeds `MatchTime::addTime(const uint16_t)`: both quotient and remainder are passed to `uint8_t`
parameters. -/
def MatchTime.addTime (t : MatchTime) (seconds : Nat) : MatchTime :=
  let t1 := (t.addMinutes (u8 (seconds / 60))).addSeconds (u8 (seconds % 60))
  match t1.timePeriodLengths t1.currentTimePeriod with
  | some v =>
    { t1 with timePeriodLengths := mapInsert t1.timePeriodLengths t1.currentTimePeriod
                (u16 (v + seconds)) }
  | none =>
    { t1 with timePeriodLengths := mapInsert t1.timePeriodLengths t1.currentTimePeriod seconds }

/-- Modelled from the spec: the accessor `MatchTime::timePlayedInSeconds()` of the absent
header, the total played time `60 * minutesPlayed + secondsPlayed` as `uint16_t`. -/
def MatchTime.timePlayedInSeconds (t : MatchTime) : Nat :=
  u16 (t.minutesPlayed * 60 + t.secondsPlayed)

/-- One call on the clock: `addTime(s)` or `switchTimePeriodTo(p)`. -/
inductive ClockCall
  | addTime (seconds : Nat)
  | switchTimePeriodTo (nextPeriod : Int)
  deriving DecidableEq, Repr

/-- Effect of one clock call. -/
def MatchTime.call (t : MatchTime) : ClockCall → MatchTime
  | .addTime s => t.addTime (u16 s)
  | .switchTimePeriodTo p => t.switchTimePeriodTo p

/-- Effect of a sequence of clock calls, first call first. -/
def MatchTime.run (t : MatchTime) (calls : List ClockCall) : MatchTime :=
  calls.foldl MatchTime.call t

/-- The values of an `int8_t`, in ascending order: the possible keys of `_timePeriodLengths`
(the enumeration `TimePeriod` is cast to and from `int8_t`). -/
def int8Values : List Int := (List.range 256).map (fun (i : Nat) => Int.ofNat i - 128)

/-- The keys of the map `_timePeriodLengths`, in ascending order (the order of a `QMap`). -/
def MatchTime.recordedPeriods (t : MatchTime) : List Int :=
  int8Values.filter (fun k => (t.timePeriodLengths k).isSome)

/-- Embeds `MatchTime::lastPeriodPlayed`: UNDETERMINED for the empty map, the only key of a map
of size 1, the last-but-one key otherwise. -/
def MatchTime.lastPeriodPlayed (t : MatchTime) : Int :=
  match t.recordedPeriods.reverse with
  | [] => TimePeriod.UNDETERMINED.code
  | [k] => k
  | _ :: k :: _ => k

/-- Embeds `MatchTime::timePlayedInSecondsRaw`: the banked seconds of all recorded periods, added
up in `uint16_t`. -/
def MatchTime.timePlayedInSecondsRaw (t : MatchTime) : Nat :=
  (t.recordedPeriods.map (fun k => (t.timePeriodLengths k).getD 0)).foldl
    (fun timeInSeconds period => u16 (timeInSeconds + period)) 0

/-- The sum of all period lengths as a natural number (no 16-bit reduction); a period that is
not recorded counts 0. -/
def MatchTime.bankedTotal (t : MatchTime) : Nat :=
  (int8Values.map (fun k => (t.timePeriodLengths k).getD 0)).sum

/-- Embeds `QMap::operator[]` as far as the map is concerned: a missing key is inserted with the
default value 0. -/
def mapTouch (m : Int → Option Nat) (k : Int) : Int → Option Nat :=
  match m k with
  | some _ => m
  | none => mapInsert m k 0

/-- The local `previousPeriod` of `MatchTime::setTimeForInterval`: at FULL_TIME the result of
`lastPeriodPlayed()`, otherwise the numeric predecessor of the current period, formed in
`int` from the `int8_t` value and cast back. -/
def MatchTime.previousPeriod (t : MatchTime) : Int :=
  if t.currentTimePeriod = TimePeriod.FULL_TIME.code then t.lastPeriodPlayed
  else i8 (i8 t.currentTimePeriod - 1)

/-- Embeds `MatchTime::setTimeForInterval(const uint16_t)`.  In the compound assignment the
right operand `_timePeriodLengths[_currentTimePeriod]` is evaluated first; both subscripts
insert a missing key; the sum is stored as `uint16_t`. -/
def MatchTime.setTimeForInterval (t : MatchTime) (seconds : Nat) : MatchTime :=
  let lengths1 :=
    if t.recordedPeriods.length > 1 then
      let touched :=
        mapTouch (mapTouch t.timePeriodLengths t.currentTimePeriod) t.previousPeriod
      mapInsert touched t.previousPeriod
        (u16 ((touched t.previousPeriod).getD 0 + (touched t.currentTimePeriod).getD 0))
    else t.timePeriodLengths
  { t with timePeriodLengths := mapInsert lengths1 t.currentTimePeriod (u16 seconds) }

/-! ## Random source (shared/random.h) -/

/-- Modelled from the spec: `RandomValue::generateRandomInt(lo, hi)` of the absent header, a
bounded-integer draw; the raw value `draw` of the random source is reduced into `lo..hi`. -/
def generateRandomInt (lo hi draw : Nat) : Nat :=
  lo + draw % (hi - lo + 1)

/-! ## player_condition.cpp -/

/-- Modelled from the spec: the enumeration `player::Conditions` of the absent header; the five
stored conditions come first, in the order of the `switch` of `getValue`, then `OVERALL`. -/
inductive Conditions
  | FATIGUE | FITNESS | FORM | HEALTH | MORALE | OVERALL | AVAILABILITY | RETURN_DATE
  deriving DecidableEq, Repr

/-- Numeric value of a condition (its position in the enumeration). -/
def Conditions.toNat : Conditions → Nat
  | .FATIGUE => 0
  | .FITNESS => 1
  | .FORM => 2
  | .HEALTH => 3
  | .MORALE => 4
  | .OVERALL => 5
  | .AVAILABILITY => 6
  | .RETURN_DATE => 7

/-- The weights of a default-constructed `ConditionWeights` (absent header
settings/matchsettings.h); they are a parameter of the embedding. -/
structure ConditionWeights where
  fatigue : Nat := 1
  fitness : Nat := 1
  form : Nat := 1
  health : Nat := 1
  morale : Nat := 1
  deriving DecidableEq, Repr

/-- Modelled from the spec: `ConditionWeights::conditionWeight(condition)`. -/
def ConditionWeights.conditionWeight (w : ConditionWeights) : Conditions → Nat
  | .FATIGUE => w.fatigue
  | .FITNESS => w.fitness
  | .FORM => w.form
  | .HEALTH => w.health
  | .MORALE => w.morale
  | _ => 0

/-- The data members of `PlayerCondition` (the list of health incidents apart): the five base
values (8-bit) and the map `_decreaseInCondition` from condition to accumulated decrement
(8-bit), `none` for a key that is not in the map. -/
structure PlayerCondition where
  fatigue : Nat := 0
  fitness : Nat := 0
  health : Nat := 0
  morale : Nat := 0
  form : Nat := 0
  decreaseInCondition : Conditions → Option Nat := fun _ => none

/-- Embeds `PlayerCondition::fullCondition`: the map is cleared and every condition below `OVERALL`
is entered with decrement 0. -/
def PlayerCondition.fullCondition (pc : PlayerCondition) : PlayerCondition :=
  { pc with decreaseInCondition :=
      fun c => if c.toNat < Conditions.OVERALL.toNat then some 0 else none }

/-- Embeds `PlayerCondition::increaseCondition(condition, value)`. -/
def PlayerCondition.increaseCondition (pc : PlayerCondition) (condition : Conditions)
    (value : Nat) : PlayerCondition :=
  match pc.decreaseInCondition condition with
  | none => pc
  | some d =>
    if u8 value = 0 then pc
    else
      { pc with decreaseInCondition := fun c =>
          if c = condition then some (u8 (d + 256 - u8 (min (u8 value) d)))
          else pc.decreaseInCondition c }

/-- Embeds `PlayerCondition::decreaseCondition(condition, value)`; `minValue` and `maxValue` are the
constants `PlayerCondition::minValue` and `PlayerCondition::maxValue` of the absent header.
The bound `maxValue - minValue - decrement` is formed in `int` and passed to
`std::min<uint8_t>`; `operator[]` enters a missing key with decrement 0. -/
def PlayerCondition.decreaseCondition (minValue maxValue : Nat) (pc : PlayerCondition)
    (condition : Conditions) (value : Nat) : PlayerCondition :=
  let atLimit : Bool :=
    match pc.decreaseInCondition condition with
    | some d => decide ((d : Int) = (maxValue : Int) - (minValue : Int))
    | none => false
  if u8 value = 0 ∨ atLimit = true then pc
  else
    let d := (pc.decreaseInCondition condition).getD 0
    let room : Nat := (((maxValue : Int) - (minValue : Int) - (d : Int)) % 256).toNat
    { pc with decreaseInCondition := fun c =>
        if c = condition then some (u8 (d + min (u8 value) room))
        else pc.decreaseInCondition c }

/-- Embeds `PlayerCondition::generateCurrentForm(upperLimit)`, `draw` being the raw random value. -/
def PlayerCondition.generateCurrentForm (minValue maxValue : Nat) (pc : PlayerCondition)
    (upperLimit draw : Nat) : PlayerCondition :=
  let form := u8 (generateRandomInt 1 (u8 upperLimit) draw)
  if form ≠ maxValue then
    pc.decreaseCondition minValue maxValue .FORM
      ((((maxValue : Int) - (form : Int)) % 256).toNat)
  else pc

/-- Embeds `PlayerCondition::PlayerCondition()`: every base value is `maxValue`, then a current form
is drawn (the default upper limit of `generateCurrentForm` is taken to be `maxValue`). -/
def PlayerCondition.default (minValue maxValue draw : Nat) : PlayerCondition :=
  PlayerCondition.generateCurrentForm minValue maxValue
    (PlayerCondition.fullCondition
      { fatigue := maxValue, fitness := maxValue, health := maxValue, morale := maxValue,
        form := maxValue })
    maxValue draw

/-- Embeds `PlayerCondition::PlayerCondition(conditions, form)`: the base values are the given ones;
the list of health incidents is still empty, so the state is HEALTHY and the upper limit of
the form is `maxValue`; a form of 0 asks for a drawn form. -/
def PlayerCondition.make (minValue maxValue : Nat) (fatigue fitness health morale form : Nat)
    (draw : Nat) : PlayerCondition :=
  let pc := PlayerCondition.fullCondition
    { fatigue := u8 fatigue, fitness := u8 fitness, health := u8 health, morale := u8 morale,
      form := u8 form }
  if u8 form = 0 then PlayerCondition.generateCurrentForm minValue maxValue pc maxValue draw
  else pc

/-- The `switch` of `PlayerCondition::getValue`, the value of `overallCondition` passed in, and
the final subtraction of the decrement, formed in `int` and returned as `uint16_t`. -/
def PlayerCondition.getValueWith (pc : PlayerCondition) (overall : Nat) (condition : Conditions)
    (original : Bool) : Nat :=
  let value : Nat :=
    match condition with
    | .FATIGUE => pc.fatigue
    | .FITNESS => pc.fitness
    | .FORM => pc.form
    | .HEALTH => pc.health
    | .MORALE => pc.morale
    | .OVERALL => overall
    | _ => 0
  let decrease : Nat := if original then 0 else (pc.decreaseInCondition condition).getD 0
  (((value : Int) - (decrease : Int)) % 65536).toNat

/-- Embeds `PlayerCondition::overallCondition(conditions)`: the weighted sum of the five current
values, stored as `uint16_t`. -/
def PlayerCondition.overallCondition (pc : PlayerCondition) (w : ConditionWeights) : Nat :=
  u16 (pc.getValueWith 0 .FATIGUE false * w.conditionWeight .FATIGUE +
       pc.getValueWith 0 .FITNESS false * w.conditionWeight .FITNESS +
       pc.getValueWith 0 .FORM false * w.conditionWeight .FORM +
       pc.getValueWith 0 .HEALTH false * w.conditionWeight .HEALTH +
       pc.getValueWith 0 .MORALE false * w.conditionWeight .MORALE)

/-- Embeds `PlayerCondition::getValue(condition, original)`; `w` are the default-constructed
weights that `OVERALL` uses. -/
def PlayerCondition.getValue (pc : PlayerCondition) (w : ConditionWeights)
    (condition : Conditions) (original : Bool) : Nat :=
  pc.getValueWith (pc.overallCondition w) condition original

/-- One call that changes a condition. -/
inductive ConditionCall
  | increaseCondition (condition : Conditions) (value : Nat)
  | decreaseCondition (condition : Conditions) (value : Nat)
  deriving DecidableEq, Repr

/-- Effect of one call. -/
def PlayerCondition.call (minValue maxValue : Nat) (pc : PlayerCondition) :
    ConditionCall → PlayerCondition
  | .increaseCondition c v => pc.increaseCondition c v
  | .decreaseCondition c v => pc.decreaseCondition minValue maxValue c v

/-- Effect of a sequence of calls, first call first. -/
def PlayerCondition.run (minValue maxValue : Nat) (pc : PlayerCondition)
    (calls : List ConditionCall) : PlayerCondition :=
  calls.foldl (PlayerCondition.call minValue maxValue) pc

/-- The base value that `getValue` reads for one of the five stored conditions. -/
def PlayerCondition.baseValue (pc : PlayerCondition) (condition : Conditions) : Nat :=
  pc.getValueWith 0 condition true

/-- The decrements of a condition record are bounded: every stored condition has an entry,
and no entry exceeds `maxValue - minValue`. -/
def PlayerCondition.DecrementsBounded (minValue maxValue : Nat) (pc : PlayerCondition) : Prop :=
  (∀ c : Conditions, c.toNat < 5 → (pc.decreaseInCondition c).isSome = true) ∧
  (∀ (c : Conditions) (d : Nat), pc.decreaseInCondition c = some d → d ≤ maxValue - minValue)

/-! ## Players, teams, suspensions, the match -/

/-- The outcomes of `MatchActionSubtype::MatchActivityType` that foul play distinguishes; every
other enumerator is `OTHER`. -/
inductive MatchActivityType
  | WARNING | SIN_BINNED | SENT_OFF | OTHER (code : Nat)
  deriving DecidableEq, Repr

/-- The counters of `PlayerStats` that the modelled functions use: cards, games and minutes
played (16-bit, as `setStatsValue` stores them). -/
structure PlayerStats where
  yellowCards : Nat := 0
  redCards : Nat := 0
  gamesPlayed : Nat := 0
  gamesPlayedAsSubstitute : Nat := 0
  minutesPlayed : Nat := 0
  deriving DecidableEq, Repr

/-- The enumerators of `StatsType::NumberOf` that name these counters. -/
inductive CardStat
  | YELLOW_CARDS | RED_CARDS | GAMES_PLAYED | GAMES_PLAYED_SUB | MINS_PLAYED
  deriving DecidableEq, Repr

/-- Embeds `PlayerStats::getStatsValue` for these counters, returned as `uint16_t`. -/
def PlayerStats.getStatsValue (st : PlayerStats) : CardStat → Nat
  | .YELLOW_CARDS => u16 st.yellowCards
  | .RED_CARDS => u16 st.redCards
  | .GAMES_PLAYED => u16 st.gamesPlayed
  | .GAMES_PLAYED_SUB => u16 st.gamesPlayedAsSubstitute
  | .MINS_PLAYED => u16 st.minutesPlayed

/-- Modelled from the spec: `PlayerStats::incrementStatsValue` of the absent header, adding one
to the named counter. -/
def PlayerStats.incrementStatsValue (st : PlayerStats) : CardStat → PlayerStats
  | .YELLOW_CARDS => { st with yellowCards := u16 (st.yellowCards + 1) }
  | .RED_CARDS => { st with redCards := u16 (st.redCards + 1) }
  | .GAMES_PLAYED => { st with gamesPlayed := u16 (st.gamesPlayed + 1) }
  | .GAMES_PLAYED_SUB =>
    { st with gamesPlayedAsSubstitute := u16 (st.gamesPlayedAsSubstitute + 1) }
  | .MINS_PLAYED => { st with minutesPlayed := u16 (st.minutesPlayed + 1) }

/-- Modelled from the spec: `PlayerStats::noMatchesPlayed()` of the absent header: the record
counts no game played. -/
def PlayerStats.noMatchesPlayed (st : PlayerStats) : Bool :=
  st.gamesPlayed == 0

/-- The members of `Player` that the modelled engine functions read or write.  `onPitch`,
`onBench`, `healthy` and `available` are the results of `isOnPitch()`, `isOnBench()`,
`isHealthy()` and `isAvailable()` (absent header player/player.h); `positionType` is the
value of `position()->positionType()`, `currentPosition` the number of the position item the
player is assigned to (`currentPositionNo()`); `morale` is the value of `condition(MORALE)`.
`agility`, `dexterity`, `tackling` and `weight` are the 8-bit values of `attribute(...)`,
`packPlayer` is the result of `isPackPlayer()`, `preferredFor` is the stored product
`_preferredFor` (16-bit signed, as the constructor receives it), and `currentPositionName`
and `originalPosition` stand for the strings `position()->currentPosition()` and
`position()->originalPosition()`, 0 being `PlayerPosition::notAssigned`. -/
structure Player where
  code : Nat
  onPitch : Bool := false
  noOnPitch : Nat := 0
  kicking : Nat := 0
  morale : Nat := 0
  lastMatchSentOff : Bool := false
  stats : PlayerStats := {}
  shirtNo : Nat := 0
  available : Bool := true
  healthy : Bool := true
  onBench : Bool := false
  positionType : Int := 0
  currentPosition : Nat := 0
  condition : PlayerCondition := {}
  agility : Nat := 0
  dexterity : Nat := 0
  tackling : Nat := 0
  weight : Nat := 0
  packPlayer : Bool := false
  preferredFor : Int := 1
  currentPositionName : Nat := 0
  originalPosition : Nat := 0

/-- Modelled from the spec: `Player::withdrawPlayer` of the absent header: the player leaves
the pitch (and is on the bench: his number on the pitch is 0). -/
def Player.withdrawPlayer (p : Player) : Player :=
  { p with onPitch := false, noOnPitch := 0, onBench := true }

/-- Modelled from the spec: `Player::introducePlayer(number)` of the absent header: the player
enters the pitch at the given position number. -/
def Player.introducePlayer (p : Player) (number : Nat) : Player :=
  { p with onPitch := true, noOnPitch := number, onBench := false }

/-- Modelled from the spec: `Player::sentOff` of the absent header, flagging the send-off. -/
def Player.sentOff (p : Player) : Player :=
  { p with lastMatchSentOff := true }

/-- A team: its squad is a list of player pointers (player codes); `ranking` is 8-bit;
`inPlayoffs` is the flag `_inPlayoffs`; `group` stands for the string `_group`. -/
structure Team where
  squad : List Nat := []
  ranking : Nat := 0
  inPlayoffs : Bool := false
  group : Nat := 0
  deriving DecidableEq, Repr

/-- Modelled from the spec: the constant `penalty.Minutes` of shared/constants.h, the fixed
length of a sin-bin suspension (10 minutes). -/
def penaltyMinutes : Nat := 10

/-- A record of the sin-bin list (class `SinBin` of the absent header match/match.h). -/
structure SinBin where
  player : Nat
  number : Nat
  team : Location
  type : MatchActivityType
  atMinute : Nat
  minutesRemaining : Nat
  deriving DecidableEq, Repr

/-- Modelled from the spec: the constructor of `SinBin`: a sin-bin runs for the fixed
`penalty.Minutes`, a send-off has no minutes remaining (see the comment in
`Match::deductSuspensionMinutesRemaining`). -/
def SinBin.make (player number : Nat) (team : Location) (type : MatchActivityType)
    (atMinute : Nat) : SinBin :=
  { player := player, number := number, team := team, type := type, atMinute := atMinute,
    minutesRemaining := if type = .SIN_BINNED then penaltyMinutes else 0 }

/-- Modelled from the spec: `SinBin::deductMinutesRemaining(minutes)` of the absent header:
the 8-bit countdown is reduced and the call reports true when this deduction brought it to
zero, that is when the player is reinstated. -/
def SinBin.deductMinutesRemaining (s : SinBin) (minutes : Nat) : Bool × SinBin :=
  let remaining := u8 (s.minutesRemaining + 256 - u8 minutes)
  (decide (0 < minutes ∧ remaining = 0), { s with minutesRemaining := remaining })

/-- A record of the list of substitutions (class `Substitution` of the absent header
match/match.h). -/
structure Substitution where
  playerOut : Nat
  playerIn : Nat
  team : Location
  minute : Nat
  deriving DecidableEq, Repr

/-- The members of `Match` that the modelled functions read or write; `players` is the heap
of player objects, addressed by player code.  `teamHostsNull` and `teamVisitorsNull` tell
whether the pointers `_teamHosts` and `_teamVisitors` are null (the sides of a play-off match
not yet drawn), and `playoffsRanking loc` is the pair (group, ranking) that the rule of a
play-off match names for the side (`rule->ranking(loc)`). -/
structure Match where
  type : MatchType := .REGULAR
  timePlayed : MatchTime := {}
  scoreHosts : MatchScore := {}
  scoreVisitors : MatchScore := {}
  teamHosts : Team := {}
  teamVisitors : Team := {}
  players : Nat → Player := fun c => { code := c }
  sinBin : List SinBin := []
  statsHostsPlayers : Nat → Option PlayerStats := fun _ => none
  statsVisitorsPlayers : Nat → Option PlayerStats := fun _ => none
  replacements : List Substitution := []
  played : Bool := false
  playoffsType : ToPlayOff := .UNDEFINED
  teamHostsNull : Bool := false
  teamVisitorsNull : Bool := false
  playoffsRanking : Location → Nat × Nat := fun _ => (0, 1)

/-- Modelled from the spec: the zero-argument overload `MatchScore::points()` of the absent
header: the points total as a pure function of the four scoring counters and the fixed point
values. -/
def MatchScore.pointsTotal (s : MatchScore) : Nat :=
  u16 (s.points .TRY * pointValue.Try + s.points .CONVERSION * pointValue.Conversion +
       s.points .PENALTY * pointValue.Penalty + s.points .DROPGOAL * pointValue.DropGoal)

/-- Modelled from the spec: the accessor `MatchScore::shootOutGoals()`, returned as
`uint8_t`. -/
def MatchScore.getShootOutGoals (s : MatchScore) : Nat := u8 s.shootOutGoals

/-- Modelled from the spec: the mutator `MatchScore::shootOutGoalsScored(goals)` of the absent
header, recording the goals of the kicking competition. -/
def MatchScore.shootOutGoalsScored (s : MatchScore) (goals : Nat) : MatchScore :=
  { s with shootOutGoals := u8 goals }

/-- Embeds `Match::team(loc)`. -/
def Match.team (m : Match) : Location → Team
  | .HOSTS => m.teamHosts
  | .VISITORS => m.teamVisitors

/-- Embeds `Match::score(loc)`. -/
def Match.score (m : Match) : Location → MatchScore
  | .HOSTS => m.scoreHosts
  | .VISITORS => m.scoreVisitors

/-- Embeds `Match::currentPeriod()`. -/
def Match.currentPeriod (m : Match) : Int := m.timePlayed.currentTimePeriod

/-- Embeds `Match::timePlayedInSeconds()`. -/
def Match.timePlayedInSeconds (m : Match) : Nat := m.timePlayed.timePlayedInSeconds

/-- Embeds `Match::playerStats(loc, player)`; `none` is the null pointer. -/
def Match.playerStats (m : Match) (loc : Location) (player : Nat) : Option PlayerStats :=
  match loc with
  | .HOSTS => m.statsHostsPlayers player
  | .VISITORS => m.statsVisitorsPlayers player

/-- Store through the pointer returned by `Match::playerStats(loc, player)`. -/
def Match.setPlayerStats (m : Match) (loc : Location) (player : Nat) (st : PlayerStats) :
    Match :=
  match loc with
  | .HOSTS =>
    { m with statsHostsPlayers := fun c => if c = player then some st else m.statsHostsPlayers c }
  | .VISITORS =>
    { m with statsVisitorsPlayers :=
        fun c => if c = player then some st else m.statsVisitorsPlayers c }

/-- Store through a player pointer. -/
def Match.setPlayer (m : Match) (player : Nat) (p : Player) : Match :=
  { m with players := fun c => if c = player then p else m.players c }

/-- The cast `static_cast<ResultType>(!static_cast<bool>(result))`. -/
def ResultType.negate : ResultType → ResultType
  | .LOSS => .WIN
  | .WIN => .LOSS
  | .DRAW => .LOSS

/-- Embeds `Match::resultTypeForTeam`. -/
def Match.resultTypeForTeam (m : Match) (loc : Location) : ResultType :=
  let r0 : ResultType := .DRAW
  let r1 := if m.scoreHosts.pointsTotal > m.scoreVisitors.pointsTotal then .WIN else r0
  let r2 := if m.scoreHosts.pointsTotal < m.scoreVisitors.pointsTotal then .LOSS else r1
  let r3 :=
    if m.type = .PLAYOFFS ∧ r2 = .DRAW then
      let shootOutGoalsDifference : Int :=
        i8 ((m.scoreHosts.getShootOutGoals : Int) - (m.scoreVisitors.getShootOutGoals : Int))
      let r := if shootOutGoalsDifference > 0 then .WIN else r2
      if shootOutGoalsDifference < 0 then .LOSS else r
    else r2
  if loc = .VISITORS ∧ r3 ≠ .DRAW then r3.negate else r3

/-- Embeds `Match::winner(result)`: the side whose result is `result`, hosts first; `none` is the null
pointer. -/
def Match.winner (m : Match) (result : ResultType) : Option Location :=
  if m.resultTypeForTeam .HOSTS = result then some .HOSTS
  else if m.resultTypeForTeam .VISITORS = result then some .VISITORS
  else none

/-- Embeds `Match::addSuspension`. -/
def Match.addSuspension (m : Match) (player number : Nat) (team : Location)
    (type : MatchActivityType) : Match :=
  let suspensionAtMinute := u8 (m.timePlayed.minutesPlayed + 1)
  { m with sinBin := m.sinBin ++ [SinBin.make player number team type suspensionAtMinute] }

/-- Numeric value of a location: HOSTS = 0, VISITORS = 1. -/
def Location.toNat : Location → Nat
  | .HOSTS => 0
  | .VISITORS => 1

/-- The loop of `Match::deductSuspensionMinutesRemaining` over the sin-bin records: the
updated records, the extended list of returning players and the updated refresh mask. -/
def deductSuspensionLoop (minutes : Nat) :
    List SinBin → List (Nat × Nat) → Nat → List SinBin × List (Nat × Nat) × Nat
  | [], returningPlayers, update => ([], returningPlayers, update)
  | it :: rest, returningPlayers, update =>
    let minutesToDeduct := min (u8 it.minutesRemaining) minutes
    let r := it.deductMinutesRemaining minutesToDeduct
    let returning := if r.1 then returningPlayers ++ [(it.player, it.number)] else returningPlayers
    let upd := if r.1 then u8 (update ||| (it.team.toNat + 1)) else update
    let out := deductSuspensionLoop minutes rest returning upd
    (r.2 :: out.1, out.2.1, out.2.2)

/-- Embeds `Match::deductSuspensionMinutesRemaining(returningPlayers, update, minutes)`; `minutes` is
a `uint8_t` parameter. -/
def Match.deductSuspensionMinutesRemaining (m : Match) (returningPlayers : List (Nat × Nat))
    (update minutes : Nat) : Match × List (Nat × Nat) × Nat :=
  let out := deductSuspensionLoop (u8 minutes) m.sinBin returningPlayers update
  ({ m with sinBin := out.1 }, out.2.1, out.2.2)

/-! ## gameplay.cpp -/

/-- The part of `Settings::matchActivities()` (absent header settings/matchsettings.h) that the
modelled functions consult: the configured base probability of an activity and the outcome
that a foul-play roll maps to. -/
structure Settings where
  probability : MatchActivityType → Nat := fun _ => 50
  foulPlayAction : Nat → MatchActivityType := fun _ => .WARNING
  automaticSubstitutions : Bool := true

/-- Constants of absent headers that the modelled functions use:
`PlayerCondition::minValue`, `PlayerCondition::maxValue`,
`numberOfPlayers.NoOfPlayersForKickingCompetition`, the weights of a default-constructed
`ConditionWeights`, and `timeForGameAction.MIN_PLAY_INTERVAL` and
`timeForGameAction.REPLACEMENT`. -/
structure Constants where
  conditionMinValue : Nat := 1
  conditionMaxValue : Nat := 100
  NoOfPlayersForKickingCompetition : Nat := 5
  conditionWeights : ConditionWeights := {}
  MIN_PLAY_INTERVAL : Nat := 10
  REPLACEMENT : Nat := 30
  deriving DecidableEq, Repr

/-- An item of the global `playerPosition_index`: the base type and the type of a position
(numeric values of the enumerations of the absent header player/position_types.h, UNKNOWN
being -1). -/
structure PlayerPosition_index_item where
  baseType : Int
  positionType : Int
  deriving DecidableEq, Repr

/-- The members of `GamePlay` that the modelled functions read or write; `teamInPossession`
is the pointer `_teamInPossession` (`none` when it points to neither side), `displayMW` tells
whether the engine is bound to the match widget (`displayOn(MW)`), `displayFW` whether it is
bound to the fixtures widget (`displayOn(FW)`); in non-interactive mode both are false.
`myTeam` is the side `_myTeam` points to (`none` when it is no side of this match),
`resumePlaySubstitution` tells whether `_mw->resumePlay()` is `SUBSTITUTION`,
`distanceFromHalfwayLine` is the 8-bit signed `_distanceFromHalfwayLine`, and
`playerPosition_index` is the global index of positions. -/
structure GamePlay where
  periods : MatchPeriods
  settings : Settings := {}
  consts : Constants := {}
  _match : Match := {}
  teamInPossession : Option Location := none
  displayMW : Bool := false
  displayFW : Bool := false
  myTeam : Option Location := none
  resumePlaySubstitution : Bool := false
  distanceFromHalfwayLine : Int := 0
  playerPosition_index : List PlayerPosition_index_item := []

/-- Modelled from the spec: `MatchPeriods::length(period, multiplier)` of the absent header,
the nominal length of the period times the multiplier. -/
def MatchPeriods.length (ps : MatchPeriods) (period : Int) (multiplier : Nat) : Nat :=
  u16 ((ps.value period).length * multiplier)

/-- Embeds `GamePlay::refreshTime(seconds, changeTimePeriod, immediateRepaint)`: the clock and period
logic; the possession and territory ratios and all widget updates are display only and left
out. -/
def GamePlay.refreshTime (g : GamePlay) (seconds : Nat) (changeTimePeriod : Bool) :
    Bool × GamePlay :=
  let m1 : Match := { g._match with timePlayed := g._match.timePlayed.addTime (u8 seconds) }
  let cur := m1.currentPeriod
  let immediateEndOfMatch := g.periods.matchEndsWithResultChange cur &&
    (m1.resultTypeForTeam .HOSTS != g.periods.resultType cur)
  if (decide (m1.timePlayedInSeconds ≥ g.periods.timePlayed cur 60) &&
        g.periods.isPlayingTime cur) || immediateEndOfMatch then
    let endOfMatch := immediateEndOfMatch ||
      (changeTimePeriod && g.periods.matchEnds cur m1.type (m1.resultTypeForTeam .HOSTS))
    if endOfMatch then
      (true, { g with _match :=
        { m1 with timePlayed := m1.timePlayed.switchTimePeriodTo TimePeriod.FULL_TIME.code } })
    else if changeTimePeriod then
      (g.displayMW, { g with _match :=
        { m1 with timePlayed := m1.timePlayed.switchTimePeriodTo TimePeriod.UNDETERMINED.code } })
    else (false, { g with _match := m1 })
  else (false, { g with _match := m1 })

/-- Embeds `GamePlay::whoIsInPossession`: the side in possession first, the other side second. -/
def GamePlay.whoIsInPossession (g : GamePlay) : Location × Location :=
  if g.teamInPossession = some .HOSTS then (.HOSTS, .VISITORS) else (.VISITORS, .HOSTS)

/-- Embeds `GamePlay::probability(type, opponent)`.  The quotient
`teamRankingDiff/std::abs(teamRankingDiff)` is an integer division; with a zero divisor the
behaviour is undefined, which is the result `none`. -/
def GamePlay.probability (g : GamePlay) (type : MatchActivityType) (opponent : Bool) :
    Option Nat :=
  let baseProbability : Nat := u8 (g.settings.probability type)
  let teamRankingDiff : Int :=
    i8 (i8 (u8 (g._match.team g.whoIsInPossession.2).ranking) -
        i8 (u8 (g._match.team g.whoIsInPossession.1).ranking))
  let teamRankingMaxDiff : Nat := u8 (min teamRankingDiff.natAbs 20)
  if teamRankingDiff.natAbs = 0 then none
  else
    let teamRankingDiff2 : Int :=
      i8 ((teamRankingMaxDiff : Int) * (Int.tdiv teamRankingDiff teamRankingDiff.natAbs) *
          (if opponent then -1 else 1))
    some (u8 (min (max ((baseProbability : Int) + teamRankingDiff2) 1) 99).toNat)

/-- The first statements of `GamePlay::dangerousTackle`: the punishment roll, drawn between
a floor that falls with the player's morale and 100, mapped through the foul-play table. -/
def GamePlay.rolledPunishment (g : GamePlay) (tacklingPlayer : Nat) (draw : Nat) :
    MatchActivityType :=
  let player := g._match.players tacklingPlayer
  let probabilityFrom : Nat :=
    ((((g.consts.conditionMinValue + g.consts.conditionMaxValue : Nat) : Int) -
        (u16 player.morale : Int)) % 256).toNat
  let punishment := u8 (generateRandomInt probabilityFrom 100 draw)
  g.settings.foulPlayAction punishment

/-- Embeds `GamePlay::dangerousTackle(tacklingPlayer, type_of_tackle)`: `draw` is the raw value the
random source yields for the punishment roll; the result is the returned flag and the new
engine state, `none` when the match holds no statistics record for the player (the null
pointer is dereferenced).  Log lines and message boxes are left out. -/
def GamePlay.dangerousTackle (g : GamePlay) (tacklingPlayer : Nat) (draw : Nat) :
    Option (Bool × GamePlay) :=
  let opponent := g.whoIsInPossession.2
  let player := g._match.players tacklingPlayer
  let rolled := g.rolledPunishment tacklingPlayer draw
  match g._match.playerStats opponent tacklingPlayer with
  | none => none
  | some st =>
    let numberOfYellowCardsForPlayer := u8 (st.getStatsValue .YELLOW_CARDS)
    let punishmentType :=
      if rolled = .SIN_BINNED ∧ numberOfYellowCardsForPlayer = 1 then .SENT_OFF else rolled
    match punishmentType with
    | .SIN_BINNED =>
      let p1 := { player with stats := player.stats.incrementStatsValue .YELLOW_CARDS }
      let m1 := (g._match.setPlayer tacklingPlayer p1).setPlayerStats opponent tacklingPlayer
        (st.incrementStatsValue .YELLOW_CARDS)
      let m2 := m1.addSuspension tacklingPlayer p1.noOnPitch opponent punishmentType
      some (true, { g with _match := m2.setPlayer tacklingPlayer p1.withdrawPlayer })
    | .SENT_OFF =>
      let p1 := { player with stats := player.stats.incrementStatsValue .RED_CARDS }
      let m1 := (g._match.setPlayer tacklingPlayer p1).setPlayerStats opponent tacklingPlayer
        (st.incrementStatsValue .RED_CARDS)
      let m2 := m1.addSuspension tacklingPlayer p1.noOnPitch opponent punishmentType
      some (true, { g with _match := m2.setPlayer tacklingPlayer p1.withdrawPlayer.sentOff })
    | _ => some (false, g)

/-- Embeds `GamePlay::suspensionsUpdate(minutes)`: the countdown of every suspension is reduced and
the players whose suspension ended are put back on the pitch. -/
def GamePlay.suspensionsUpdate (g : GamePlay) (minutes : Nat) : GamePlay :=
  let out := g._match.deductSuspensionMinutesRemaining [] 0 minutes
  let back : Match → Nat × Nat → Match :=
    fun m pl => m.setPlayer pl.fst (Player.introducePlayer (m.players pl.fst) pl.snd)
  { g with _match := List.foldl back out.fst out.snd.fst }

/-- The loop `while (goals[0] == goals[1]) goals[1] = generateRandomInt(0, max)` of
`kickingCompetition`, fed from the list of raw random values; `none` when the list runs out
before the loop ends. -/
def rerollUntilDistinct (goals0 maxNumberOfGoals : Nat) : Nat → List Nat → Option (Nat × List Nat)
  | goals1, draws =>
    if goals0 ≠ goals1 then some (goals1, draws)
    else match draws with
      | [] => none
      | d :: rest =>
        rerollUntilDistinct goals0 maxNumberOfGoals (u8 (generateRandomInt 0 maxNumberOfGoals d)) rest

/-- The body of the loop over both sides in `kickingCompetition`: the maximal number of goals
of a side, from the kicking attributes of its best kickers on the pitch. -/
def GamePlay.maxNumberOfGoals (g : GamePlay) (loc : Location) : Nat :=
  let noOfPlayers := u8 g.consts.NoOfPlayersForKickingCompetition
  let bestKicking := (((g._match.team loc).squad.filter
    (fun c => (g._match.players c).onPitch)).map
    (fun c => u8 (g._match.players c).kicking)).insertionSort (· ≤ ·)
  let bestKickingSize := min noOfPlayers bestKicking.length
  let sumKicking := u8 ((bestKicking.reverse.take bestKickingSize).sum)
  u8 ((sumKicking + 9) / 10)

/-- Embeds `GamePlay::kickingCompetition`, fed from the list `draws` of raw random values: the new
state and the unused draws, `none` when the draws run out before the function returns. -/
def GamePlay.kickingCompetition (g : GamePlay) (draws : List Nat) :
    Option (GamePlay × List Nat) :=
  match draws with
  | d0 :: d1 :: rest =>
    let goals0 := u8 (generateRandomInt 0 (g.maxNumberOfGoals .HOSTS) d0)
    let maxNumberOfGoals := g.maxNumberOfGoals .VISITORS
    let goals1 := u8 (generateRandomInt 0 maxNumberOfGoals d1)
    match rerollUntilDistinct goals0 maxNumberOfGoals goals1 rest with
    | none => none
    | some (goals1, rest2) =>
      let m := g._match
      let m1 : Match :=
        { m with scoreHosts := m.scoreHosts.shootOutGoalsScored goals0,
                 scoreVisitors := m.scoreVisitors.shootOutGoalsScored goals1 }
      some ({ g with _match :=
        { m1 with timePlayed := m1.timePlayed.addTime (g.periods.length m1.currentPeriod 60) } },
        rest2)
  | _ => none

/-- Embeds `Match::addNewStatsRecordForPlayer(loc, player)`: a fresh statistics record is inserted
for the player. -/
def Match.addNewStatsRecordForPlayer (m : Match) (loc : Location) (player : Nat) : Match :=
  m.setPlayerStats loc player {}

/-- An engine event that touches the per-match card statistics: a dangerous tackle (with the
side in possession at that moment, the tackling player and the raw punishment draw), or the
creation of the statistics record of a player who enters the match. -/
inductive CardEvent
  | tackle (teamInPossession : Option Location) (tacklingPlayer : Nat) (draw : Nat)
  | newStatsRecord (loc : Location) (player : Nat)
  deriving DecidableEq, Repr

/-- Effect of a sequence of card events, first event first; `none` when a tackle dereferences
a missing statistics record. -/
def GamePlay.cardEvents : GamePlay → List CardEvent → Option GamePlay
  | g, [] => some g
  | g, .tackle tip tp draw :: es =>
    match ({ g with teamInPossession := tip }).dangerousTackle tp draw with
    | none => none
    | some r => GamePlay.cardEvents r.2 es
  | g, .newStatsRecord loc player :: es =>
    GamePlay.cardEvents { g with _match := g._match.addNewStatsRecordForPlayer loc player } es

/-- A sequence of calls `deductSuspensionMinutesRemaining(returningPlayers, update, minutes)`,
each with a fresh empty list and mask as `suspensionsUpdate` passes them; the match after the
last call. -/
def Match.deductSuspensionCalls : Match → List Nat → Match
  | m, [] => m
  | m, minutes :: rest =>
    Match.deductSuspensionCalls (m.deductSuspensionMinutesRemaining [] 0 minutes).1 rest

/-- The number of minutes that a sequence of calls deducts in all (each call passes a
`uint8_t`). -/
def minutesDeductedBy (calls : List Nat) : Nat := (calls.map u8).sum

/-! ## Further constants of shared/constants.h -/

/-- Value stored in an `int16_t` (two's complement wrap-around). -/
def i16 (z : Int) : Int := (z + 32768) % 65536 - 32768

/-- Modelled from the spec: the constant table `groundDimensions` of shared/constants.h
(metres): the goal lines are 100 m apart, the halfway line 50 m from each; the 5-metre and
22-metre lines; half the width of the pitch (35 m, so that a third of it plus one is the 12 m
of the comment in `selectActionAfterPenaltyInfringement`). -/
structure GroundDimensions where
  fromGoalLineToHalfwayLine : Nat
  fromGoalLineToGoalLine : Nat
  fromGoalLineTo5metreLine : Nat
  fromGoalLineTo22metreLine : Nat
  fromTouchToHalfwayPoint : Nat

/-- Modelled from the spec: the values of `groundDimensions`. -/
def groundDimensions : GroundDimensions :=
  { fromGoalLineToHalfwayLine := 50, fromGoalLineToGoalLine := 100,
    fromGoalLineTo5metreLine := 5, fromGoalLineTo22metreLine := 22,
    fromTouchToHalfwayPoint := 35 }

/-- Modelled from the spec: the entries `NoOfPointsForDiffPoint` and `NoOfTriesForBonusPoint`
of the constant table `matchPoints` of shared/constants.h: a loss by at most 7 points and
four tries earn a bonus point. -/
structure MatchPoints where
  NoOfPointsForDiffPoint : Nat
  NoOfTriesForBonusPoint : Nat

/-- Modelled from the spec: the values of `matchPoints.NoOfPointsForDiffPoint` and
`matchPoints.NoOfTriesForBonusPoint`. -/
def matchPoints : MatchPoints := { NoOfPointsForDiffPoint := 7, NoOfTriesForBonusPoint := 4 }

/-- Modelled from the spec: the entries `PlayersOnPitch`, `PlayersOnBench` and `NoOfForwards`
of the constant table `numberOfPlayers` of shared/constants.h: 15 players a side, 8 of them
forwards, and 8 substitutes. -/
structure NumberOfPlayers where
  PlayersOnPitch : Nat
  PlayersOnBench : Nat
  NoOfForwards : Nat

/-- Modelled from the spec: the values of `numberOfPlayers`. -/
def numberOfPlayers : NumberOfPlayers :=
  { PlayersOnPitch := 15, PlayersOnBench := 8, NoOfForwards := 8 }

/-! ## Ball position (gameplay.cpp) -/

/-- Embeds `GamePlay::distanceToGoalLine`, returned as `int8_t`. -/
def GamePlay.distanceToGoalLine (g : GamePlay) : Int :=
  let distanceForHosts : Int :=
    i8 (i8 groundDimensions.fromGoalLineToHalfwayLine - g.distanceFromHalfwayLine)
  if g.teamInPossession = some .HOSTS then distanceForHosts
  else i8 (i8 groundDimensions.fromGoalLineToGoalLine - distanceForHosts)

/-- Embeds `GamePlay::changeBallPositionOnPitch(metresMade)`; `metresMade` is a `uint8_t`
parameter, the sums are formed in `int` and stored into the 8-bit signed position. -/
def GamePlay.changeBallPositionOnPitch (g : GamePlay) (metresMade : Nat) : GamePlay :=
  let g1 :=
    if g.whoIsInPossession.1 = .HOSTS then
      { g with distanceFromHalfwayLine := i8 (g.distanceFromHalfwayLine + u8 metresMade) }
    else g
  if g1.whoIsInPossession.1 = .VISITORS then
    { g1 with distanceFromHalfwayLine := i8 (g1.distanceFromHalfwayLine - u8 metresMade) }
  else g1

/-- Embeds `GamePlay::moveBallToSpecificPositionOnPitch(moveToThisDistanceFromGoalLine)`: the
result is the returned `uint8_t` and the engine state afterwards, `none` when the quotient
`_distanceFromHalfwayLine/std::abs(_distanceFromHalfwayLine)` has a zero divisor.  The
difference and the product are formed in `int` (`std::abs` of the promoted value) and the
product is stored into the 8-bit signed position. -/
def GamePlay.moveBallToSpecificPositionOnPitch (g : GamePlay)
    (moveToThisDistanceFromGoalLine : Nat) : Option (Nat × GamePlay) :=
  let move := u8 moveToThisDistanceFromGoalLine
  if move > groundDimensions.fromGoalLineToHalfwayLine then
    some ((g.distanceToGoalLine % 256).toNat, g)
  else if i8 groundDimensions.fromGoalLineToHalfwayLine - (g.distanceFromHalfwayLine.natAbs : Int)
      < (move : Int) then
    if (g.distanceFromHalfwayLine.natAbs : Int) = 0 then none
    else
      let position := i8 (g.distanceFromHalfwayLine.tdiv (g.distanceFromHalfwayLine.natAbs : Int) *
        ((groundDimensions.fromGoalLineToHalfwayLine : Int) - (move : Int)))
      let g1 := { g with distanceFromHalfwayLine := position }
      some ((g1.distanceToGoalLine % 256).toNat, g1)
  else some ((g.distanceToGoalLine % 256).toNat, g)

/-! ## Bonus point and point difference (match.cpp) -/

/-- Embeds `Match::diffBonusPoint(loc)`: the difference of the two point totals is formed in `int`
and stored as `int16_t`. -/
def Match.diffBonusPoint (m : Match) (loc : Location) : Bool :=
  let pointDifference : Int :=
    i16 ((m.scoreHosts.pointsTotal : Int) - (m.scoreVisitors.pointsTotal : Int))
  if pointDifference = 0 ∨ pointDifference.natAbs > matchPoints.NoOfPointsForDiffPoint then false
  else if loc = .HOSTS then decide (pointDifference < 0) else decide (pointDifference > 0)

/-- Embeds `Match::pointDifferenceInRange(loc, minDifference, maxDifference, minClosedInterval,
maxClosedInterval)`: the bounds are `int8_t` parameters, the difference of the `int16_t`
totals times the sign is stored as `int8_t`. -/
def Match.pointDifferenceInRange (m : Match) (loc : Location) (minDifference maxDifference : Int)
    (minClosedInterval maxClosedInterval : Bool) : Bool :=
  let negateDifference : Int := if loc = .VISITORS then -1 else 1
  let pointDifference : Int :=
    i8 ((i16 (m.scoreHosts.pointsTotal : Int) - i16 (m.scoreVisitors.pointsTotal : Int)) *
      negateDifference)
  let minDifferenceOK : Bool :=
    if minClosedInterval then decide (pointDifference ≥ i8 minDifference)
    else decide (pointDifference > i8 minDifference)
  let maxDifferenceOK : Bool :=
    if maxClosedInterval then decide (pointDifference ≤ i8 maxDifference)
    else decide (pointDifference < i8 maxDifference)
  minDifferenceOK && maxDifferenceOK

/-! ## Option after a penalty infringement (gameplay.cpp) -/

/-- Embeds `GamePlay::PenaltyAction`; the list of options offered is a list of these actions (in
the source, of their captions). -/
inductive PenaltyAction
  | KICK_AT_GOAL | KICK_TO_TOUCH | SCRUM | TAP_PENALTY
  deriving DecidableEq, Repr

/-- The flag `pointsInSpecifiedRange` of `selectActionAfterPenaltyInfringement`: the call
`pointDifferenceInRange(team, -pointValue.Penalty, -(pointValue.Try+pointValue.Conversion),
false)`; the fifth argument is left to its default, taken to be `true` (the comment names the
interval (3,7]). -/
def GamePlay.pointsInSpecifiedRange (g : GamePlay) : Bool :=
  g._match.pointDifferenceInRange g.whoIsInPossession.1 (-(pointValue.Penalty : Int))
    (-((pointValue.Try : Int) + (pointValue.Conversion : Int))) false true

/-- Embeds `GamePlay::selectActionAfterPenaltyInfringement(optionsForPenalty, distanceFromMiddle)`:
`draw` is the raw random value of the final random selection; `none` when that selection
indexes past the end of the list. -/
def GamePlay.selectActionAfterPenaltyInfringement (g : GamePlay)
    (optionsForPenalty : List PenaltyAction) (distanceFromMiddle : Nat) (draw : Nat) :
    Option PenaltyAction :=
  let team := g.whoIsInPossession.1
  let pointsInSpecifiedRange := g.pointsInSpecifiedRange
  let triesMatch : Bool :=
    decide (((g._match.score team).points .TRY : Int) =
      (matchPoints.NoOfPointsForDiffPoint : Int) - 1)
  if optionsForPenalty.contains .SCRUM &&
      decide (g.distanceToGoalLine ≤ ((groundDimensions.fromGoalLineTo5metreLine * 2 : Nat) : Int)) &&
      (pointsInSpecifiedRange || triesMatch) then some .SCRUM
  else if optionsForPenalty.contains .KICK_AT_GOAL &&
      decide (g.distanceToGoalLine ≤ (groundDimensions.fromGoalLineTo22metreLine : Int)) &&
      decide (u8 distanceFromMiddle ≤ groundDimensions.fromTouchToHalfwayPoint / 3 + 1) then
    some .KICK_AT_GOAL
  else if optionsForPenalty.contains .KICK_TO_TOUCH &&
      decide (g.distanceToGoalLine > (groundDimensions.fromGoalLineTo22metreLine : Int)) &&
      (pointsInSpecifiedRange || triesMatch) then some .KICK_TO_TOUCH
  else
    let randomSelection :=
      u8 (generateRandomInt 0 ((((optionsForPenalty.length : Int) - 1) % 256).toNat) draw)
    optionsForPenalty.get? randomSelection

/-! ## Squad check (team.cpp) -/

/-- Modelled from the spec: `Player::isBasePlayer()` of the absent header: the player wears one
of the shirt numbers 1..15 of the starting side. -/
def Player.isBasePlayer (p : Player) : Bool :=
  decide (1 ≤ p.shirtNo) && decide (p.shirtNo ≤ numberOfPlayers.PlayersOnPitch)

/-- The shirt numbers (8-bit) that `areAllPlayersSelected` adds up: those of the available base
players of the squad, in squad order. -/
def Team.selectedShirtNumbers (t : Team) (players : Nat → Player) : List Nat :=
  (t.squad.filter (fun c => (players c).isBasePlayer && (players c).available)).map
    (fun c => u8 (players c).shirtNo)

/-- Embeds `Team::areAllPlayersSelected`: both check sums are accumulated in `uint16_t`. -/
def Team.areAllPlayersSelected (t : Team) (players : Nat → Player) : Bool :=
  let teamSquadCheckSum := (t.selectedShirtNumbers players).foldl (fun x n => u16 (x + n)) 0
  let fullSquadCheckSum :=
    (List.range' 1 numberOfPlayers.PlayersOnPitch).foldl (fun x i => u16 (x + i)) 0
  decide (teamSquadCheckSum = fullSquadCheckSum)

/-! ## Double precision arithmetic (IEEE 754 binary64) -/

/-- The number of binary digits of `n`, computed with `fuel` halvings at most (`fuel = n` is
always enough). -/
def bitLength : Nat → Nat → Nat
  | 0, _ => 0
  | fuel + 1, n => if n = 0 then 0 else bitLength fuel (n / 2) + 1

/-- A value of the C++ type `double` that is not negative: a finite value is the fraction
`num / den`; the other two are positive infinity and not-a-number. -/
inductive Binary64
  | finite (num den : Nat)
  | infinite
  | nan
  deriving DecidableEq, Repr

/-- The `double` nearest to the fraction `n / d` (with `d` not 0), ties to the even
significand, as IEEE 754 prescribes for every arithmetic operation.  The fraction is scaled
by a power of two so that its integer part has 53 binary digits, the precision of a
`double`; that integer part, rounded, is the significand.  The exponent range of the format
is not modelled: the values of the modelled expressions lie between 2^-60 and 2^60. -/
def roundToBinary64 (n d : Nat) : Binary64 :=
  if n = 0 then .finite 0 1
  else
    let up := bitLength d d + 53 - bitLength n n
    let down := bitLength n n - (bitLength d d + 53)
    let numerator := n * 2 ^ up
    let denominator :=
      if 2 ^ 53 ≤ numerator / (d * 2 ^ down) then d * 2 ^ (down + 1) else d * 2 ^ down
    let quotient := numerator / denominator
    let remainder := numerator % denominator
    let significand :=
      if 2 * remainder > denominator ∨ (2 * remainder = denominator ∧ quotient % 2 = 1) then
        quotient + 1
      else quotient
    .finite (significand * (denominator / d)) (2 ^ up)

/-- The conversion of an unsigned integer to `double`, exact for the 8-bit and 16-bit values
that are converted in the modelled code. -/
def Binary64.ofNat (n : Nat) : Binary64 := .finite n 1

/-- The quotient of two values of type `double` (none of them negative). -/
def Binary64.div : Binary64 → Binary64 → Binary64
  | .finite n1 d1, .finite n2 d2 =>
    if n2 = 0 then (if n1 = 0 then .nan else .infinite)
    else roundToBinary64 (n1 * d2) (d1 * n2)
  | .finite _ _, .infinite => .finite 0 1
  | .infinite, .finite _ _ => .infinite
  | _, _ => .nan

/-- The product of two values of type `double` (none of them negative). -/
def Binary64.mul : Binary64 → Binary64 → Binary64
  | .finite n1 d1, .finite n2 d2 => roundToBinary64 (n1 * n2) (d1 * d2)
  | .finite n _, .infinite => if n = 0 then .nan else .infinite
  | .infinite, .finite n _ => if n = 0 then .nan else .infinite
  | .infinite, .infinite => .infinite
  | _, _ => .nan

/-- The function `std::round` on a `double` that is not negative: the nearest integer, halves
upwards. -/
def Binary64.round : Binary64 → Binary64
  | .finite n d => .finite ((2 * n + d) / (2 * d)) 1
  | x => x

/-- The conversion `static_cast` of a `double` to an unsigned integer type of `bits` bits: the
value is truncated; the behaviour is undefined, which is the result `none`, when the
truncated value cannot be represented in the type, as for an infinite value or
not-a-number. -/
def Binary64.toUInt (bits : Nat) : Binary64 → Option Nat
  | .finite n d => if n / d < 2 ^ bits then some (n / d) else none
  | _ => none

/-! ## Tackle probability (gameplay.cpp, match.cpp) -/

/-- Embeds `Team::numberOfPlayersOnPitch`, returned as `uint8_t`. -/
def Team.numberOfPlayersOnPitch (t : Team) (players : Nat → Player) : Nat :=
  u8 ((t.squad.filter (fun c => (players c).onPitch)).length)

/-- Embeds `Match::playersOnPitchRatio(loc)`: the quotient of the two counts in `double`, and for
the visitors `1/ratio`, the `double` quotient of 1 and that quotient. -/
def Match.playersOnPitchRatio (m : Match) (loc : Location) : Binary64 :=
  let ratio := Binary64.div (.ofNat (m.teamHosts.numberOfPlayersOnPitch m.players))
    (.ofNat (m.teamVisitors.numberOfPlayersOnPitch m.players))
  if loc = .HOSTS then ratio else Binary64.div (.ofNat 1) ratio

/-- The activity `MatchActionSubtype::RUN_TACKLE_COMPLETED`. -/
def MatchActivityType.RUN_TACKLE_COMPLETED : MatchActivityType := .OTHER 0

/-- The local `probabilityRaw` of `GamePlay::playerIsTackled`: the `double` product of the
players-on-pitch ratio of the defending side and the adjusted probability (an 8-bit value,
converted exactly). -/
def GamePlay.probabilityRaw (g : GamePlay) (adjustedProbability : Nat) : Binary64 :=
  Binary64.mul (g._match.playersOnPitchRatio g.whoIsInPossession.2)
    (.ofNat adjustedProbability)

/-- The first statements of `GamePlay::playerIsTackled`: the probability of a completed tackle,
`std::min(static_cast<uint8_t>(std::round(probabilityRaw)), static_cast<uint8_t>(100))`.
The result is `none` where the conversion to `uint8_t` is undefined, as it is when
`probability` has no value. -/
def GamePlay.tackleProbability (g : GamePlay) : Option Nat :=
  match g.probability MatchActivityType.RUN_TACKLE_COMPLETED true with
  | none => none
  | some adjusted =>
    match (g.probabilityRaw adjusted).round.toUInt 8 with
    | none => none
    | some probability => some (min probability 100)

/-! ## Substitutions (gameplay.cpp, match.cpp, position_types.cpp) -/

/-- Embeds `PlayerPosition_index::findPositionBaseTypeByType(type)`: the base type of the first
item of the index with that position type, UNKNOWN (-1) when there is none. -/
def findPositionBaseTypeByType (index : List PlayerPosition_index_item) (type : Int) : Int :=
  match index.find? (fun position => position.positionType == type) with
  | some position => position.baseType
  | none => -1

/-- Modelled from the spec: the one-argument overload `Player::condition(condition)` of the
absent header player/player.h: the current value of the condition, as
`PlayerCondition::getValue` returns it. -/
def GamePlay.playerCondition (g : GamePlay) (player : Nat) (condition : Conditions) : Nat :=
  (g._match.players player).condition.getValue g.consts.conditionWeights condition false

/-- Embeds `GamePlay::isEligibleForSubstitution(playerGoingOut, playerPossiblyGoingIn, loc,
injuryReplacement)`. -/
def GamePlay.isEligibleForSubstitution (g : GamePlay) (playerGoingOut playerPossiblyGoingIn : Nat)
    (loc : Location) (injuryReplacement : Bool) : Bool :=
  let baseType := findPositionBaseTypeByType g.playerPosition_index
    (g._match.players playerGoingOut).positionType
  decide (findPositionBaseTypeByType g.playerPosition_index
      (g._match.players playerPossiblyGoingIn).positionType = baseType) &&
    (g._match.players playerPossiblyGoingIn).onBench &&
    (match g._match.playerStats loc playerPossiblyGoingIn with
     | none => true
     | some st => st.noMatchesPlayed || injuryReplacement) &&
    (g._match.players playerPossiblyGoingIn).healthy

/-- Embeds `Match::addSubstitution(playerOut, playerIn, team)`: the returned flag tells whether
this is the first substitution of the minute; the minute is 8-bit. -/
def Match.addSubstitution (m : Match) (playerOut playerIn : Nat) (team : Location) :
    Bool × Match :=
  let substitutionAtMinute := u8 (m.timePlayed.minutesPlayed + 1)
  let firstSubstitutionAtThisMinute : Bool :=
    match m.replacements.getLast? with
    | none => true
    | some last => decide (last.minute < substitutionAtMinute)
  (firstSubstitutionAtThisMinute,
   { m with replacements := m.replacements ++
      [{ playerOut := playerOut, playerIn := playerIn, team := team,
         minute := substitutionAtMinute }] })

/-- Modelled from the spec: `MatchPeriods::isInterval(period)` of the absent header: the period
is one of the intervals of the period table. -/
def MatchPeriods.isInterval (ps : MatchPeriods) (period : Int) : Bool :=
  (ps.value period).periodType == .INTERVAL_PERIOD

/-- Embeds `GamePlay::updateStatistics(loc, stats, player)`: the counter is incremented in the
player's career record and in the record of the current match; `none` when the match holds
no record for the player (the null pointer is dereferenced). -/
def GamePlay.updateStatistics (g : GamePlay) (loc : Location) (stats : CardStat) (player : Nat) :
    Option GamePlay :=
  let p := g._match.players player
  let m1 := g._match.setPlayer player { p with stats := p.stats.incrementStatsValue stats }
  match m1.playerStats loc player with
  | none => none
  | some st => some { g with _match := m1.setPlayerStats loc player (st.incrementStatsValue stats) }

/-- Embeds `GamePlay::switchPlayers(playerOut, playerIn, loc)`; `formDraw` is the outcome of
`generateRandomBool(50)`, drawn when the two position types differ.  The transfer of kicking
preferences, the refresh of the points list and the log line are left out. -/
def GamePlay.switchPlayers (g : GamePlay) (playerOut playerIn : Nat) (loc : Location)
    (formDraw : Bool) : Option GamePlay :=
  let m0 := g._match
  let m1 := m0.setPlayer playerIn
    ((m0.players playerIn).introducePlayer (m0.players playerOut).noOnPitch)
  let in1 := m1.players playerIn
  let m2 := m1.setPlayer playerIn
    { in1 with currentPosition := (m1.players playerOut).currentPosition }
  let m3 := m2.addNewStatsRecordForPlayer loc playerIn
  match ({ g with _match := m3 }).updateStatistics loc .GAMES_PLAYED playerIn with
  | none => none
  | some g4 =>
    match g4.updateStatistics loc .GAMES_PLAYED_SUB playerIn with
    | none => none
    | some g5 =>
      let m5 := g5._match
      let in5 := m5.players playerIn
      let lowerForm := PlayerCondition.decreaseCondition g.consts.conditionMinValue
        g.consts.conditionMaxValue in5.condition .FORM (if formDraw then 1 else 0)
      let m6 :=
        if in5.positionType ≠ (m5.players playerOut).positionType then
          m5.setPlayer playerIn { in5 with condition := lowerForm }
        else m5
      some { g5 with _match := m6.setPlayer playerOut (m6.players playerOut).withdrawPlayer }

/-- The algorithm `std::max_element` with the comparison `key first < key second`: the first
element of the list whose key is the largest, `none` (the end iterator) for the empty list. -/
def maxElementBy (key : Nat → Nat) : List Nat → Option Nat
  | [] => none
  | x :: xs => some (xs.foldl (fun largest y => if key largest < key y then y else largest) x)

/-- The vector `playersForSubstitution` of `GamePlay::substitution`: the players of the squad
that are eligible to replace `oldPlayer`, in squad order. -/
def GamePlay.playersForSubstitution (g : GamePlay) (oldPlayer : Nat) (loc : Location)
    (injuryReplacement : Bool) : List Nat :=
  (g._match.team loc).squad.filter
    (fun player => g.isEligibleForSubstitution oldPlayer player loc injuryReplacement)

/-- The comparison `newValue > oldValue * 1.05` of two `uint16_t` values, formed in `double`.
For integers below 65536 the product with the `double` nearest to 1.05 rounds to a value that
lies on the same side of every integer as the exact 21 * oldValue / 20 (and is that integer
when oldValue is a multiple of 20), so the comparison is that of 20 * newValue with
21 * oldValue. -/
def clearsMargin (newValue oldValue : Nat) : Bool :=
  decide (20 * newValue > 21 * oldValue)

/-- The local variables of the background loop of `GamePlay::substitution` together with the
engine state. -/
structure SubstitutionRun where
  g : GamePlay
  timePassed : Nat := 0
  noOfReplacedPlayers : Nat := 0

/-- The replacement of `oldPlayer` by `newPlayer` inside the background loop: the record is
added to the list of substitutions, the time of a replacement is charged for the first
substitution of a minute outside the intervals, the players are switched and the counter of
replaced players is incremented.  `formDraws k` is the outcome of the random draw of the
switch made after k replacements. -/
def GamePlay.replace (loc : Location) (formDraws : Nat → Bool) (s : SubstitutionRun)
    (oldPlayer newPlayer : Nat) : Option SubstitutionRun :=
  let added := s.g._match.addSubstitution oldPlayer newPlayer loc
  let timePassed :=
    if added.1 && !(s.g.periods.isInterval s.g._match.currentPeriod) then s.g.consts.REPLACEMENT
    else s.timePassed
  match ({ s.g with _match := added.2 }).switchPlayers oldPlayer newPlayer loc
      (formDraws s.noOfReplacedPlayers) with
  | none => none
  | some g1 =>
    some { g := g1, timePassed := timePassed,
           noOfReplacedPlayers := u8 (s.noOfReplacedPlayers + 1) }

/-- The body of the background loop of `GamePlay::substitution` for one element `squadPlayer`
of the squad, up to the test that ends the loop; `injuredPlayer` is `none` for the null
pointer.  The result is `none` when the statistics record of a healthy player on the pitch
is missing (the null pointer is dereferenced). -/
def GamePlay.substitutionStep (loc : Location) (injuredPlayer : Option Nat)
    (formDraws : Nat → Bool) (s : SubstitutionRun) (squadPlayer : Nat) :
    Option SubstitutionRun :=
  let oldPlayer := match injuredPlayer with
    | some injured => injured
    | none => squadPlayer
  let old := s.g._match.players oldPlayer
  let longEnoughOnPitch : Option Bool :=
    if old.onPitch = false then some false
    else if injuredPlayer = some oldPlayer then some true
    else if old.healthy = false then some false
    else
      match s.g._match.playerStats loc oldPlayer with
      | none => none
      | some st =>
        some (decide (st.getStatsValue .MINS_PLAYED ≥ max 1 (u8 s.g.consts.MIN_PLAY_INTERVAL)))
  match longEnoughOnPitch with
  | none => none
  | some false => some s
  | some true =>
    match maxElementBy (fun player => s.g.playerCondition player .OVERALL)
        (s.g.playersForSubstitution oldPlayer loc injuredPlayer.isSome) with
    | some newPlayer =>
      if injuredPlayer.isSome ||
          clearsMargin (s.g.playerCondition newPlayer .OVERALL)
            (s.g.playerCondition oldPlayer .OVERALL) then
        GamePlay.replace loc formDraws s oldPlayer newPlayer
      else some s
    | none =>
      if injuredPlayer.isSome then
        let withdrawn := s.g._match.setPlayer oldPlayer old.withdrawPlayer
        some { s with g := { s.g with _match := withdrawn } }
      else some s

/-- The background loop of `GamePlay::substitution` over the squad: it ends after the first
element when a player is injured, and after the third replacement. -/
def GamePlay.substitutionLoop (loc : Location) (injuredPlayer : Option Nat)
    (formDraws : Nat → Bool) : SubstitutionRun → List Nat → Option SubstitutionRun
  | s, [] => some s
  | s, squadPlayer :: rest =>
    match GamePlay.substitutionStep loc injuredPlayer formDraws s squadPlayer with
    | none => none
    | some s1 =>
      if injuredPlayer.isSome || s1.noOfReplacedPlayers == 3 then some s1
      else GamePlay.substitutionLoop loc injuredPlayer formDraws s1 rest

/-- The condition of the dialog-driven block of `GamePlay::substitution`: the engine is bound
to the match widget, the side is the user's, and substitutions are manual or requested. -/
def GamePlay.substitutionByDialog (g : GamePlay) (team : Location) : Bool :=
  g.displayMW && decide (g.myTeam = some team) &&
    (!g.settings.automaticSubstitutions || g.resumePlaySubstitution)

/-- The condition of the background block of `GamePlay::substitution`. -/
def GamePlay.substitutionInBackground (g : GamePlay) (team : Location) : Bool :=
  (g.displayMW && (decide (g.myTeam ≠ some team) ||
      (g.settings.automaticSubstitutions && !g.resumePlaySubstitution))) || g.displayFW

/-- Embeds `GamePlay::substitution(team, injuredPlayer)`; the result is the returned time and
the engine state afterwards.  `team` is the side whose pointer is passed.  The dialog-driven
block is the parameter `dialogs`: from the state it yields the time passed so far and the
state after the user's choices; the background block follows. -/
def GamePlay.substitution (g : GamePlay) (team : Location) (injuredPlayer : Option Nat)
    (formDraws : Nat → Bool) (dialogs : GamePlay → Nat × GamePlay) : Option (Nat × GamePlay) :=
  let loc := team
  let afterDialogs : Nat × GamePlay :=
    if g.substitutionByDialog team then dialogs g else (0, g)
  let g1 := afterDialogs.2
  if g1.substitutionInBackground team then
    match GamePlay.substitutionLoop loc injuredPlayer formDraws
        { g := g1, timePassed := afterDialogs.1 } (g1._match.team loc).squad with
    | none => none
    | some s => some (s.timePassed, s.g)
  else some afterDialogs

/-! ## Injuries (gameplay.cpp) -/

/-- The local `probabilityOfInjury` of `GamePlay::playerInjured`: the sum is formed in `int` from
the 8-bit attributes and stored as `uint8_t`. -/
def GamePlay.probabilityOfInjury (g : GamePlay) (player : Nat) : Nat :=
  let p := g._match.players player
  u8 (50 + (u8 p.agility * 2 + u8 p.dexterity * 5 + u8 p.tackling * 3) / 2)

/-- The argument `100 - probabilityOfInjury` that `GamePlay::playerInjured` passes to
`RandomValue::generateRandomBool`, as the `int` the subtraction yields. -/
def GamePlay.injuryChance (g : GamePlay) (player : Nat) : Int :=
  100 - (g.probabilityOfInjury player : Int)

/-! ## Teams of a play-off match (match.cpp) -/

/-- Embeds `Match::setTeam(loc, team)`: the returned flag and the match afterwards; the team
object is flagged as progressed to the play-offs (`toPlayoffs(true)`). -/
def Match.setTeam (m : Match) (loc : Location) (team : Team) : Bool × Match :=
  let assigned := { team with inPlayoffs := true }
  let teamSet1 := decide (loc = .HOSTS)
  let m1 := if teamSet1 then { m with teamHosts := assigned, teamHostsNull := false } else m
  let teamSet2 := decide (loc = .VISITORS)
  let m2 :=
    if teamSet2 then { m1 with teamVisitors := assigned, teamVisitorsNull := false } else m1
  (teamSet2, m2)

/-- The test `match->team(loc) == nullptr`. -/
def Match.teamIsNull (m : Match) : Location → Bool
  | .HOSTS => m.teamHostsNull
  | .VISITORS => m.teamVisitorsNull

/-- Embeds `Playoffs::from_match(playOffType)`: the index of the first match not yet played that
is a play-off match of the given kind, the length of the list (the end iterator) when there
is none. -/
def Playoffs.from_match (fixtures : List Match) (playOffType : ToPlayOff) : Nat :=
  fixtures.findIdx
    (fun m => !m.played && decide (m.type = .PLAYOFFS) && decide (m.playoffsType = playOffType))

/-- The body of the inner loop of `Playoffs::drawPlayoffs` for one side of a match: `count` is
`teamsAssignedToPlayoffMatches` (8-bit), `table group` is the vector `teamsInGroup` of the
group after `std::sort` with `sortTable`; `none` when the subscript `teamsInGroup[ranking]`
is out of range. -/
def Playoffs.drawSide (table : Nat → List Team) (st : Nat × Match) (loc : Location) :
    Option (Nat × Match) :=
  if st.2.teamIsNull loc then
    let group := (st.2.playoffsRanking loc).1
    let ranking := ((((st.2.playoffsRanking loc).2 : Int) - 1) % 256).toNat
    match (table group).get? ranking with
    | none => none
    | some team =>
      let r := st.2.setTeam loc team
      some (u8 (st.1 + (if r.1 then 1 else 0)), r.2)
  else some st

/-- The body of the outer loop of `Playoffs::drawPlayoffs` for one match. -/
def Playoffs.drawMatch (table : Nat → List Team) (count : Nat) (m : Match) :
    Option (Nat × Match) :=
  if m.type ≠ .PLAYOFFS then some (count, m)
  else if m.playoffsType = .FROM_REGULAR then
    match Playoffs.drawSide table (count, m) .HOSTS with
    | none => none
    | some st => Playoffs.drawSide table st .VISITORS
  else some (count, m)

/-- The outer loop of `Playoffs::drawPlayoffs` over the matches from `beginFromMatch` on. -/
def Playoffs.drawLoop (table : Nat → List Team) : Nat → List Match → Option (Nat × List Match)
  | count, [] => some (count, [])
  | count, m :: rest =>
    match Playoffs.drawMatch table count m with
    | none => none
    | some st =>
      match Playoffs.drawLoop table st.1 rest with
      | none => none
      | some r => some (r.1, st.2 :: r.2)

/-- Embeds `Playoffs::drawPlayoffs(teams, fromMatch)`: the returned flag
`static_cast<bool>(teamsAssignedToPlayoffMatches)` and the fixtures afterwards. -/
def Playoffs.drawPlayoffs (fixtures : List Match) (table : Nat → List Team) :
    Option (Bool × List Match) :=
  let beginFromMatch := Playoffs.from_match fixtures .FROM_REGULAR
  match Playoffs.drawLoop table 0 (fixtures.drop beginFromMatch) with
  | none => none
  | some r => some (decide (r.1 ≠ 0), fixtures.take beginFromMatch ++ r.2)

/-! ## Pack weight (team.cpp) -/

/-- The three counters of the loop of `Team::packWeight`: `packWeight` (16-bit),
`noOfPlayersWithWeight` and `numberOfPackPlayersOnPitch` (8-bit). -/
structure PackCount where
  packWeight : Nat := 0
  noOfPlayersWithWeight : Nat := 0
  numberOfPackPlayersOnPitch : Nat := 0
  deriving DecidableEq, Repr

/-- The body of the loop of `Team::packWeight` for one player of the squad. -/
def PackCount.add (players : Nat → Player) (c : PackCount) (player : Nat) : PackCount :=
  if (players player).packPlayer = false then c
  else
    let c1 := { c with numberOfPackPlayersOnPitch := u8 (c.numberOfPackPlayersOnPitch + 1) }
    let playerWeight := u8 (players player).weight
    if playerWeight > 0 then
      { c1 with noOfPlayersWithWeight := u8 (c1.noOfPlayersWithWeight + 1),
                packWeight := u16 (c1.packWeight + playerWeight) }
    else c1

/-- The local `adjustedPackWeight` of `Team::packWeight`:
`(static_cast<double>(packWeight) / noOfPlayersWithWeight) * numberOfPackPlayersOnPitch *
coefficients.INCOMPLETE_WEIGHT`, evaluated in `double` from left to right.  The coefficient is
a constant of the absent shared/constants.h and is a parameter of the model. -/
def Team.adjustedPackWeight (packWeight noOfPlayersWithWeight numberOfPackPlayersOnPitch : Nat)
    (INCOMPLETE_WEIGHT : Binary64) : Binary64 :=
  Binary64.mul
    (Binary64.mul (Binary64.div (.ofNat packWeight) (.ofNat noOfPlayersWithWeight))
      (.ofNat numberOfPackPlayersOnPitch))
    INCOMPLETE_WEIGHT

/-- Embeds `Team::packWeight(adjusted)`: the returned weight and the flag written through
`adjusted`; `none` where the conversion of the rounded adjusted value to `uint16_t` is
undefined. -/
def Team.packWeight (t : Team) (players : Nat → Player) (INCOMPLETE_WEIGHT : Binary64) :
    Option (Nat × Bool) :=
  let c := t.squad.foldl (PackCount.add players) {}
  if c.noOfPlayersWithWeight = c.numberOfPackPlayersOnPitch then some (c.packWeight, false)
  else if (c.noOfPlayersWithWeight : Int) < (numberOfPlayers.NoOfForwards / 2 : Nat) - 1 then
    some (0, false)
  else
    match (Team.adjustedPackWeight c.packWeight c.noOfPlayersWithWeight
        c.numberOfPackPlayersOnPitch INCOMPLETE_WEIGHT).round.toUInt 16 with
    | none => none
    | some weight => some (weight, true)

/-- The pack players of the squad, in squad order. -/
def Team.packPlayers (t : Team) (players : Nat → Player) : List Nat :=
  t.squad.filter (fun c => (players c).packPlayer)

/-- The pack players of the squad whose weight is known (not 0). -/
def Team.packPlayersWithWeight (t : Team) (players : Nat → Player) : List Nat :=
  (t.packPlayers players).filter (fun c => decide (u8 (players c).weight > 0))

/-- The sum of the known weights of the pack players. -/
def Team.knownPackWeight (t : Team) (players : Nat → Player) : Nat :=
  ((t.packPlayers players).map (fun c => u8 (players c).weight)).sum

/-! ## Standings points (match.cpp, team.h, team.cpp) -/

/-- The entries `Win`, `Draw`, `FourTries` and `SevenPointDifference` of the constant table
`matchPoints` (shared/constants.h, not part of the sources at hand); their values are
parameters of the model. -/
structure StandingsPoints where
  Win : Nat
  Draw : Nat
  FourTries : Nat
  SevenPointDifference : Nat
  deriving DecidableEq, Repr

/-- The counters of `TeamResults` (team.h), each a `uint8_t`. -/
structure TeamResults where
  winsWithBonusPoint : Nat := 0
  winsWithoutBonusPoint : Nat := 0
  drawsWithBonusPoint : Nat := 0
  drawsWithoutBonusPoint : Nat := 0
  lossesWithBothPonusPoints : Nat := 0
  lossesWithTriesBonusPoint : Nat := 0
  lossesWithDiffBonusPoint : Nat := 0
  lossesWithoutBonusPoints : Nat := 0
  deriving DecidableEq, Repr

/-- Embeds `TeamResults::updateResults(result, TryBonus, DiffBonus)`: every `+= 1` stores into a
`uint8_t`. -/
def TeamResults.updateResults (r : TeamResults) (result : ResultType) (TryBonus DiffBonus : Bool) :
    TeamResults :=
  match result with
  | .WIN =>
    if TryBonus then { r with winsWithBonusPoint := u8 (r.winsWithBonusPoint + 1) }
    else { r with winsWithoutBonusPoint := u8 (r.winsWithoutBonusPoint + 1) }
  | .DRAW =>
    if TryBonus then { r with drawsWithBonusPoint := u8 (r.drawsWithBonusPoint + 1) }
    else { r with drawsWithoutBonusPoint := u8 (r.drawsWithoutBonusPoint + 1) }
  | .LOSS =>
    if TryBonus && DiffBonus then
      { r with lossesWithBothPonusPoints := u8 (r.lossesWithBothPonusPoints + 1) }
    else if TryBonus && !DiffBonus then
      { r with lossesWithTriesBonusPoint := u8 (r.lossesWithTriesBonusPoint + 1) }
    else if !TryBonus && DiffBonus then
      { r with lossesWithDiffBonusPoint := u8 (r.lossesWithDiffBonusPoint + 1) }
    else { r with lossesWithoutBonusPoints := u8 (r.lossesWithoutBonusPoints + 1) }

/-- Embeds `TeamResults::pointsTotal`: the three partial sums are formed in `int` and stored as
`uint16_t`, as is the returned sum. -/
def TeamResults.pointsTotal (sp : StandingsPoints) (r : TeamResults) : Nat :=
  let pointsWins := u16 (r.winsWithBonusPoint * (sp.Win + sp.FourTries) +
    r.winsWithoutBonusPoint * sp.Win)
  let pointsDraws := u16 (r.drawsWithBonusPoint * (sp.Draw + sp.FourTries) +
    r.drawsWithoutBonusPoint * sp.Draw)
  let pointsLosses := u16 (r.lossesWithBothPonusPoints * (sp.FourTries + sp.SevenPointDifference) +
    r.lossesWithTriesBonusPoint * sp.FourTries +
    r.lossesWithDiffBonusPoint * sp.SevenPointDifference)
  u16 (pointsWins + pointsDraws + pointsLosses)

/-- The sum that `TeamResults::pointsTotal` forms, without the reductions to 16 bits. -/
def TeamResults.pointsExact (sp : StandingsPoints) (r : TeamResults) : Nat :=
  r.winsWithBonusPoint * (sp.Win + sp.FourTries) + r.winsWithoutBonusPoint * sp.Win +
  (r.drawsWithBonusPoint * (sp.Draw + sp.FourTries) + r.drawsWithoutBonusPoint * sp.Draw) +
  (r.lossesWithBothPonusPoints * (sp.FourTries + sp.SevenPointDifference) +
    r.lossesWithTriesBonusPoint * sp.FourTries +
    r.lossesWithDiffBonusPoint * sp.SevenPointDifference)

/-- Every counter of the record is below 255, so that the next result does not wrap it. -/
def TeamResults.hasRoom (r : TeamResults) : Prop :=
  r.winsWithBonusPoint < 255 ∧ r.winsWithoutBonusPoint < 255 ∧
  r.drawsWithBonusPoint < 255 ∧ r.drawsWithoutBonusPoint < 255 ∧
  r.lossesWithBothPonusPoints < 255 ∧ r.lossesWithTriesBonusPoint < 255 ∧
  r.lossesWithDiffBonusPoint < 255 ∧ r.lossesWithoutBonusPoints < 255

instance (r : TeamResults) : Decidable r.hasRoom := by
  unfold TeamResults.hasRoom
  infer_instance

/-- Modelled from the spec: `MatchScore::bonusPointTry()` of the absent header: the side has
scored the number of tries that earns the bonus point. -/
def MatchScore.bonusPointTry (s : MatchScore) : Bool :=
  decide (s.points .TRY ≥ matchPoints.NoOfTriesForBonusPoint)

/-- Embeds `Match::points(loc)`: the standings points of the match for the side, accumulated in
a `uint8_t`. -/
def Match.points (sp : StandingsPoints) (m : Match) (loc : Location) : Nat :=
  let scoreRequested := if loc = .VISITORS then m.scoreVisitors else m.scoreHosts
  let scoreOpponent := if loc = .VISITORS then m.scoreHosts else m.scoreVisitors
  let points1 :=
    if scoreRequested.pointsTotal > scoreOpponent.pointsTotal then u8 (0 + sp.Win)
    else if scoreRequested.pointsTotal = scoreOpponent.pointsTotal then u8 (0 + sp.Draw)
    else if (scoreOpponent.pointsTotal : Int) - (scoreRequested.pointsTotal : Int) ≤
        (matchPoints.NoOfPointsForDiffPoint : Int) then u8 (0 + sp.SevenPointDifference)
    else 0
  if scoreRequested.bonusPointTry then u8 (points1 + sp.FourTries) else points1

/-- The update of a side's results in `GamePlay::endOfMatch` for a REGULAR match:
`results().updateResults(resultTypeForTeam(loc), score(loc)->bonusPointTry(),
diffBonusPoint(loc))`. -/
def Match.updateResultsAtEndOfMatch (m : Match) (loc : Location) (r : TeamResults) :
    TeamResults :=
  r.updateResults (m.resultTypeForTeam loc) (m.score loc).bonusPointTry (m.diffBonusPoint loc)

/-! ## Preferences of a player (player.cpp) -/

/-- Modelled from the spec: the numeric values of `player::PreferredForAction::CAPTAIN` and
`NO_ACTION` (absent header): the sign -1 and the empty product 1, the two values that
`resetAllPreferences` stores and that session.cpp passes to the constructor.  The other
actions are given by their numeric code. -/
def PreferredForAction.CAPTAIN : Int := -1

/-- Modelled from the spec: the numeric value of `player::PreferredForAction::NO_ACTION`. -/
def PreferredForAction.NO_ACTION : Int := 1

/-- Embeds `Player::isCaptain`: the quotient `_preferredFor/std::abs(_preferredFor)` is formed in
`int`; `none` for the zero divisor. -/
def Player.isCaptain (p : Player) : Option Bool :=
  if (p.preferredFor.natAbs : Int) = 0 then none
  else some (decide (p.preferredFor.tdiv (p.preferredFor.natAbs : Int) =
    PreferredForAction.CAPTAIN))

/-- Embeds `Player::resetAllPreferences`. -/
def Player.resetAllPreferences (p : Player) : Option Player :=
  match p.isCaptain with
  | none => none
  | some captain =>
    some { p with preferredFor :=
      if captain then i8 PreferredForAction.CAPTAIN else i8 PreferredForAction.NO_ACTION }

/-- Embeds `Player::isPreferredFor(preference)`: the remainder by the `int8_t` value of the
action; `none` for the zero divisor. -/
def Player.isPreferredFor (p : Player) (preference : Int) : Option Bool :=
  if preference = PreferredForAction.CAPTAIN then p.isCaptain
  else
    let currentPreferenceNumberValue := i8 preference
    if currentPreferenceNumberValue = 0 then none
    else some (decide (p.preferredFor.tmod currentPreferenceNumberValue = 0))

/-- Embeds `Player::setAsPreferredFor(action, addPreference)`: product and quotient are formed
in `int` and stored into the 16-bit signed `_preferredFor`. -/
def Player.setAsPreferredFor (p : Player) (action : Int) (addPreference : Bool) :
    Option Player :=
  let afterReset :=
    if action = PreferredForAction.NO_ACTION then p.resetAllPreferences else some p
  match afterReset with
  | none => none
  | some p1 =>
    match p1.isPreferredFor action with
    | none => none
    | some preferred =>
      if (preferred && addPreference) || (!preferred && !addPreference) then some p1
      else if addPreference then
        some { p1 with preferredFor := i16 (p1.preferredFor * i8 action) }
      else if i8 action = 0 then none
      else some { p1 with preferredFor := i16 (p1.preferredFor.tdiv (i8 action)) }

/-- Modelled from the spec: the numeric values of the five actions of
`player::PreferredForAction` that tag a preference (absent header).  The spec calls them
multiplicative-coprime tags; the values themselves are parameters of the model. -/
structure PreferenceCodes where
  KICK_OFF : Int
  PENALTY : Int
  CONVERSION : Int
  SCRUM : Int
  LINEOUT : Int

/-- The five actions that tag a preference. -/
def PreferenceCodes.actions (c : PreferenceCodes) : List Int :=
  [c.KICK_OFF, c.PENALTY, c.CONVERSION, c.SCRUM, c.LINEOUT]

/-- Modelled from the spec: what the encoding of `_preferredFor` asks of the codes: each is a
positive `int8_t` value above `NO_ACTION`, any two of them are coprime, and the product of
all five fits into the 16-bit value. -/
def PreferenceCodes.valid (c : PreferenceCodes) : Prop :=
  (∀ a ∈ c.actions, 1 < a ∧ a ≤ 127) ∧
  c.actions.Pairwise (fun a b => Int.gcd a b = 1) ∧
  c.actions.prod ≤ 32767

/-- The players that the program can hold, as far as the stored preference value goes.  The
only constructor call (session.cpp 816) passes `captain * (-2) + 1` for the flag `captain`
of the database (0 or 1); afterwards the value is written by `setAsPreferredFor` (also
through `transferPreferences`) and `resetAllPreferences` only; every other member of the
player may change freely. -/
inductive Player.Reachable (c : PreferenceCodes) : Player → Prop
  | constructed (p : Player) (captain : Bool) :
      p.preferredFor = (if captain then 1 else 0) * (-2) + 1 → Player.Reachable c p
  | setAsPreferredFor (p q : Player) (action : Int) (addPreference : Bool) :
      Player.Reachable c p →
      action ∈ c.actions ∨ action = PreferredForAction.CAPTAIN ∨
        action = PreferredForAction.NO_ACTION →
      p.setAsPreferredFor action addPreference = some q → Player.Reachable c q
  | resetAllPreferences (p q : Player) :
      Player.Reachable c p → p.resetAllPreferences = some q → Player.Reachable c q
  | otherMembers (p q : Player) :
      Player.Reachable c p → q.preferredFor = p.preferredFor → Player.Reachable c q

/-! ## Selection of the substitutes (team.cpp) -/

/-- The enumerators of `player::MatchTypes` that `selectSubstitutes` names. -/
inductive MatchTypes
  | EXACT_POSITION | GENERIC_POSITION | DIFFERENT_POSITION | UNRELATED_POSITION
  deriving DecidableEq, Repr

/-- The algorithm `std::sort` with a comparison of the form `key next >= key previous`.  For
pairwise different keys the comparison agrees with `<` on every pair of different elements
and the result is the list in ascending order of the keys; with two equal keys the
comparison is no strict weak ordering and the behaviour is undefined, which is the result
`none`. -/
def sortAscending {α : Type} (key : α → Nat) (l : List α) : Option (List α) :=
  if (l.map key).Nodup then some (l.insertionSort (fun x y => key x ≤ key y)) else none

/-- The match type under which `selectSubstitutes` weighs a player's shape. -/
def Player.benchMatchType (p : Player) : MatchTypes :=
  if p.currentPositionName = p.originalPosition then .EXACT_POSITION
  else if p.currentPositionName ≠ p.originalPosition ∧ p.originalPosition = 0 then
    .GENERIC_POSITION
  else if p.currentPositionName ≠ p.originalPosition ∧ p.originalPosition ≠ 0 then
    .DIFFERENT_POSITION
  else .UNRELATED_POSITION

/-- The vector `playersForSelection` of `Team::selectSubstitutes` after its first loop: the
available players without a shirt number whose current position is assigned, each with his
shape.  The one-argument overload `Player::condition(condition)` of the absent header
player/player.h is taken as the value that `PlayerCondition::getValue` returns, with `w` the
default-constructed weights of `OVERALL`; `applyWeight shape type` is the 16-bit result of
`currentPlayerShape *= conditionSettings.matchTypeWeight(type)` (the weights live in an absent
header; the result is a parameter of the model). -/
def Team.playersForSelection (t : Team) (players : Nat → Player) (w : ConditionWeights)
    (applyWeight : Nat → MatchTypes → Nat) : List (Nat × Nat) :=
  (t.squad.filter (fun c => (players c).available && decide ((players c).shirtNo = 0) &&
      decide ((players c).currentPositionName ≠ 0))).map
    (fun c => (c, applyWeight ((players c).condition.getValue w .OVERALL false)
      (players c).benchMatchType))

/-- The vector `playersForSelection` of `Team::selectSubstitutes` before the shirt numbers are
assigned: sorted by shape, cut to `min(static_cast<uint8_t>(size), PlayersOnBench)` elements,
sorted by the number of the current position. -/
def Team.benchSelection (t : Team) (players : Nat → Player) (w : ConditionWeights)
    (applyWeight : Nat → MatchTypes → Nat) : Option (List (Nat × Nat)) :=
  match sortAscending (fun x => x.2) (t.playersForSelection players w applyWeight) with
  | none => none
  | some byShape =>
    sortAscending (fun x => (players x.1).currentPosition)
      (byShape.take (min (u8 byShape.length) numberOfPlayers.PlayersOnBench))

/-- The last loop of `Team::selectSubstitutes`: the players of the list receive the shirt
numbers after `shirtNo`, in list order (`assignShirtNo(++shirtNo)`, 8-bit). -/
def assignBenchShirts (players : Nat → Player) : Nat → List (Nat × Nat) → Nat → Player
  | _, [] => players
  | shirtNo, x :: rest =>
    assignBenchShirts
      (fun c => if c = x.1 then { players c with shirtNo := u8 (shirtNo + 1) } else players c)
      (u8 (shirtNo + 1)) rest

/-- Embeds `Team::selectSubstitutes(conditionSettings)`: the players afterwards (the function
returns true); `none` when a sort is undefined. -/
def Team.selectSubstitutes (t : Team) (players : Nat → Player) (w : ConditionWeights)
    (applyWeight : Nat → MatchTypes → Nat) : Option (Nat → Player) :=
  match t.benchSelection players w applyWeight with
  | none => none
  | some selection => some (assignBenchShirts players numberOfPlayers.PlayersOnPitch selection)

/-! ## Sample states -/

/-- A REGULAR match at 79:59 of the second half, 0:0, with the default period settings. -/
def sampleEndOfSecondHalf : GamePlay :=
  { periods := { mt := sampleMatchTime },
    _match := { type := .REGULAR,
                timePlayed := { currentTimePeriod := TimePeriod.SECOND_HALF_TIME.code,
                                minutesPlayed := 79, secondsPlayed := 59 } } }

/-- A tied playoff before the kicking competition: every player is on the pitch with kicking
attribute 30, three players a side. -/
def sampleShootOut : GamePlay :=
  { periods := { mt := sampleMatchTime },
    _match := { type := .PLAYOFFS,
                timePlayed := { currentTimePeriod := TimePeriod.KICKING_COMPETITION.code },
                teamHosts := { squad := [1, 2, 3] },
                teamVisitors := { squad := [4, 5, 6] },
                players := fun c => { code := c, onPitch := true, kicking := 30 } } }

/-- The state after the kicking competition of `sampleShootOut` with raw draws 3, 13, 7. -/
def sampleShootOutResult : GamePlay × List Nat :=
  (sampleShootOut.kickingCompetition [3, 13, 7]).getD (sampleShootOut, [])

/-- A match in which player 7 of the visitors, already on one yellow card, tackles
dangerously while the hosts are in possession; every foul-play roll maps to a sin-bin. -/
def sampleSecondYellow : GamePlay :=
  { periods := { mt := sampleMatchTime },
    settings := { foulPlayAction := fun _ => .SIN_BINNED },
    teamInPossession := some .HOSTS,
    _match := { players := fun c => { code := c, onPitch := true, noOnPitch := c, morale := 60 },
                statsVisitorsPlayers := fun c => if c = 7 then some { yellowCards := 1 } else none } }

/-- An engine state at kick-off: player 7 of the visitors has a fresh statistics record. -/
def sampleKickOff : GamePlay :=
  { periods := { mt := sampleMatchTime },
    settings := { foulPlayAction := fun _ => .SIN_BINNED },
    _match := { players := fun c => { code := c, onPitch := true, noOnPitch := c, morale := 60 },
                statsVisitorsPlayers := fun c => if c = 7 then some {} else none } }

/-- The state after player 7 has tackled dangerously twice. -/
def sampleAfterTwoTackles : GamePlay :=
  (sampleKickOff.cardEvents [.tackle (some .HOSTS) 7 0, .tackle (some .HOSTS) 7 0]).getD
    sampleKickOff

/-- An engine state in which both teams have ranking 5 and every base probability is 50. -/
def sampleEqualRanking : GamePlay :=
  { periods := { mt := sampleMatchTime },
    teamInPossession := some .HOSTS,
    _match := { teamHosts := { ranking := 5 }, teamVisitors := { ranking := 5 } } }

/-- An engine state in which the hosts have ranking 3 and the visitors ranking 8. -/
def sampleUnequalRanking : GamePlay :=
  { periods := { mt := sampleMatchTime },
    teamInPossession := some .HOSTS,
    _match := { teamHosts := { ranking := 3 }, teamVisitors := { ranking := 8 } } }

/-- Fifteen hosts defend against five visitors in possession; base probability 90, rankings 1
(hosts) and 2 (visitors), so the adjusted probability of a completed tackle is 91. -/
def sampleFifteenAgainstFive : GamePlay :=
  { periods := { mt := sampleMatchTime },
    settings := { probability := fun _ => 90 },
    teamInPossession := some .VISITORS,
    _match := { teamHosts := { squad := List.range' 1 15, ranking := 1 },
                teamVisitors := { squad := List.range' 101 5, ranking := 2 },
                players := fun c => { code := c, onPitch := true } } }

/-- The hosts in possession 5 m from the visitors' goal line, trailing 0 : 5. -/
def sampleTrailingByFive : GamePlay :=
  { periods := { mt := sampleMatchTime },
    teamInPossession := some .HOSTS,
    distanceFromHalfwayLine := 45,
    _match := { scoreVisitors := { tries := 1 } } }

/-- The hosts in possession 5 m from the visitors' goal line, three tries scored, 15 : 15. -/
def sampleThreeTries : GamePlay :=
  { periods := { mt := sampleMatchTime },
    teamInPossession := some .HOSTS,
    distanceFromHalfwayLine := 45,
    _match := { scoreHosts := { tries := 3 }, scoreVisitors := { tries := 3 } } }

/-- A squad of fifteen available players whose shirts are 2, 2, 2, 4, 5, ..., 15: the numbers 1
and 3 are worn by nobody. -/
def sampleSquadWithoutOneAndThree : Team := { squad := List.range' 1 15 }

/-- The players of `sampleSquadWithoutOneAndThree`: players 1 and 3 wear shirt 2, every other
player wears the shirt of his code. -/
def samplePlayersWithoutOneAndThree : Nat → Player :=
  fun c => { code := c, shirtNo := if c = 1 ∨ c = 3 then 2 else c }

/-- A complete squad: player c wears shirt c, for c = 1..15. -/
def samplePlayersComplete : Nat → Player :=
  fun c => { code := c, shirtNo := c }

/-- A player of the substitution samples: position type, place and the common value of the
five conditions. -/
def samplePlayer (code : Nat) (onPitch : Bool) (positionType : Int) (value : Nat) : Player :=
  { code := code, onPitch := onPitch, onBench := !onPitch,
    noOnPitch := if onPitch then 7 else 0, positionType := positionType,
    condition := { fatigue := value, fitness := value, health := value, morale := value,
                   form := value } }

/-- The hosts in the 41st minute of a match played from the fixtures widget: player 1 is on
the pitch (overall condition 300, 40 minutes played), players 2 (overall condition 400) and
3 (overall condition 310) of the same base type sit on the bench. -/
def sampleBench : GamePlay :=
  { periods := { mt := sampleMatchTime },
    displayFW := true,
    playerPosition_index := [{ baseType := 1, positionType := 1 },
                             { baseType := 1, positionType := 2 }],
    _match := { teamHosts := { squad := [1, 2, 3] },
                timePlayed := { currentTimePeriod := TimePeriod.SECOND_HALF_TIME.code,
                                minutesPlayed := 40 },
                players := fun c =>
                  if c = 1 then samplePlayer 1 true 1 60
                  else if c = 2 then samplePlayer 2 false 1 80
                  else samplePlayer c false 2 62,
                statsHostsPlayers := fun c =>
                  if c = 1 then some { gamesPlayed := 1, minutesPlayed := 40 } else none } }

/-- The state `sampleBench` with only the players 1 and 3 in the squad: the one candidate is
not better by more than 5 %. -/
def sampleBenchMarginal : GamePlay :=
  { sampleBench with
    _match := { sampleBench._match with teamHosts := { squad := [1, 3] } } }

/-- The state `sampleBench` in non-interactive mode: the engine is bound to no widget. -/
def sampleBenchNonInteractive : GamePlay :=
  { sampleBench with displayFW := false }

/-- No dialog is shown in the samples. -/
def sampleNoDialogs : GamePlay → Nat × GamePlay := fun g => (0, g)

/-- A player with agility, dexterity and tackling 20 each. -/
def sampleAttributesTwenty : GamePlay :=
  { periods := { mt := sampleMatchTime },
    _match := { players := fun c => { code := c, agility := 20, dexterity := 20,
                                      tackling := 20 } } }

/-- A player with agility, dexterity and tackling 5 each. -/
def sampleAttributesFive : GamePlay :=
  { periods := { mt := sampleMatchTime },
    _match := { players := fun c => { code := c, agility := 5, dexterity := 5,
                                      tackling := 5 } } }

/-- A pack reduced to two players, of 110 and 120 kg. -/
def samplePackOfTwo : Team := { squad := [1, 2, 3] }

/-- The players of `samplePackOfTwo`: players 1 and 2 are in the pack, player 3 is not. -/
def samplePackOfTwoPlayers : Nat → Player :=
  fun c => { code := c, packPlayer := decide (c ≤ 2),
             weight := if c = 1 then 110 else if c = 2 then 120 else 90 }

/-- A pack of eight, the weight of three of them known (100, 110 and 120 kg). -/
def samplePackOfEight : Team := { squad := List.range' 1 8 }

/-- The players of `samplePackOfEight`. -/
def samplePackOfEightPlayers : Nat → Player :=
  fun c => { code := c, packPlayer := true,
             weight := if c = 1 then 100 else if c = 2 then 110 else if c = 3 then 120 else 0 }

/-- A play-off match to be filled from the regular season whose visitors are known already:
the hosts are the team ranked first in group 1. -/
def sampleSemiFinal : Match :=
  { type := .PLAYOFFS, playoffsType := .FROM_REGULAR, teamHostsNull := true,
    playoffsRanking := fun _ => (1, 1) }

/-- The table of group 1: the teams ranked 7 and 9, in this order. -/
def sampleTable : Nat → List Team :=
  fun group => if group = 1 then [{ ranking := 7, group := 1 }, { ranking := 9, group := 1 }]
    else []

/-- Standings points 4 for a win, 2 for a draw and 1 for each bonus. -/
def sampleStandingsPoints : StandingsPoints :=
  { Win := 4, Draw := 2, FourTries := 1, SevenPointDifference := 1 }

/-- A regular match the hosts won 3 : 0 by a penalty goal. -/
def sampleHostsWin : Match :=
  { type := .REGULAR, scoreHosts := { penalties := 1 } }

/-- A regular match the hosts lost 20 : 25, scoring four tries. -/
def sampleNarrowLoss : Match :=
  { type := .REGULAR, scoreHosts := { tries := 4 }, scoreVisitors := { tries := 5 } }

/-- A squad of nine players without shirt number. -/
def sampleReserves : Team := { squad := List.range' 1 9 }

/-- The players of `sampleReserves`: player c stands on his original position c, and each of
his five conditions is 50 + c, so that his overall condition is 250 + 5 c. -/
def sampleReservesPlayers : Nat → Player :=
  fun c => { code := c, currentPositionName := c, originalPosition := c, currentPosition := c,
             condition := { fatigue := 50 + c, fitness := 50 + c, health := 50 + c,
                            morale := 50 + c, form := 50 + c } }

/-- A sin-bin list in play: two finished suspensions (a send-off and a served sin-bin) and a
running sin-bin with 6 minutes left. -/
def sampleSinBinList : Match :=
  { sinBin := [{ player := 3, number := 3, team := .HOSTS, type := .SENT_OFF, atMinute := 5,
                 minutesRemaining := 0 },
               { player := 4, number := 4, team := .VISITORS, type := .SIN_BINNED,
                 atMinute := 2, minutesRemaining := 0 },
               { player := 5, number := 5, team := .HOSTS, type := .SIN_BINNED, atMinute := 9,
                 minutesRemaining := 6 }] }

/-- The visitors after kick-off: players 7 and 8 are on the pitch with the statistics record
of a starting player, player 9 is on the bench; the hosts are in possession and every
foul-play roll maps to a sin-bin. -/
def sampleReentryKickOff : GamePlay :=
  { periods := { mt := sampleMatchTime },
    settings := { foulPlayAction := fun _ => .SIN_BINNED },
    teamInPossession := some .HOSTS,
    _match := { teamVisitors := { squad := [7, 8, 9] },
                players := fun c => { code := c, onPitch := decide (c ≠ 9), noOnPitch := c,
                                      onBench := decide (c = 9), morale := 60 },
                statsVisitorsPlayers :=
                  fun c => if c = 7 ∨ c = 8 then some { gamesPlayed := 1 } else none } }

/-- The match of `sampleReentryKickOff` a while later: player 7 has tackled dangerously (first
yellow card), has served the ten minutes of his sin-bin, and has then been replaced by
player 9. -/
def sampleReplacedAfterYellow : GamePlay :=
  (((sampleReentryKickOff.dangerousTackle 7 0).map
      (fun r => r.2.suspensionsUpdate 10)).bind
      (fun g => g.switchPlayers 7 9 .VISITORS false)).getD sampleReentryKickOff

/-- The defending side with thirteen players on the pitch against twelve attackers, base
probability 53 and rankings 1 and 2 (adjusted probability 54). -/
def sampleThirteenAgainstTwelve : GamePlay :=
  { periods := { mt := sampleMatchTime },
    settings := { probability := fun _ => 53 },
    teamInPossession := some .VISITORS,
    _match := { teamHosts := { squad := List.range' 1 13, ranking := 1 },
                teamVisitors := { squad := List.range' 101 12, ranking := 2 },
                players := fun c => { code := c, onPitch := true } } }

/-- The codes 2, 3, 5, 7 and 11. -/
def samplePreferenceCodes : PreferenceCodes :=
  { KICK_OFF := 2, PENALTY := 3, CONVERSION := 5, SCRUM := 7, LINEOUT := 11 }

/-- A captain who is preferred for kick-offs and penalties (stored value -6). -/
def sampleCaptainKicker : Player := { code := 1, preferredFor := -6 }

/-! # Theorems -/

/-! ## C1: points ledger -/

/-- C1 (counterexample): a player's ledger holding 13108 tries has a weighted total of
65540, but points() reports 4, because the total is returned as a 16-bit value. -/
theorem playerPoints_points_wraps :
    PlayerPoints.points { tries := 13108 } ≠ 13108 * 5 + 0 * 2 + 0 * 3 + 0 * 3 := by
  decide

/-- C1 (amended): points() of a player's ledger and of a team's aggregate is the weighted
total tries*5 + conversions*2 + penalties*3 + dropGoals*3 reduced modulo 65536, hence equal
to that total whenever the total is below 65536; a team aggregate updated once from zero
takes its per-event counts from MatchScore::points(event) and its points() is their exact
weighted total. -/
theorem points_eq_weighted_total (p : PlayerPoints) (t : TeamPoints) (s : MatchScore)
    (pa ta : Nat) :
    p.points = (p.tries * 5 + p.conversions * 2 + p.penalties * 3 + p.dropGoals * 3) % 65536 ∧
    t.points = (t.tries * 5 + t.conversions * 2 + t.penalties * 3 + t.dropgoals * 3) % 65536 ∧
    (p.tries * 5 + p.conversions * 2 + p.penalties * 3 + p.dropGoals * 3 < 65536 →
      p.points = p.tries * 5 + p.conversions * 2 + p.penalties * 3 + p.dropGoals * 3) ∧
    (t.tries * 5 + t.conversions * 2 + t.penalties * 3 + t.dropgoals * 3 < 65536 →
      t.points = t.tries * 5 + t.conversions * 2 + t.penalties * 3 + t.dropgoals * 3) ∧
    (TeamPoints.updateFromMatchScore {} s pa ta).tries = s.points .TRY ∧
    (TeamPoints.updateFromMatchScore {} s pa ta).conversions = s.points .CONVERSION ∧
    (TeamPoints.updateFromMatchScore {} s pa ta).penalties = s.points .PENALTY ∧
    (TeamPoints.updateFromMatchScore {} s pa ta).dropgoals = s.points .DROPGOAL ∧
    (TeamPoints.updateFromMatchScore {} s pa ta).points =
      s.points .TRY * 5 + s.points .CONVERSION * 2 + s.points .PENALTY * 3 +
        s.points .DROPGOAL * 3 := by
  have h1 : s.points .TRY < 256 := Nat.mod_lt _ (by decide)
  have h2 : s.points .CONVERSION < 256 := Nat.mod_lt _ (by decide)
  have h3 : s.points .PENALTY < 256 := Nat.mod_lt _ (by decide)
  have h4 : s.points .DROPGOAL < 256 := Nat.mod_lt _ (by decide)
  refine ⟨rfl, rfl, fun h => Nat.mod_eq_of_lt h, fun h => Nat.mod_eq_of_lt h, ?_, ?_, ?_, ?_, ?_⟩
  · simp only [TeamPoints.updateFromMatchScore, u16, Nat.zero_add]; omega
  · simp only [TeamPoints.updateFromMatchScore, u16, Nat.zero_add]; omega
  · simp only [TeamPoints.updateFromMatchScore, u16, Nat.zero_add]; omega
  · simp only [TeamPoints.updateFromMatchScore, u16, Nat.zero_add]; omega
  · simp only [TeamPoints.points, TeamPoints.updateFromMatchScore, u16, pointValue,
      Nat.zero_add]
    omega

/-- C1 (witness): the amended statement at a ledger of 3 tries, 2 conversions, 1 penalty. -/
theorem points_eq_weighted_total_witness :
    PlayerPoints.points { tries := 3, conversions := 2, penalties := 1 } = 22 ∧
    TeamPoints.points { tries := 40, conversions := 30, penalties := 20, dropgoals := 1 } = 323 :=
  ⟨((points_eq_weighted_total { tries := 3, conversions := 2, penalties := 1 }
      { tries := 40, conversions := 30, penalties := 20, dropgoals := 1 } {} 0 0).2.2.1
      (by decide)),
   ((points_eq_weighted_total { tries := 3, conversions := 2, penalties := 1 }
      { tries := 40, conversions := 30, penalties := 20, dropgoals := 1 } {} 0 0).2.2.2.1
      (by decide))⟩

/-! ## C2: attempted = completed + missed -/

/-- Each mutator call raises the completed+missed total of a category by at most one. -/
theorem MatchScore.call_totals_le (s : MatchScore) (c : ScoreCall) :
    (s.call c).tacklesCompleted + (s.call c).tacklesMissed
        ≤ s.tacklesCompleted + s.tacklesMissed + 1 ∧
    (s.call c).passesCompleted + (s.call c).passesMissed
        ≤ s.passesCompleted + s.passesMissed + 1 ∧
    (s.call c).lineoutsWon + (s.call c).lineoutsLost ≤ s.lineoutsWon + s.lineoutsLost + 1 ∧
    (s.call c).scrumsWon + (s.call c).scrumsLost ≤ s.scrumsWon + s.scrumsLost + 1 := by
  cases c with
  | tackleAttempted t =>
    cases t <;> simp [MatchScore.call, MatchScore.tackleAttempted, u16] <;> omega
  | passAttempted t =>
    cases t <;> simp [MatchScore.call, MatchScore.passAttempted, u16] <;> omega
  | lineoutThrown t =>
    cases t <;> simp [MatchScore.call, MatchScore.lineoutThrown, u8] <;> omega
  | scrumThrown t =>
    cases t <;> simp [MatchScore.call, MatchScore.scrumThrown, u8] <;> omega

/-- After a sequence of calls every completed+missed total has grown by at most the
number of calls. -/
theorem MatchScore.run_totals_le (calls : List ScoreCall) (s : MatchScore) :
    (s.run calls).tacklesCompleted + (s.run calls).tacklesMissed
        ≤ s.tacklesCompleted + s.tacklesMissed + calls.length ∧
    (s.run calls).passesCompleted + (s.run calls).passesMissed
        ≤ s.passesCompleted + s.passesMissed + calls.length ∧
    (s.run calls).lineoutsWon + (s.run calls).lineoutsLost
        ≤ s.lineoutsWon + s.lineoutsLost + calls.length ∧
    (s.run calls).scrumsWon + (s.run calls).scrumsLost
        ≤ s.scrumsWon + s.scrumsLost + calls.length := by
  induction calls generalizing s with
  | nil => simp [MatchScore.run]
  | cons c cs ih =>
    have hc := MatchScore.call_totals_le s c
    have hr := ih (s.call c)
    have hrun : s.run (c :: cs) = (s.call c).run cs := rfl
    rw [hrun]
    simp only [List.length_cons]
    omega

/-- C2 (counterexample): after 200 line-outs won and 100 lost, lineouts(THROWN) is 44
while lineouts(WON) + lineouts(LOST) is 300. -/
theorem lineouts_thrown_wraps :
    (MatchScore.run {} (List.replicate 200 (ScoreCall.lineoutThrown Lineouts.WON) ++
        List.replicate 100 (ScoreCall.lineoutThrown Lineouts.LOST))).lineouts Lineouts.THROWN ≠
    (MatchScore.run {} (List.replicate 200 (ScoreCall.lineoutThrown Lineouts.WON) ++
        List.replicate 100 (ScoreCall.lineoutThrown Lineouts.LOST))).lineouts Lineouts.WON +
    (MatchScore.run {} (List.replicate 200 (ScoreCall.lineoutThrown Lineouts.WON) ++
        List.replicate 100 (ScoreCall.lineoutThrown Lineouts.LOST))).lineouts Lineouts.LOST := by
  decide

/-- C2 (amended): for every MatchScore reached from the zero score by any sequence of
tackleAttempted, passAttempted, lineoutThrown and scrumThrown calls, the attempted/thrown
count equals completed+missed (won+lost) modulo 65536 for tackles and passes and modulo 256
for line-outs and scrums; the tackle and pass identities hold exactly when the sequence has
fewer than 65536 calls, the line-out and scrum identities when it has fewer than 256. -/
theorem attempted_eq_completed_add_missed (calls : List ScoreCall) :
    (MatchScore.run {} calls).tackles .ATTEMPTED =
      ((MatchScore.run {} calls).tackles .COMPLETED +
        (MatchScore.run {} calls).tackles .MISSED) % 65536 ∧
    (MatchScore.run {} calls).passes .ATTEMPTED =
      ((MatchScore.run {} calls).passes .COMPLETED +
        (MatchScore.run {} calls).passes .MISSED) % 65536 ∧
    (MatchScore.run {} calls).lineouts .THROWN =
      ((MatchScore.run {} calls).lineouts .WON + (MatchScore.run {} calls).lineouts .LOST) % 256 ∧
    (MatchScore.run {} calls).scrums .THROWN_INTO =
      ((MatchScore.run {} calls).scrums .WON + (MatchScore.run {} calls).scrums .LOST) % 256 ∧
    (calls.length < 65536 →
      (MatchScore.run {} calls).tackles .ATTEMPTED =
        (MatchScore.run {} calls).tackles .COMPLETED +
          (MatchScore.run {} calls).tackles .MISSED ∧
      (MatchScore.run {} calls).passes .ATTEMPTED =
        (MatchScore.run {} calls).passes .COMPLETED +
          (MatchScore.run {} calls).passes .MISSED) ∧
    (calls.length < 256 →
      (MatchScore.run {} calls).lineouts .THROWN =
        (MatchScore.run {} calls).lineouts .WON + (MatchScore.run {} calls).lineouts .LOST ∧
      (MatchScore.run {} calls).scrums .THROWN_INTO =
        (MatchScore.run {} calls).scrums .WON + (MatchScore.run {} calls).scrums .LOST) := by
  have h := MatchScore.run_totals_le calls {}
  simp only [Nat.zero_add] at h
  refine ⟨?_, ?_, ?_, ?_, ?_, ?_⟩
  · simp only [MatchScore.tackles, u16]; omega
  · simp only [MatchScore.passes, u16]; omega
  · simp only [MatchScore.lineouts, u8]; omega
  · simp only [MatchScore.scrums, u8]; omega
  · intro hlen
    simp only [MatchScore.tackles, MatchScore.passes, u16]
    omega
  · intro hlen
    simp only [MatchScore.lineouts, MatchScore.scrums, u8]
    omega

/-- C2 (witness): the amended statement after two tackles, a pass, a line-out and a scrum. -/
theorem attempted_eq_completed_add_missed_witness :
    (MatchScore.run {} [.tackleAttempted .COMPLETED, .tackleAttempted .MISSED,
        .passAttempted .COMPLETED, .lineoutThrown .LOST, .scrumThrown .WON]).tackles .ATTEMPTED
      = 2 ∧
    (MatchScore.run {} [.tackleAttempted .COMPLETED, .tackleAttempted .MISSED,
        .passAttempted .COMPLETED, .lineoutThrown .LOST, .scrumThrown .WON]).lineouts .THROWN
      = 1 :=
  ⟨((attempted_eq_completed_add_missed [.tackleAttempted .COMPLETED, .tackleAttempted .MISSED,
      .passAttempted .COMPLETED, .lineoutThrown .LOST, .scrumThrown .WON]).2.2.2.2.1
      (by decide)).1,
   ((attempted_eq_completed_add_missed [.tackleAttempted .COMPLETED, .tackleAttempted .MISSED,
      .passAttempted .COMPLETED, .lineoutThrown .LOST, .scrumThrown .WON]).2.2.2.2.2
      (by decide)).1⟩

/-! ## C3: played time under addTime and switchTimePeriodTo -/

/-- Minute counter after `addTime`. -/
theorem MatchTime.addTime_minutesPlayed (t : MatchTime) (s : Nat) :
    (t.addTime s).minutesPlayed =
      u8 (u8 (t.minutesPlayed + u8 (s / 60)) + u8 (t.secondsPlayed + u8 (s % 60)) / 60) := by
  simp only [MatchTime.addTime]
  split <;> rfl

/-- Second counter after `addTime`. -/
theorem MatchTime.addTime_secondsPlayed (t : MatchTime) (s : Nat) :
    (t.addTime s).secondsPlayed = u8 (t.secondsPlayed + u8 (s % 60)) % 60 := by
  simp only [MatchTime.addTime]
  split <;> rfl

/-- C3 (counterexample): starting from the initial clock, after 255 calls of addTime(60)
the played time is 15300 seconds; the 256th call wraps the 8-bit minute counter and the
played time drops to 0. -/
theorem timePlayedInSeconds_drops :
    (MatchTime.run {} (List.replicate 256 (ClockCall.addTime 60))).timePlayedInSeconds <
    (MatchTime.run {} (List.replicate 255 (ClockCall.addTime 60))).timePlayedInSeconds := by
  decide

/-- C3 (amended): for every MatchTime state with secondsPlayed < 60 and every addTime(s)
whose added minutes (s / 60 reduced to 8 bits, plus the carry of the seconds) do not take
the 8-bit minute counter past 255, timePlayedInSeconds() after the call is greater than or
equal to its value before the call and secondsPlayed stays below 60; switchTimePeriodTo
always leaves timePlayedInSeconds() and the counters unchanged. -/
theorem timePlayedInSeconds_mono (t : MatchTime) (s : Nat) (p : Int)
    (hsec : t.secondsPlayed < 60)
    (hfit : t.minutesPlayed + (s % 65536 / 60) % 256 + (t.secondsPlayed + s % 65536 % 60) / 60
      < 256) :
    t.timePlayedInSeconds ≤ (t.call (.addTime s)).timePlayedInSeconds ∧
    (t.call (.addTime s)).secondsPlayed < 60 ∧
    (t.call (.switchTimePeriodTo p)).timePlayedInSeconds = t.timePlayedInSeconds ∧
    (t.call (.switchTimePeriodTo p)).secondsPlayed = t.secondsPlayed := by
  have hr : s % 65536 % 60 < 60 := Nat.mod_lt _ (by decide)
  have hq : s % 65536 / 60 % 256 < 256 := Nat.mod_lt _ (by decide)
  have hr8 : s % 65536 % 60 % 256 = s % 65536 % 60 := Nat.mod_eq_of_lt (by omega)
  refine ⟨?_, ?_, rfl, rfl⟩
  · simp only [MatchTime.call, MatchTime.timePlayedInSeconds, MatchTime.addTime_minutesPlayed,
      MatchTime.addTime_secondsPlayed, u8, u16, hr8]
    generalize s % 65536 % 60 = r at *
    generalize s % 65536 / 60 % 256 = q at *
    have e1 : (t.secondsPlayed + r) % 256 = t.secondsPlayed + r := Nat.mod_eq_of_lt (by omega)
    have e2 : (t.minutesPlayed + q) % 256 = t.minutesPlayed + q := Nat.mod_eq_of_lt (by omega)
    rw [e1, e2]
    have e3 : (t.minutesPlayed + q + (t.secondsPlayed + r) / 60) % 256 =
        t.minutesPlayed + q + (t.secondsPlayed + r) / 60 := Nat.mod_eq_of_lt hfit
    rw [e3]
    have e4 : (t.minutesPlayed * 60 + t.secondsPlayed) % 65536 =
        t.minutesPlayed * 60 + t.secondsPlayed := Nat.mod_eq_of_lt (by omega)
    have e5 : ((t.minutesPlayed + q + (t.secondsPlayed + r) / 60) * 60 +
        (t.secondsPlayed + r) % 60) % 65536 =
        (t.minutesPlayed + q + (t.secondsPlayed + r) / 60) * 60 + (t.secondsPlayed + r) % 60 :=
      Nat.mod_eq_of_lt (by omega)
    rw [e4, e5]
    omega
  · simp only [MatchTime.call, MatchTime.addTime_secondsPlayed, u8, u16]
    omega

/-- C3 (witness): the amended statement at 39:30 played, adding 45 seconds. -/
theorem timePlayedInSeconds_mono_witness :
    MatchTime.timePlayedInSeconds { minutesPlayed := 39, secondsPlayed := 30 } ≤
      (MatchTime.call { minutesPlayed := 39, secondsPlayed := 30 }
        (.addTime 45)).timePlayedInSeconds :=
  (timePlayedInSeconds_mono { minutesPlayed := 39, secondsPlayed := 30 } 45 0
    (by decide) (by decide)).1

/-! ## C4, C5: end of the match at the end of a period -/

/-- C4 (counterexample): with the do-not-stop-before period set to SUDDEN_DEATH_TIME,
matchEnds(SECOND_HALF_TIME, REGULAR, DRAW) is false, and refreshTime, finding the second half
used up at 0:0, switches a REGULAR match to the before-extra-time interval. -/
theorem regular_draw_continues_under_diag :
    MatchPeriods.matchEnds
        { mt := sampleMatchTime, doNotStopAt_diag := TimePeriod.SUDDEN_DEATH_TIME.code }
        TimePeriod.SECOND_HALF_TIME.code MatchType.REGULAR ResultType.DRAW = false ∧
    (GamePlay.refreshTime
        { periods := { mt := sampleMatchTime,
                       doNotStopAt_diag := TimePeriod.SUDDEN_DEATH_TIME.code },
          _match := { type := MatchType.REGULAR,
                      timePlayed := { currentTimePeriod := TimePeriod.SECOND_HALF_TIME.code,
                                      minutesPlayed := 79, secondsPlayed := 59 } } }
        1 true).2._match.currentPeriod = TimePeriod.BEFORE_EXTRA_TIME_INTERVAL.code := by
  decide

/-- Period after `addTime`. -/
theorem MatchTime.addTime_currentTimePeriod (t : MatchTime) (s : Nat) :
    (t.addTime s).currentTimePeriod = t.currentTimePeriod := by
  simp only [MatchTime.addTime]
  split <;> rfl

/-- C4 (amended): when the do-not-stop-before period is not later than SECOND_HALF_TIME (by
default it is UNDETERMINED), matchEnds(SECOND_HALF_TIME, REGULAR, r) is true for every result
r, including DRAW; hence when refreshTime (with changeTimePeriod = true) finds the second
half's time used up in a REGULAR match, whatever the scores, it returns true and switches the
period to FULL_TIME and not to the before-extra-time interval. -/
theorem regular_match_ends_after_second_half (g : GamePlay) (seconds : Nat) (r : ResultType)
    (hdiag : g.periods.doNotStopAt_diag ≤ TimePeriod.SECOND_HALF_TIME.code)
    (htype : g._match.type = .REGULAR)
    (hper : g._match.currentPeriod = TimePeriod.SECOND_HALF_TIME.code)
    (hused : g.periods.timePlayed TimePeriod.SECOND_HALF_TIME.code 60 ≤
      (g._match.timePlayed.addTime (u8 seconds)).timePlayedInSeconds) :
    g.periods.matchEnds TimePeriod.SECOND_HALF_TIME.code .REGULAR r = true ∧
    (g.refreshTime seconds true).1 = true ∧
    (g.refreshTime seconds true).2._match.currentPeriod = TimePeriod.FULL_TIME.code := by
  have hme : ∀ r2, g.periods.matchEnds TimePeriod.SECOND_HALF_TIME.code .REGULAR r2 = true := by
    intro r2
    have h1 : g.periods.matchType TimePeriod.SECOND_HALF_TIME.code = .PLAYOFFS := rfl
    simp only [MatchPeriods.matchEnds, h1]
    simp [hdiag]
  have hplay : g.periods.isPlayingTime TimePeriod.SECOND_HALF_TIME.code = true := rfl
  have hcur : (g._match.timePlayed.addTime (u8 seconds)).currentTimePeriod =
      TimePeriod.SECOND_HALF_TIME.code := by
    rw [MatchTime.addTime_currentTimePeriod]; exact hper
  have hfull : (g._match.timePlayed.addTime (u8 seconds)).switchTimePeriodTo
      TimePeriod.FULL_TIME.code =
      { g._match.timePlayed.addTime (u8 seconds) with
        currentTimePeriod := TimePeriod.FULL_TIME.code,
        timePeriodLengths := mapInsert
          (g._match.timePlayed.addTime (u8 seconds)).timePeriodLengths
          TimePeriod.FULL_TIME.code 0 } := by
    simp [MatchTime.switchTimePeriodTo, TimePeriod.code]
  refine ⟨hme r, ?_, ?_⟩
  · simp only [GamePlay.refreshTime, Match.currentPeriod, Match.timePlayedInSeconds, hcur,
      htype, hme, hplay]
    simp [hused]
  · simp only [GamePlay.refreshTime, Match.currentPeriod, Match.timePlayedInSeconds, hcur,
      htype, hme, hplay, hfull]
    simp [hused]

/-- C4 (witness): a REGULAR match at 79:59 of the second half, 0:0, default settings: one more
second ends the match. -/
theorem regular_match_ends_after_second_half_witness :
    (sampleEndOfSecondHalf.refreshTime 1 true).1 = true ∧
    (sampleEndOfSecondHalf.refreshTime 1 true).2._match.currentPeriod =
      TimePeriod.FULL_TIME.code :=
  (regular_match_ends_after_second_half sampleEndOfSecondHalf 1 .DRAW
    (by decide) (by decide) (by decide) (by decide)).2

/-- C5: with the default do-not-stop setting, for a PLAYOFFS match and each period p in
SECOND_HALF_TIME, SECOND_EXTRA_TIME, SUDDEN_DEATH_TIME, matchEnds(p, PLAYOFFS, r) is false for
r = DRAW and true for r = WIN and r = LOSS; for every other period matchEnds is false for
every match type and result. -/
theorem matchEnds_playoffs_default (mt : MatchTimeConsts) (p : TimePeriod) (type : MatchType)
    (r : ResultType) :
    (MatchPeriods.matchEnds { mt := mt } TimePeriod.SECOND_HALF_TIME.code .PLAYOFFS .DRAW = false ∧
     MatchPeriods.matchEnds { mt := mt } TimePeriod.SECOND_HALF_TIME.code .PLAYOFFS .WIN = true ∧
     MatchPeriods.matchEnds { mt := mt } TimePeriod.SECOND_HALF_TIME.code .PLAYOFFS .LOSS = true) ∧
    (MatchPeriods.matchEnds { mt := mt } TimePeriod.SECOND_EXTRA_TIME.code .PLAYOFFS .DRAW = false ∧
     MatchPeriods.matchEnds { mt := mt } TimePeriod.SECOND_EXTRA_TIME.code .PLAYOFFS .WIN = true ∧
     MatchPeriods.matchEnds { mt := mt } TimePeriod.SECOND_EXTRA_TIME.code .PLAYOFFS .LOSS = true) ∧
    (MatchPeriods.matchEnds { mt := mt } TimePeriod.SUDDEN_DEATH_TIME.code .PLAYOFFS .DRAW = false ∧
     MatchPeriods.matchEnds { mt := mt } TimePeriod.SUDDEN_DEATH_TIME.code .PLAYOFFS .WIN = true ∧
     MatchPeriods.matchEnds { mt := mt } TimePeriod.SUDDEN_DEATH_TIME.code .PLAYOFFS .LOSS = true) ∧
    (p ≠ .SECOND_HALF_TIME → p ≠ .SECOND_EXTRA_TIME → p ≠ .SUDDEN_DEATH_TIME →
      MatchPeriods.matchEnds { mt := mt } p.code type r = false) := by
  refine ⟨⟨rfl, rfl, rfl⟩, ⟨rfl, rfl, rfl⟩, ⟨rfl, rfl, rfl⟩, ?_⟩
  intro h1 h2 h3
  cases p <;> first | exact absurd rfl h1 | exact absurd rfl h2 | exact absurd rfl h3 | rfl

/-- C5 (witness): the first half never ends a REGULAR match that stands at a WIN. -/
theorem matchEnds_playoffs_default_witness :
    MatchPeriods.matchEnds { mt := sampleMatchTime } TimePeriod.FIRST_HALF_TIME.code
      .REGULAR .WIN = false :=
  (matchEnds_playoffs_default sampleMatchTime .FIRST_HALF_TIME .REGULAR .WIN).2.2.2
    (by decide) (by decide) (by decide)

/-! ## C6: shoot-out decides a tied playoff -/

/-- The bound on the goals of a side drawn in the kicking competition is at most 26. -/
theorem GamePlay.maxNumberOfGoals_le (g : GamePlay) (loc : Location) :
    g.maxNumberOfGoals loc ≤ 26 := by
  simp only [GamePlay.maxNumberOfGoals, u8]
  omega

/-- C6 (counterexample): a PLAYOFFS match tied on points in which the hosts have 200 shoot-out
goals and the visitors none: the hosts are given a LOSS and winner(WIN) is the visitors. -/
theorem shootOut_large_difference_misjudged :
    Match.resultTypeForTeam
        { type := MatchType.PLAYOFFS, scoreHosts := { shootOutGoals := 200 } }
        Location.HOSTS = ResultType.LOSS ∧
    Match.winner
        { type := MatchType.PLAYOFFS, scoreHosts := { shootOutGoals := 200 } }
        ResultType.WIN = some Location.VISITORS := by
  decide

/-- Result for the hosts in a tied playoff, by the sign of the 8-bit goal difference. -/
theorem Match.resultTypeForTeam_tied_playoff (m : Match) (loc : Location)
    (htype : m.type = .PLAYOFFS)
    (hpts : m.scoreHosts.pointsTotal = m.scoreVisitors.pointsTotal) :
    m.resultTypeForTeam loc =
      (let d := i8 ((m.scoreHosts.getShootOutGoals : Int) - (m.scoreVisitors.getShootOutGoals : Int))
       let r : ResultType := if d < 0 then .LOSS else if d > 0 then .WIN else .DRAW
       if loc = .VISITORS ∧ r ≠ .DRAW then r.negate else r) := by
  simp only [Match.resultTypeForTeam, htype, hpts, lt_irrefl, gt_iff_lt, if_false, true_and,
    if_true]

/-- C6 (amended): for every PLAYOFFS match whose two sides have equal points and unequal
shoot-out goals, resultTypeForTeam is never DRAW; when the goal counts differ by at most 127
(the range of the 8-bit difference; a kicking competition yields at most 26 goals), it is WIN
for the side with more shoot-out goals and LOSS for the other side, so winner(WIN) returns the
side with more shoot-out goals. -/
theorem shootOut_decides_tied_playoff (m : Match)
    (htype : m.type = .PLAYOFFS)
    (hpts : m.scoreHosts.pointsTotal = m.scoreVisitors.pointsTotal)
    (hne : m.scoreHosts.getShootOutGoals ≠ m.scoreVisitors.getShootOutGoals) :
    m.resultTypeForTeam .HOSTS ≠ .DRAW ∧ m.resultTypeForTeam .VISITORS ≠ .DRAW ∧
    (m.scoreVisitors.getShootOutGoals < m.scoreHosts.getShootOutGoals →
      m.scoreHosts.getShootOutGoals ≤ m.scoreVisitors.getShootOutGoals + 127 →
      m.resultTypeForTeam .HOSTS = .WIN ∧ m.resultTypeForTeam .VISITORS = .LOSS ∧
        m.winner .WIN = some .HOSTS) ∧
    (m.scoreHosts.getShootOutGoals < m.scoreVisitors.getShootOutGoals →
      m.scoreVisitors.getShootOutGoals ≤ m.scoreHosts.getShootOutGoals + 127 →
      m.resultTypeForTeam .HOSTS = .LOSS ∧ m.resultTypeForTeam .VISITORS = .WIN ∧
        m.winner .WIN = some .VISITORS) := by
  have hh : m.scoreHosts.getShootOutGoals < 256 := Nat.mod_lt _ (by decide)
  have hv : m.scoreVisitors.getShootOutGoals < 256 := Nat.mod_lt _ (by decide)
  have rH := Match.resultTypeForTeam_tied_playoff m .HOSTS htype hpts
  have rV := Match.resultTypeForTeam_tied_playoff m .VISITORS htype hpts
  simp only [Match.winner, rH, rV]
  generalize m.scoreHosts.getShootOutGoals = h at *
  generalize m.scoreVisitors.getShootOutGoals = v at *
  have hd0 : i8 ((h : Int) - (v : Int)) ≠ 0 := by
    unfold i8; omega
  refine ⟨?_, ?_, ?_, ?_⟩
  · by_cases hneg : i8 ((h : Int) - (v : Int)) < 0
    · simp [hneg]
    · have hpos : i8 ((h : Int) - (v : Int)) > 0 := by omega
      simp [hneg, hpos]
  · by_cases hneg : i8 ((h : Int) - (v : Int)) < 0
    · simp [hneg, ResultType.negate]
    · have hpos : i8 ((h : Int) - (v : Int)) > 0 := by omega
      simp [hneg, hpos, ResultType.negate]
  · intro hlt hle
    have hpos : i8 ((h : Int) - (v : Int)) > 0 := by unfold i8; omega
    have hneg : ¬ i8 ((h : Int) - (v : Int)) < 0 := by omega
    simp [hneg, hpos, ResultType.negate]
  · intro hlt hle
    have hneg : i8 ((h : Int) - (v : Int)) < 0 := by unfold i8; omega
    simp [hneg, ResultType.negate]

/-- C6 (witness): a tied playoff decided 4 : 3 in the kicking competition is won by the
hosts. -/
theorem shootOut_decides_tied_playoff_witness :
    Match.winner { type := .PLAYOFFS, scoreHosts := { shootOutGoals := 4 },
                   scoreVisitors := { shootOutGoals := 3 } } .WIN = some .HOSTS :=
  ((shootOut_decides_tied_playoff
      { type := .PLAYOFFS, scoreHosts := { shootOutGoals := 4 },
        scoreVisitors := { shootOutGoals := 3 } }
      rfl (by decide) (by decide)).2.2.1 (by decide) (by decide)).2.2

/-! ## C7: the kicking competition ends with distinct goal counts -/

/-- The re-roll loop ends only with a value different from the hosts' goals, and keeps the
value within 8 bits. -/
theorem rerollUntilDistinct_spec (goals0 maxGoals : Nat) (draws : List Nat) :
    ∀ (goals1 x : Nat) (rest : List Nat), goals1 < 256 →
      rerollUntilDistinct goals0 maxGoals goals1 draws = some (x, rest) →
      goals0 ≠ x ∧ x < 256 := by
  induction draws with
  | nil =>
    intro goals1 x rest h1 h
    unfold rerollUntilDistinct at h
    by_cases hne : goals0 ≠ goals1
    · simp [hne] at h
      obtain ⟨rfl, -⟩ := h
      exact ⟨hne, h1⟩
    · simp [hne] at h
  | cons d ds ih =>
    intro goals1 x rest h1 h
    unfold rerollUntilDistinct at h
    by_cases hne : goals0 ≠ goals1
    · simp [hne] at h
      obtain ⟨rfl, -⟩ := h
      exact ⟨hne, h1⟩
    · simp only [hne, if_false] at h
      exact ih _ x rest (Nat.mod_lt _ (by decide)) h

/-- The kicking competition returns at once when the first two draws give different goal
counts. -/
theorem GamePlay.kickingCompetition_returns (g : GamePlay) (d0 d1 : Nat) (rest : List Nat)
    (hne : u8 (generateRandomInt 0 (g.maxNumberOfGoals .HOSTS) d0) ≠
      u8 (generateRandomInt 0 (g.maxNumberOfGoals .VISITORS) d1)) :
    (g.kickingCompetition (d0 :: d1 :: rest)).isSome = true := by
  unfold GamePlay.kickingCompetition
  cases rest <;> simp [rerollUntilDistinct, hne]

/-- The re-roll loop cannot end when the visitors' bound is 0 and the hosts scored 0: every
re-roll yields 0 again, whatever the draws. -/
theorem rerollUntilDistinct_stuck (draws : List Nat) :
    rerollUntilDistinct 0 0 0 draws = none := by
  induction draws with
  | nil => simp [rerollUntilDistinct]
  | cons d ds ih =>
    unfold rerollUntilDistinct
    have e : u8 (generateRandomInt 0 0 d) = 0 := by
      simp only [generateRandomInt, u8]
      omega
    simpa [e] using ih

/-- C7: whenever kickingCompetition returns, the shoot-out goals it has recorded for hosts
and for visitors are different numbers, for every pair of squads and every sequence of
random draws. -/
theorem kickingCompetition_goals_distinct (g g2 : GamePlay) (draws rest : List Nat)
    (h : g.kickingCompetition draws = some (g2, rest)) :
    g2._match.scoreHosts.getShootOutGoals ≠ g2._match.scoreVisitors.getShootOutGoals := by
  unfold GamePlay.kickingCompetition at h
  match draws, h with
  | d0 :: d1 :: ds, h =>
    simp only at h
    cases hr : rerollUntilDistinct (u8 (generateRandomInt 0 (g.maxNumberOfGoals .HOSTS) d0))
        (g.maxNumberOfGoals .VISITORS)
        (u8 (generateRandomInt 0 (g.maxNumberOfGoals .VISITORS) d1)) ds with
    | none => simp [hr] at h
    | some res =>
      obtain ⟨x, rest2⟩ := res
      have hx := rerollUntilDistinct_spec _ _ ds _ x rest2 (Nat.mod_lt _ (by decide)) hr
      simp only [hr, Option.some.injEq, Prod.mk.injEq] at h
      obtain ⟨rfl, -⟩ := h
      simp only [MatchScore.getShootOutGoals, MatchScore.shootOutGoalsScored, u8] at hx ⊢
      omega

/-- C7 (witness): with draws 3, 13, 7 the sample competition first ties 3 : 3, re-rolls the
visitors and returns 3 : 7. -/
theorem kickingCompetition_goals_distinct_witness :
    sampleShootOutResult.1._match.scoreHosts.getShootOutGoals = 3 ∧
    sampleShootOutResult.1._match.scoreVisitors.getShootOutGoals = 7 ∧
    sampleShootOutResult.1._match.scoreHosts.getShootOutGoals ≠
      sampleShootOutResult.1._match.scoreVisitors.getShootOutGoals :=
  ⟨by decide, by decide,
   kickingCompetition_goals_distinct sampleShootOut sampleShootOutResult.1 [3, 13, 7]
     sampleShootOutResult.2 rfl⟩

/-! ## C8: a second yellow card is a send-off -/

/-- Statistics records after a store through `playerStats`. -/
theorem Match.playerStats_setPlayerStats (m : Match) (loc loc2 : Location) (p p2 : Nat)
    (st : PlayerStats) :
    (m.setPlayerStats loc p st).playerStats loc2 p2 =
      if loc2 = loc ∧ p2 = p then some st else m.playerStats loc2 p2 := by
  cases loc <;> cases loc2 <;> simp [Match.setPlayerStats, Match.playerStats]

/-- A dangerous tackle keeps every yellow-card count of the match at most one. -/
theorem GamePlay.dangerousTackle_yellow_le_one (g : GamePlay) (tp draw : Nat)
    (r : Bool × GamePlay)
    (hinv : ∀ loc p st, g._match.playerStats loc p = some st → st.yellowCards ≤ 1)
    (h : g.dangerousTackle tp draw = some r) :
    ∀ loc p st, r.2._match.playerStats loc p = some st → st.yellowCards ≤ 1 := by
  unfold GamePlay.dangerousTackle at h
  cases hst : g._match.playerStats g.whoIsInPossession.2 tp with
  | none => simp [hst] at h
  | some st0 =>
    have hy0 := hinv _ _ _ hst
    simp only [hst] at h
    split at h
    · -- sin-bin
      rename_i hpt
      have hnot : ¬ (g.rolledPunishment tp draw = .SIN_BINNED ∧
          u8 (st0.getStatsValue .YELLOW_CARDS) = 1) := by
        intro hc
        simp [hc] at hpt
      have hroll : g.rolledPunishment tp draw = .SIN_BINNED := by
        by_contra hne
        have : ¬ (g.rolledPunishment tp draw = .SIN_BINNED ∧
            u8 (st0.getStatsValue .YELLOW_CARDS) = 1) := fun hc => hne hc.1
        simp only [this, if_false] at hpt
        exact hne hpt
      have hzero : st0.yellowCards = 0 := by
        have hne1 : u8 (st0.getStatsValue .YELLOW_CARDS) ≠ 1 := fun hc => hnot ⟨hroll, hc⟩
        simp only [PlayerStats.getStatsValue, u8, u16] at hne1
        omega
      simp only [Option.some.injEq] at h
      subst h
      intro loc p st hs
      simp only [Match.setPlayer, Match.addSuspension, Match.playerStats] at hs
      have hs2 : ((g._match.setPlayer tp
          { g._match.players tp with
            stats := (g._match.players tp).stats.incrementStatsValue .YELLOW_CARDS }).setPlayerStats
          g.whoIsInPossession.2 tp (st0.incrementStatsValue .YELLOW_CARDS)).playerStats loc p
          = some st := by
        cases loc <;> exact hs
      rw [Match.playerStats_setPlayerStats] at hs2
      split at hs2
      · simp only [Option.some.injEq] at hs2
        subst hs2
        simp [PlayerStats.incrementStatsValue, u16, hzero]
      · exact hinv loc p st (by cases loc <;> exact hs2)
    · -- send-off
      simp only [Option.some.injEq] at h
      subst h
      intro loc p st hs
      simp only [Match.setPlayer, Match.addSuspension, Match.playerStats] at hs
      have hs2 : ((g._match.setPlayer tp
          { g._match.players tp with
            stats := (g._match.players tp).stats.incrementStatsValue .RED_CARDS }).setPlayerStats
          g.whoIsInPossession.2 tp (st0.incrementStatsValue .RED_CARDS)).playerStats loc p
          = some st := by
        cases loc <;> exact hs
      rw [Match.playerStats_setPlayerStats] at hs2
      split at hs2
      · simp only [Option.some.injEq] at hs2
        subst hs2
        simpa [PlayerStats.incrementStatsValue] using hy0
      · exact hinv loc p st (by cases loc <;> exact hs2)
    · -- warning or no punishment
      simp only [Option.some.injEq] at h
      subst h
      exact hinv

/-- Any sequence of card events keeps every yellow-card count of the match at most one. -/
theorem GamePlay.cardEvents_yellow_le_one (events : List CardEvent) :
    ∀ (g gN : GamePlay),
      (∀ loc p st, g._match.playerStats loc p = some st → st.yellowCards ≤ 1) →
      g.cardEvents events = some gN →
      ∀ loc p st, gN._match.playerStats loc p = some st → st.yellowCards ≤ 1 := by
  induction events with
  | nil =>
    intro g gN hinv h
    simp only [GamePlay.cardEvents, Option.some.injEq] at h
    subst h
    exact hinv
  | cons e es ih =>
    intro g gN hinv h
    cases e with
    | tackle tip tp draw =>
      simp only [GamePlay.cardEvents] at h
      cases hd : ({ g with teamInPossession := tip } : GamePlay).dangerousTackle tp draw with
      | none => simp [hd] at h
      | some r =>
        simp only [hd] at h
        exact ih r.2 gN
          (GamePlay.dangerousTackle_yellow_le_one { g with teamInPossession := tip } tp draw r
            hinv hd) h
    | newStatsRecord loc player =>
      simp only [GamePlay.cardEvents] at h
      refine ih _ gN ?_ h
      intro loc2 p2 st hs
      simp only [Match.addNewStatsRecordForPlayer] at hs
      rw [Match.playerStats_setPlayerStats] at hs
      split at hs
      · simp only [Option.some.injEq] at hs
        subst hs
        decide
      · exact hinv loc2 p2 st hs

/-- A statistics record is not touched by a store through a player pointer. -/
theorem Match.playerStats_setPlayer (m : Match) (c : Nat) (p : Player) (loc : Location)
    (c2 : Nat) : (m.setPlayer c p).playerStats loc c2 = m.playerStats loc c2 := by
  cases loc <;> rfl

/-- The result of `updateStatistics` for a player with a record of the match. -/
theorem GamePlay.updateStatistics_eq (g : GamePlay) (loc : Location) (stats : CardStat)
    (player : Nat) (st : PlayerStats) (h : g._match.playerStats loc player = some st) :
    g.updateStatistics loc stats player =
      some { g with _match :=
                      Match.setPlayerStats (g._match.setPlayer player
                        { g._match.players player with
                            stats := (g._match.players player).stats.incrementStatsValue stats })
                        loc player (st.incrementStatsValue stats) } := by
  simp only [GamePlay.updateStatistics, Match.playerStats_setPlayer, h]

/-- A call of `switchPlayers` returns, and the incoming player has a new statistics record of
the match, which counts the game and nothing else, whatever his record showed before. -/
theorem GamePlay.switchPlayers_new_record (g : GamePlay) (playerOut playerIn : Nat)
    (loc : Location) (formDraw : Bool) :
    ∃ g1, g.switchPlayers playerOut playerIn loc formDraw = some g1 ∧
      g1._match.playerStats loc playerIn =
        some { gamesPlayed := 1, gamesPlayedAsSubstitute := 1 } := by
  unfold GamePlay.switchPlayers
  simp only []
  rw [GamePlay.updateStatistics_eq _ loc .GAMES_PLAYED playerIn {}
    (by simp only [Match.addNewStatsRecordForPlayer, Match.playerStats_setPlayerStats,
      and_self, if_true])]
  simp only []
  rw [GamePlay.updateStatistics_eq _ loc .GAMES_PLAYED_SUB playerIn
    (PlayerStats.incrementStatsValue {} .GAMES_PLAYED)
    (by simp only [Match.playerStats_setPlayerStats, and_self, if_true])]
  simp only []
  refine ⟨_, rfl, ?_⟩
  rw [Match.playerStats_setPlayer]
  split
  · rw [Match.playerStats_setPlayer, Match.playerStats_setPlayerStats]
    simp only [and_self, if_true]
    rfl
  · rw [Match.playerStats_setPlayerStats]
    simp only [and_self, if_true]
    rfl

/-- A rolled sin-bin for a player whose record of the match shows one yellow card is applied
as a send-off: the call returns true, the red-card count of the record grows by one, the
yellow-card counts (match and career) stay as they are, a suspension of type SENT_OFF is
appended and the player leaves the pitch flagged as sent off. -/
theorem GamePlay.dangerousTackle_second_yellow (g : GamePlay) (tp draw : Nat)
    (st : PlayerStats)
    (hst : g._match.playerStats g.whoIsInPossession.2 tp = some st)
    (hy : st.yellowCards = 1)
    (hroll : g.rolledPunishment tp draw = .SIN_BINNED) :
    ∃ r, g.dangerousTackle tp draw = some r ∧ r.1 = true ∧
      r.2._match.playerStats g.whoIsInPossession.2 tp =
        some { st with redCards := u16 (st.redCards + 1) } ∧
      (r.2._match.players tp).lastMatchSentOff = true ∧
      r.2._match.sinBin = g._match.sinBin ++
        [SinBin.make tp (g._match.players tp).noOnPitch g.whoIsInPossession.2 .SENT_OFF
          (u8 (g._match.timePlayed.minutesPlayed + 1))] ∧
      (r.2._match.players tp).onPitch = false ∧
      (r.2._match.players tp).stats.yellowCards = (g._match.players tp).stats.yellowCards ∧
      (r.2._match.players tp).stats.redCards =
        u16 ((g._match.players tp).stats.redCards + 1) := by
  have hu : u8 (st.getStatsValue .YELLOW_CARDS) = 1 := by
    simp [PlayerStats.getStatsValue, u8, u16, hy]
  simp only [GamePlay.dangerousTackle, hst, hroll, hu, and_self, if_true]
  refine ⟨_, rfl, rfl, ?_, ?_, ?_, ?_, ?_, ?_⟩
  · have e : ∀ (m : Match) (a b c : Nat) (l : Location) (t : MatchActivityType) (q : Player),
        ((m.addSuspension a b l t).setPlayer c q).playerStats g.whoIsInPossession.2 tp =
          m.playerStats g.whoIsInPossession.2 tp := by
      intro m a b c l t q
      cases g.whoIsInPossession.2 <;> rfl
    simp only [e, Match.playerStats_setPlayerStats, and_self, if_true]
    cases st
    simp_all [PlayerStats.incrementStatsValue]
  · simp [Match.setPlayer, Player.sentOff, Player.withdrawPlayer]
  · simp [Match.setPlayer, Match.addSuspension, Match.setPlayerStats]
    cases g.whoIsInPossession.2 <;> rfl
  · simp [Match.setPlayer, Player.sentOff, Player.withdrawPlayer]
  · simp [Match.setPlayer, Player.sentOff, Player.withdrawPlayer,
      PlayerStats.incrementStatsValue]
  · simp [Match.setPlayer, Player.sentOff, Player.withdrawPlayer,
      PlayerStats.incrementStatsValue]

/-- A rolled sin-bin for a player whose record of the match shows no yellow card is applied as
a sin-bin. -/
theorem GamePlay.dangerousTackle_first_yellow (g : GamePlay) (tp draw : Nat) (st : PlayerStats)
    (hst : g._match.playerStats g.whoIsInPossession.2 tp = some st)
    (hy : st.yellowCards = 0)
    (hroll : g.rolledPunishment tp draw = .SIN_BINNED) :
    ∃ r, g.dangerousTackle tp draw = some r ∧ r.1 = true ∧
      r.2._match.playerStats g.whoIsInPossession.2 tp = some { st with yellowCards := 1 } ∧
      r.2._match.sinBin = g._match.sinBin ++
        [SinBin.make tp (g._match.players tp).noOnPitch g.whoIsInPossession.2 .SIN_BINNED
          (u8 (g._match.timePlayed.minutesPlayed + 1))] ∧
      (r.2._match.players tp).lastMatchSentOff = (g._match.players tp).lastMatchSentOff ∧
      (r.2._match.players tp).stats.yellowCards =
        u16 ((g._match.players tp).stats.yellowCards + 1) ∧
      (r.2._match.players tp).stats.redCards = (g._match.players tp).stats.redCards := by
  have hu : ¬ (u8 (st.getStatsValue .YELLOW_CARDS) = 1) := by
    simp [PlayerStats.getStatsValue, u8, u16, hy]
  simp only [GamePlay.dangerousTackle, hst, hroll, hu, and_false, if_false]
  refine ⟨_, rfl, rfl, ?_, ?_, ?_, ?_, ?_⟩
  · have e : ∀ (m : Match) (a b c : Nat) (l : Location) (t : MatchActivityType) (q : Player),
        ((m.addSuspension a b l t).setPlayer c q).playerStats g.whoIsInPossession.2 tp =
          m.playerStats g.whoIsInPossession.2 tp := by
      intro m a b c l t q
      cases g.whoIsInPossession.2 <;> rfl
    simp only [e, Match.playerStats_setPlayerStats, and_self, if_true]
    cases st
    simp_all [PlayerStats.incrementStatsValue, u16]
  · simp [Match.setPlayer, Match.addSuspension, Match.setPlayerStats]
    cases g.whoIsInPossession.2 <;> rfl
  · simp [Match.setPlayer, Player.withdrawPlayer]
  · simp [Match.setPlayer, Player.withdrawPlayer, PlayerStats.incrementStatsValue]
  · simp [Match.setPlayer, Player.withdrawPlayer, PlayerStats.incrementStatsValue]

/-- C8 (code evaluated): in dangerousTackle a rolled sin-bin for a player whose statistics
record of the match shows one yellow card is applied as a send-off (a red card is recorded,
no further yellow card), and no record of a match ever shows more than one yellow card.  But
the record is not the player's history in the match: switchPlayers gives the incoming player
a new record, whatever the old one showed, so for a player who comes back on (as replacement
of an injured player) a rolled sin-bin is applied as a sin-bin again: a yellow card is added
to the new record and to the career record, a suspension of type SIN_BINNED is appended and
the player is not flagged as sent off. -/
theorem second_yellow_card_after_reentry (g : GamePlay) (playerOut playerIn : Nat)
    (loc : Location) (formDraw : Bool) (tip : Option Location) (draw : Nat)
    (g0 gN : GamePlay) (events : List CardEvent) :
    (∀ st, g._match.playerStats g.whoIsInPossession.2 playerIn = some st →
      st.yellowCards = 1 → g.rolledPunishment playerIn draw = .SIN_BINNED →
      ∃ r, g.dangerousTackle playerIn draw = some r ∧ r.1 = true ∧
        r.2._match.playerStats g.whoIsInPossession.2 playerIn =
          some { st with redCards := u16 (st.redCards + 1) } ∧
        (r.2._match.players playerIn).lastMatchSentOff = true ∧
        r.2._match.sinBin = g._match.sinBin ++
          [SinBin.make playerIn (g._match.players playerIn).noOnPitch g.whoIsInPossession.2
            .SENT_OFF (u8 (g._match.timePlayed.minutesPlayed + 1))] ∧
        (r.2._match.players playerIn).onPitch = false ∧
        (r.2._match.players playerIn).stats.yellowCards =
          (g._match.players playerIn).stats.yellowCards ∧
        (r.2._match.players playerIn).stats.redCards =
          u16 ((g._match.players playerIn).stats.redCards + 1)) ∧
    ((∀ l p st0, g0._match.playerStats l p = some st0 → st0.yellowCards = 0) →
      g0.cardEvents events = some gN →
      ∀ l p st1, gN._match.playerStats l p = some st1 → st1.yellowCards ≤ 1) ∧
    (∃ g1, g.switchPlayers playerOut playerIn loc formDraw = some g1 ∧
      g1._match.playerStats loc playerIn =
        some { gamesPlayed := 1, gamesPlayedAsSubstitute := 1 } ∧
      (({ g1 with teamInPossession := tip } : GamePlay).whoIsInPossession.2 = loc →
        ({ g1 with teamInPossession := tip } : GamePlay).rolledPunishment playerIn draw =
          .SIN_BINNED →
        ∃ r, ({ g1 with teamInPossession := tip } : GamePlay).dangerousTackle playerIn draw =
            some r ∧ r.1 = true ∧
          r.2._match.playerStats loc playerIn =
            some { yellowCards := 1, gamesPlayed := 1, gamesPlayedAsSubstitute := 1 } ∧
          r.2._match.sinBin = g1._match.sinBin ++
            [SinBin.make playerIn (g1._match.players playerIn).noOnPitch loc .SIN_BINNED
              (u8 (g1._match.timePlayed.minutesPlayed + 1))] ∧
          (r.2._match.players playerIn).lastMatchSentOff =
            (g1._match.players playerIn).lastMatchSentOff ∧
          (r.2._match.players playerIn).stats.yellowCards =
            u16 ((g1._match.players playerIn).stats.yellowCards + 1) ∧
          (r.2._match.players playerIn).stats.redCards =
            (g1._match.players playerIn).stats.redCards)) := by
  refine ⟨?_, ?_, ?_⟩
  · intro st hst hy hroll
    exact GamePlay.dangerousTackle_second_yellow g playerIn draw st hst hy hroll
  · intro hzero hrun
    exact GamePlay.cardEvents_yellow_le_one events g0 gN
      (fun l p st0 h0 => by rw [hzero l p st0 h0]; exact Nat.zero_le 1) hrun
  · obtain ⟨g1, h1, h2⟩ := GamePlay.switchPlayers_new_record g playerOut playerIn loc formDraw
    refine ⟨g1, h1, h2, ?_⟩
    intro hloc hroll
    have hst : ({ g1 with teamInPossession := tip } : GamePlay)._match.playerStats
        ({ g1 with teamInPossession := tip } : GamePlay).whoIsInPossession.2 playerIn =
        some { gamesPlayed := 1, gamesPlayedAsSubstitute := 1 } := by
      rw [hloc]
      exact h2
    obtain ⟨r, e1, e2, e3, e4, e5, e6, e7⟩ := GamePlay.dangerousTackle_first_yellow
      { g1 with teamInPossession := tip } playerIn draw _ hst rfl hroll
    rw [hloc] at e3 e4
    exact ⟨r, e1, e2, e3, e4, e5, e6, e7⟩

/-- C8 (witness): after two dangerous tackles from kick-off the record of player 7 shows one
yellow and one red card, and a player on one yellow card is sent off by a rolled sin-bin.
But: player 7 of the visitors is shown a yellow card, serves his ten minutes and is
replaced by player 9; his record of the match shows one yellow card.  When player 8 is
injured he is eligible as replacement; switchPlayers gives him a new record, and his next
dangerous tackle, rolled as a sin-bin, is punished with a second yellow card: the new record
shows one yellow and no red card, his career record two yellow cards, and he is not flagged
as sent off. -/
theorem second_yellow_card_after_reentry_witness :
    sampleAfterTwoTackles._match.playerStats .VISITORS 7 =
      some { yellowCards := 1, redCards := 1 } ∧
    (∃ r, sampleSecondYellow.dangerousTackle 7 0 = some r ∧ r.1 = true ∧
      r.2._match.playerStats sampleSecondYellow.whoIsInPossession.2 7 =
        some { yellowCards := 1, redCards := u16 (0 + 1) } ∧
      (r.2._match.players 7).lastMatchSentOff = true) ∧
    sampleReplacedAfterYellow._match.playerStats .VISITORS 7 =
      some { yellowCards := 1, gamesPlayed := 1 } ∧
    (sampleReplacedAfterYellow._match.players 7).stats.yellowCards = 1 ∧
    sampleReplacedAfterYellow.isEligibleForSubstitution 8 7 .VISITORS true = true ∧
    (∃ g1, sampleReplacedAfterYellow.switchPlayers 8 7 .VISITORS false = some g1 ∧
      g1._match.playerStats .VISITORS 7 =
        some { gamesPlayed := 1, gamesPlayedAsSubstitute := 1 } ∧
      (({ g1 with teamInPossession := some .HOSTS } : GamePlay).whoIsInPossession.2 =
          .VISITORS →
        ({ g1 with teamInPossession := some .HOSTS } : GamePlay).rolledPunishment 7 0 =
          .SIN_BINNED →
        ∃ r, ({ g1 with teamInPossession := some .HOSTS } : GamePlay).dangerousTackle 7 0 =
            some r ∧ r.1 = true ∧
          r.2._match.playerStats .VISITORS 7 =
            some { yellowCards := 1, gamesPlayed := 1, gamesPlayedAsSubstitute := 1 } ∧
          r.2._match.sinBin = g1._match.sinBin ++
            [SinBin.make 7 (g1._match.players 7).noOnPitch .VISITORS .SIN_BINNED
              (u8 (g1._match.timePlayed.minutesPlayed + 1))] ∧
          (r.2._match.players 7).lastMatchSentOff = (g1._match.players 7).lastMatchSentOff ∧
          (r.2._match.players 7).stats.yellowCards =
            u16 ((g1._match.players 7).stats.yellowCards + 1) ∧
          (r.2._match.players 7).stats.redCards = (g1._match.players 7).stats.redCards)) ∧
    ((sampleReplacedAfterYellow.switchPlayers 8 7 .VISITORS false).bind
      (fun g1 => (({ g1 with teamInPossession := some .HOSTS } : GamePlay).dangerousTackle
        7 0).map
        (fun r => (r.1, (r.2._match.players 7).stats.yellowCards,
          (r.2._match.players 7).stats.redCards, (r.2._match.players 7).lastMatchSentOff,
          r.2._match.sinBin.map (fun s => (s.player, s.type)))))) =
      some (true, 2, 0, false, [(7, .SIN_BINNED), (7, .SIN_BINNED)]) :=
  ⟨by decide,
   (fun ⟨r, h1, h2, h3, h4, _⟩ => ⟨r, h1, h2, h3, h4⟩)
     ((second_yellow_card_after_reentry sampleSecondYellow 8 7 .VISITORS false
       (some .HOSTS) 0 sampleKickOff sampleKickOff []).1 { yellowCards := 1 } rfl rfl rfl),
   by decide, by decide, by decide,
   (second_yellow_card_after_reentry sampleReplacedAfterYellow 8 7 .VISITORS false
     (some .HOSTS) 0 sampleKickOff sampleKickOff []).2.2,
   by rfl⟩

/-! ## C9: the sin-bin countdown -/

/-- The loop of `deductSuspensionMinutesRemaining` treats the records independently of each
other: every record loses min(remaining, minutes), and the records reported are those with
minutes remaining that reach zero. -/
theorem deductSuspensionLoop_eq (minutes : Nat) (hm : minutes < 256) (l : List SinBin) :
    ∀ (ret : List (Nat × Nat)) (upd : Nat), (∀ s ∈ l, s.minutesRemaining < 256) →
      (deductSuspensionLoop minutes l ret upd).1 =
        l.map (fun s => { s with minutesRemaining := s.minutesRemaining - minutes }) ∧
      (deductSuspensionLoop minutes l ret upd).2.1 =
        ret ++ (l.filter (fun s => decide (0 < s.minutesRemaining ∧
          s.minutesRemaining ≤ minutes))).map (fun s => (s.player, s.number)) := by
  induction l with
  | nil => intro ret upd _; simp [deductSuspensionLoop]
  | cons s rest ih =>
    intro ret upd hrem
    have hs : s.minutesRemaining < 256 := hrem s (List.mem_cons_self _ _)
    have hrest : ∀ t ∈ rest, t.minutesRemaining < 256 :=
      fun t ht => hrem t (List.mem_cons_of_mem _ ht)
    have e1 : u8 s.minutesRemaining = s.minutesRemaining := Nat.mod_eq_of_lt hs
    have e2 : u8 (min s.minutesRemaining minutes) = min s.minutesRemaining minutes :=
      Nat.mod_eq_of_lt (by omega)
    have e3 : u8 (s.minutesRemaining + 256 - min s.minutesRemaining minutes) =
        s.minutesRemaining - minutes := by
      simp only [u8]
      omega
    have e4 : decide (0 < min s.minutesRemaining minutes ∧
        s.minutesRemaining - minutes = 0) =
        decide (0 < s.minutesRemaining ∧ s.minutesRemaining ≤ minutes) := by
      apply decide_eq_decide.mpr
      omega
    simp only [deductSuspensionLoop, SinBin.deductMinutesRemaining, e1, e2, e3, e4,
      List.map_cons, List.filter_cons]
    by_cases hrep : 0 < s.minutesRemaining ∧ s.minutesRemaining ≤ minutes
    · simp only [hrep, and_self, decide_True, if_true]
      refine ⟨by rw [(ih _ _ hrest).1], ?_⟩
      rw [(ih _ _ hrest).2]
      simp
    · simp only [hrep, decide_False, if_false, Bool.false_eq_true]
      refine ⟨by rw [(ih _ _ hrest).1], ?_⟩
      rw [(ih _ _ hrest).2]

/-- After a sequence of calls every record has lost the minutes deducted in all, as far as it
had minutes remaining. -/
theorem Match.deductSuspensionCalls_sinBin (calls : List Nat) :
    ∀ (m : Match), (∀ s ∈ m.sinBin, s.minutesRemaining < 256) →
      (m.deductSuspensionCalls calls).sinBin =
        m.sinBin.map (fun s =>
          { s with minutesRemaining := s.minutesRemaining - minutesDeductedBy calls }) := by
  induction calls with
  | nil =>
    intro m _
    simp [Match.deductSuspensionCalls, minutesDeductedBy]
  | cons c rest ih =>
    intro m hrem
    have hstep := (deductSuspensionLoop_eq (u8 c) (Nat.mod_lt _ (by decide)) m.sinBin [] 0
      hrem).1
    have h1 : (m.deductSuspensionMinutesRemaining [] 0 c).1.sinBin =
        m.sinBin.map (fun s => { s with minutesRemaining := s.minutesRemaining - u8 c }) := by
      simp only [Match.deductSuspensionMinutesRemaining, hstep]
    have h2 := ih (m.deductSuspensionMinutesRemaining [] 0 c).1 (by
      rw [h1]
      intro s hs
      simp only [List.mem_map] at hs
      obtain ⟨t, ht, rfl⟩ := hs
      have := hrem t ht
      simp only
      omega)
    simp only [Match.deductSuspensionCalls, h2, h1, List.map_map, minutesDeductedBy,
      List.map_cons, List.sum_cons]
    apply List.map_congr_left
    intro s _
    simp only [Function.comp]
    congr 1
    omega

/-- C9: whatever suspensions the list already holds (8-bit countdowns), every call of
deductSuspensionMinutesRemaining deducts min(remaining, minutes) from every record, so that no
countdown goes below 0, and reports exactly the records whose countdown was running and
reaches 0 in this call; a record without minutes remaining, such as a send-off, is never
reported.  A player sin-binned by addSuspension gets a record of 10 minutes at the end of the
list; after any calls the further call with x minutes reports him, after the players of the
older records, exactly when the minutes deducted since the card, x included, reach 10 and
those before it did not; a player sent off by addSuspension is never added to the report. -/
theorem sinBin_player_returns_after_ten_minutes (m : Match) (player number : Nat)
    (team : Location) (calls : List Nat) (x : Nat)
    (hrem : ∀ s ∈ m.sinBin, s.minutesRemaining < 256) :
    (m.deductSuspensionMinutesRemaining [] 0 x).1.sinBin =
      m.sinBin.map (fun s =>
        { s with minutesRemaining := s.minutesRemaining - min s.minutesRemaining (u8 x) }) ∧
    (m.deductSuspensionMinutesRemaining [] 0 x).2.1 =
      (m.sinBin.filter (fun s => decide (0 < s.minutesRemaining ∧
        s.minutesRemaining ≤ u8 x))).map (fun s => (s.player, s.number)) ∧
    ((m.addSuspension player number team .SIN_BINNED).deductSuspensionCalls calls).sinBin =
      (m.deductSuspensionCalls calls).sinBin ++
        [{ SinBin.make player number team .SIN_BINNED (u8 (m.timePlayed.minutesPlayed + 1)) with
           minutesRemaining := 10 - min 10 (minutesDeductedBy calls) }] ∧
    (((m.addSuspension player number team .SIN_BINNED).deductSuspensionCalls
        calls).deductSuspensionMinutesRemaining [] 0 x).2.1 =
      ((m.deductSuspensionCalls calls).deductSuspensionMinutesRemaining [] 0 x).2.1 ++
        (if minutesDeductedBy calls < 10 ∧ 10 ≤ minutesDeductedBy calls + u8 x
         then [(player, number)] else []) ∧
    (((m.addSuspension player number team .SENT_OFF).deductSuspensionCalls
        calls).deductSuspensionMinutesRemaining [] 0 x).2.1 =
      ((m.deductSuspensionCalls calls).deductSuspensionMinutesRemaining [] 0 x).2.1 := by
  have hx : u8 x < 256 := Nat.mod_lt _ (by decide)
  have hadd : ∀ ty, ∀ s ∈ (m.addSuspension player number team ty).sinBin,
      s.minutesRemaining < 256 := by
    intro ty s hs
    simp only [Match.addSuspension, List.mem_append, List.mem_singleton] at hs
    rcases hs with hs | hs
    · exact hrem s hs
    · subst hs
      simp only [SinBin.make, penaltyMinutes]
      split <;> decide
  have hafter : ∀ (m2 : Match), (∀ s ∈ m2.sinBin, s.minutesRemaining < 256) →
      ∀ s ∈ (m2.deductSuspensionCalls calls).sinBin, s.minutesRemaining < 256 := by
    intro m2 h2 s hs
    rw [Match.deductSuspensionCalls_sinBin calls m2 h2] at hs
    simp only [List.mem_map] at hs
    obtain ⟨t, ht, rfl⟩ := hs
    have := h2 t ht
    simp only
    omega
  have hreport : ∀ (m2 : Match), (∀ s ∈ m2.sinBin, s.minutesRemaining < 256) →
      (m2.deductSuspensionMinutesRemaining [] 0 x).2.1 =
        (m2.sinBin.filter (fun s => decide (0 < s.minutesRemaining ∧
          s.minutesRemaining ≤ u8 x))).map (fun s => (s.player, s.number)) := by
    intro m2 h2
    have h := (deductSuspensionLoop_eq (u8 x) hx m2.sinBin [] 0 h2).2
    simp only [Match.deductSuspensionMinutesRemaining, h, List.nil_append]
  have hlist : ∀ ty,
      ((m.addSuspension player number team ty).deductSuspensionCalls calls).sinBin =
        (m.deductSuspensionCalls calls).sinBin ++
          [{ SinBin.make player number team ty (u8 (m.timePlayed.minutesPlayed + 1)) with
             minutesRemaining :=
               (SinBin.make player number team ty
                 (u8 (m.timePlayed.minutesPlayed + 1))).minutesRemaining -
                 minutesDeductedBy calls }] := by
    intro ty
    rw [Match.deductSuspensionCalls_sinBin calls _ (hadd ty),
      Match.deductSuspensionCalls_sinBin calls m hrem]
    simp only [Match.addSuspension, List.map_append, List.map_cons, List.map_nil]
  refine ⟨?_, hreport m hrem, ?_, ?_, ?_⟩
  · have h := (deductSuspensionLoop_eq (u8 x) hx m.sinBin [] 0 hrem).1
    simp only [Match.deductSuspensionMinutesRemaining, h]
    apply List.map_congr_left
    intro s _
    congr 1
    omega
  · rw [hlist .SIN_BINNED]
    congr 2
    simp only [SinBin.make, penaltyMinutes, if_true]
    congr 1
    omega
  · rw [hreport _ (hafter _ (hadd .SIN_BINNED)), hreport _ (hafter m hrem), hlist .SIN_BINNED,
      List.filter_append, List.map_append]
    congr 1
    simp only [SinBin.make, penaltyMinutes, if_true, List.filter_cons, List.filter_nil]
    by_cases hc : minutesDeductedBy calls < 10 ∧ 10 ≤ minutesDeductedBy calls + u8 x
    · have hd : 0 < 10 - minutesDeductedBy calls ∧ 10 - minutesDeductedBy calls ≤ u8 x := by
        omega
      rw [if_pos hc]
      simp only [decide_eq_true_eq, hd, and_self, if_true, List.map_cons, List.map_nil]
    · have hd : ¬ (0 < 10 - minutesDeductedBy calls ∧
          10 - minutesDeductedBy calls ≤ u8 x) := by omega
      rw [if_neg hc]
      simp only [decide_eq_true_eq, hd, if_false, List.map_nil]
  · rw [hreport _ (hafter _ (hadd .SENT_OFF)), hreport _ (hafter m hrem), hlist .SENT_OFF,
      List.filter_append, List.map_append]
    simp [SinBin.make]

/-- C9 (witness): in a list that holds a send-off, a served sin-bin and a sin-bin with 6 minutes
left, player 7 is sin-binned; after calls with 4, 3 and 2 minutes the call with 1 minute
completes his tenth minute and reports him alone (player 5 was reported by the second call),
and the countdowns then read 0, 0, 0, 0. -/
theorem sinBin_player_returns_after_ten_minutes_witness :
    (((sampleSinBinList.addSuspension 7 7 .VISITORS .SIN_BINNED).deductSuspensionCalls
        [4, 3, 2]).deductSuspensionMinutesRemaining [] 0 1).2.1 = [(7, 7)] ∧
    (((sampleSinBinList.addSuspension 7 7 .VISITORS .SIN_BINNED).deductSuspensionCalls
        [4]).deductSuspensionMinutesRemaining [] 0 3).2.1 = [(5, 5)] ∧
    ((((sampleSinBinList.addSuspension 7 7 .VISITORS .SIN_BINNED).deductSuspensionCalls
        [4, 3, 2]).deductSuspensionMinutesRemaining [] 0 1).1.sinBin.map
        (fun s => s.minutesRemaining)) = [0, 0, 0, 0] ∧
    (((sampleSinBinList.addSuspension 7 7 .VISITORS .SIN_BINNED).deductSuspensionCalls
        [4, 3, 2]).deductSuspensionMinutesRemaining [] 0 1).2.1 =
      ((sampleSinBinList.deductSuspensionCalls [4, 3, 2]).deductSuspensionMinutesRemaining
        [] 0 1).2.1 ++
        (if minutesDeductedBy [4, 3, 2] < 10 ∧ 10 ≤ minutesDeductedBy [4, 3, 2] + u8 1
         then [(7, 7)] else []) :=
  ⟨by decide, by decide, by decide,
   (sinBin_player_returns_after_ten_minutes sampleSinBinList 7 7 .VISITORS [4, 3, 2] 1
     (by decide)).2.2.2.1⟩

/-! ## C10: ranking-adjusted probability -/

/-- C10 (code evaluated): when both teams have the same ranking, probability(type, opponent)
divides by zero (the model yields no value), whatever the base probability; when the rankings
differ it returns a value in [1,99]. -/
theorem probability_defined_iff_rankings_differ (g : GamePlay) (type : MatchActivityType)
    (opponent : Bool) :
    (u8 g._match.teamHosts.ranking = u8 g._match.teamVisitors.ranking →
      g.probability type opponent = none) ∧
    (u8 g._match.teamHosts.ranking ≠ u8 g._match.teamVisitors.ranking →
      ∃ v, g.probability type opponent = some v ∧ 1 ≤ v ∧ v ≤ 99) := by
  have hH : u8 g._match.teamHosts.ranking < 256 := Nat.mod_lt _ (by decide)
  have hV : u8 g._match.teamVisitors.ranking < 256 := Nat.mod_lt _ (by decide)
  have hdiff : (i8 (i8 (u8 (g._match.team g.whoIsInPossession.2).ranking) -
      i8 (u8 (g._match.team g.whoIsInPossession.1).ranking))).natAbs = 0 ↔
      u8 g._match.teamHosts.ranking = u8 g._match.teamVisitors.ranking := by
    unfold GamePlay.whoIsInPossession
    split <;> simp only [Match.team, i8] <;> omega
  constructor
  · intro heq
    simp only [GamePlay.probability, hdiff.mpr heq, if_true]
  · intro hne
    have hnz := mt hdiff.mp hne
    simp only [GamePlay.probability, hnz, if_false]
    refine ⟨_, rfl, ?_, ?_⟩ <;> simp only [u8] <;> omega

/-- C10 (witness): equal rankings 5 and 5 give no value; rankings 3 and 8 give 55 from base
probability 50. -/
theorem probability_defined_iff_rankings_differ_witness :
    sampleEqualRanking.probability (.OTHER 0) false = none ∧
    sampleUnequalRanking.probability (.OTHER 0) false = some 55 ∧
    (∃ v, sampleUnequalRanking.probability (.OTHER 0) false = some v ∧ 1 ≤ v ∧ v ≤ 99) :=
  ⟨(probability_defined_iff_rankings_differ sampleEqualRanking (.OTHER 0) false).1 (by decide),
   by decide,
   (probability_defined_iff_rankings_differ sampleUnequalRanking (.OTHER 0) false).2
     (by decide)⟩

/-! ## C13: player conditions stay within their limits -/

/-- C13 (counterexample): a PlayerCondition constructed with base values 50 (limits 1 and
100) and then decreased in fatigue by 60 reports a fatigue of 65526, far above the maximal
value 100. -/
theorem condition_below_base_wraps :
    PlayerCondition.getValue
      (PlayerCondition.run 1 100 (PlayerCondition.make 1 100 50 50 50 50 50 0)
        [ConditionCall.decreaseCondition Conditions.FATIGUE 60])
      {} Conditions.FATIGUE false = 65526 ∧
    ¬ (PlayerCondition.getValue
      (PlayerCondition.run 1 100 (PlayerCondition.make 1 100 50 50 50 50 50 0)
        [ConditionCall.decreaseCondition Conditions.FATIGUE 60])
      {} Conditions.FATIGUE false ≤ 100) := by
  decide

/-- Calls keep the base values. -/
theorem PlayerCondition.call_bases (minValue maxValue : Nat) (pc : PlayerCondition)
    (k : ConditionCall) :
    (pc.call minValue maxValue k).fatigue = pc.fatigue ∧
    (pc.call minValue maxValue k).fitness = pc.fitness ∧
    (pc.call minValue maxValue k).health = pc.health ∧
    (pc.call minValue maxValue k).morale = pc.morale ∧
    (pc.call minValue maxValue k).form = pc.form := by
  cases k with
  | increaseCondition c v =>
    simp only [PlayerCondition.call, PlayerCondition.increaseCondition]
    split
    · exact ⟨rfl, rfl, rfl, rfl, rfl⟩
    · split <;> exact ⟨rfl, rfl, rfl, rfl, rfl⟩
  | decreaseCondition c v =>
    simp only [PlayerCondition.call, PlayerCondition.decreaseCondition]
    split <;> exact ⟨rfl, rfl, rfl, rfl, rfl⟩

/-- An increase keeps the decrements bounded. -/
theorem PlayerCondition.increaseCondition_bounded (minValue maxValue : Nat)
    (pc : PlayerCondition) (c : Conditions) (v : Nat)
    (h : pc.DecrementsBounded minValue maxValue) :
    (pc.increaseCondition c v).DecrementsBounded minValue maxValue := by
  unfold PlayerCondition.increaseCondition
  cases hd : pc.decreaseInCondition c with
  | none => simpa using h
  | some d =>
    simp only
    split
    · exact h
    · have hdb := h.2 c d hd
      constructor
      · intro c2 hc2
        by_cases e : c2 = c
        · simp [e]
        · simpa [e] using h.1 c2 hc2
      · intro c2 d2 h2
        by_cases e : c2 = c
        · simp only [e, if_true, Option.some.injEq] at h2
          subst h2
          simp only [u8]
          omega
        · simp only [e, if_false] at h2
          exact h.2 c2 d2 h2

/-- A decrease keeps the decrements bounded. -/
theorem PlayerCondition.decreaseCondition_bounded (minValue maxValue : Nat)
    (hle : minValue ≤ maxValue) (hmax : maxValue < 256)
    (pc : PlayerCondition) (c : Conditions) (v : Nat)
    (h : pc.DecrementsBounded minValue maxValue) :
    (pc.decreaseCondition minValue maxValue c v).DecrementsBounded minValue maxValue := by
  unfold PlayerCondition.decreaseCondition
  simp only
  split
  · exact h
  · have hd0 : (pc.decreaseInCondition c).getD 0 ≤ maxValue - minValue := by
      cases hd : pc.decreaseInCondition c with
      | none => simp
      | some d => simpa using h.2 c d hd
    constructor
    · intro c2 hc2
      by_cases e : c2 = c
      · simp [e]
      · simpa [e] using h.1 c2 hc2
    · intro c2 d2 h2
      by_cases e : c2 = c
      · simp only [e, if_true, Option.some.injEq] at h2
        subst h2
        generalize (pc.decreaseInCondition c).getD 0 = d at hd0 ⊢
        simp only [u8]
        omega
      · simp only [e, if_false] at h2
        exact h.2 c2 d2 h2

/-- Every sequence of calls keeps the decrements bounded and the base values. -/
theorem PlayerCondition.run_bounded (minValue maxValue : Nat)
    (hle : minValue ≤ maxValue) (hmax : maxValue < 256) (calls : List ConditionCall) :
    ∀ pc : PlayerCondition, pc.DecrementsBounded minValue maxValue →
      (pc.run minValue maxValue calls).DecrementsBounded minValue maxValue ∧
      (pc.run minValue maxValue calls).fatigue = pc.fatigue ∧
      (pc.run minValue maxValue calls).fitness = pc.fitness ∧
      (pc.run minValue maxValue calls).health = pc.health ∧
      (pc.run minValue maxValue calls).morale = pc.morale ∧
      (pc.run minValue maxValue calls).form = pc.form := by
  induction calls with
  | nil =>
    intro pc h
    exact ⟨h, rfl, rfl, rfl, rfl, rfl⟩
  | cons k ks ih =>
    intro pc h
    have hstep : (pc.call minValue maxValue k).DecrementsBounded minValue maxValue := by
      cases k with
      | increaseCondition c v =>
        exact PlayerCondition.increaseCondition_bounded minValue maxValue pc c v h
      | decreaseCondition c v =>
        exact PlayerCondition.decreaseCondition_bounded minValue maxValue hle hmax pc c v h
    have hb := PlayerCondition.call_bases minValue maxValue pc k
    have hr := ih (pc.call minValue maxValue k) hstep
    have e : pc.run minValue maxValue (k :: ks) =
        (pc.call minValue maxValue k).run minValue maxValue ks := rfl
    rw [e]
    obtain ⟨h1, h2, h3, h4, h5, h6⟩ := hr
    obtain ⟨b1, b2, b3, b4, b5⟩ := hb
    exact ⟨h1, h2.trans b1, h3.trans b2, h4.trans b3, h5.trans b4, h6.trans b5⟩

/-- A record that has just been given full condition has bounded decrements. -/
theorem PlayerCondition.fullCondition_bounded (minValue maxValue : Nat)
    (pc : PlayerCondition) :
    pc.fullCondition.DecrementsBounded minValue maxValue := by
  constructor
  · intro c hc
    have : c.toNat < Conditions.OVERALL.toNat := hc
    simp [PlayerCondition.fullCondition, this]
  · intro c d h
    simp only [PlayerCondition.fullCondition] at h
    split at h
    · simp only [Option.some.injEq] at h
      omega
    · simp at h

/-- Both constructors yield bounded decrements. -/
theorem PlayerCondition.constructors_bounded (minValue maxValue : Nat)
    (hle : minValue ≤ maxValue) (hmax : maxValue < 256)
    (fatigue fitness health morale form draw : Nat) :
    (PlayerCondition.default minValue maxValue draw).DecrementsBounded minValue maxValue ∧
    (PlayerCondition.make minValue maxValue fatigue fitness health morale form
      draw).DecrementsBounded minValue maxValue := by
  have gen : ∀ (pc : PlayerCondition) (u d : Nat), pc.DecrementsBounded minValue maxValue →
      (PlayerCondition.generateCurrentForm minValue maxValue pc u d).DecrementsBounded
        minValue maxValue := by
    intro pc u d h
    unfold PlayerCondition.generateCurrentForm
    simp only
    split
    · exact PlayerCondition.decreaseCondition_bounded minValue maxValue hle hmax pc _ _ h
    · exact h
  constructor
  · exact gen _ _ _ (PlayerCondition.fullCondition_bounded minValue maxValue _)
  · unfold PlayerCondition.make
    simp only
    split
    · exact gen _ _ _ (PlayerCondition.fullCondition_bounded minValue maxValue _)
    · exact PlayerCondition.fullCondition_bounded minValue maxValue _

/-- A value below 256 minus a zero decrement, returned as `uint16_t`, is the value. -/
theorem int_sub_zero_toNat (m : Nat) (h : m < 256) :
    (((m : Int) - ((0 : Nat) : Int)) % 65536).toNat = m := by
  omega

/-- With bounded decrements, a stored condition whose base value is `maxValue` reads within
the limits. -/
theorem PlayerCondition.getValue_within (minValue maxValue : Nat)
    (hle : minValue ≤ maxValue) (hmax : maxValue < 256) (w : ConditionWeights)
    (pc : PlayerCondition) (c : Conditions) (hc : c.toNat < 5)
    (h : pc.DecrementsBounded minValue maxValue) (hb : pc.baseValue c = maxValue) :
    minValue ≤ pc.getValue w c false ∧ pc.getValue w c false ≤ maxValue := by
  have hsome := h.1 c hc
  cases hd : pc.decreaseInCondition c with
  | none => simp [hd] at hsome
  | some d =>
    have hdb := h.2 c d hd
    cases c <;> simp only [Conditions.toNat] at hc <;>
      first
      | omega
      | (simp only [PlayerCondition.baseValue, PlayerCondition.getValueWith, if_true] at hb
         simp only [PlayerCondition.getValue, PlayerCondition.getValueWith, hd,
           Option.getD_some]
         simp only [Bool.false_eq_true, if_false]
         omega)

/-- Base values of a default-constructed record. -/
theorem PlayerCondition.default_bases (minValue maxValue draw : Nat) :
    (PlayerCondition.default minValue maxValue draw).fatigue = maxValue ∧
    (PlayerCondition.default minValue maxValue draw).fitness = maxValue ∧
    (PlayerCondition.default minValue maxValue draw).health = maxValue ∧
    (PlayerCondition.default minValue maxValue draw).morale = maxValue ∧
    (PlayerCondition.default minValue maxValue draw).form = maxValue := by
  unfold PlayerCondition.default PlayerCondition.generateCurrentForm
  simp only
  split
  · simp only [PlayerCondition.decreaseCondition]
    split <;> exact ⟨rfl, rfl, rfl, rfl, rfl⟩
  · exact ⟨rfl, rfl, rfl, rfl, rfl⟩

/-- C13 (amended): for every PlayerCondition, whatever base values it was constructed with,
and every sequence of increaseCondition and decreaseCondition calls, the accumulated
decrement of fatigue, fitness, form, health and morale stays within [0, maxValue -
minValue]; the current value returned by getValue stays within [minValue, maxValue] for a
condition whose base value is maxValue, as it is for every condition of a
default-constructed PlayerCondition. -/
theorem condition_within_limits (minValue maxValue : Nat)
    (hle : minValue ≤ maxValue) (hmax : maxValue < 256) (w : ConditionWeights)
    (fatigue fitness health morale form draw : Nat) (calls : List ConditionCall)
    (c : Conditions) (hc : c.toNat < 5) :
    (∃ d, ((PlayerCondition.make minValue maxValue fatigue fitness health morale form
        draw).run minValue maxValue calls).decreaseInCondition c = some d ∧
      d ≤ maxValue - minValue) ∧
    (((PlayerCondition.make minValue maxValue fatigue fitness health morale form
        draw).run minValue maxValue calls).baseValue c = maxValue →
      minValue ≤ ((PlayerCondition.make minValue maxValue fatigue fitness health morale form
        draw).run minValue maxValue calls).getValue w c false ∧
      ((PlayerCondition.make minValue maxValue fatigue fitness health morale form
        draw).run minValue maxValue calls).getValue w c false ≤ maxValue) ∧
    (minValue ≤ ((PlayerCondition.default minValue maxValue draw).run minValue maxValue
        calls).getValue w c false ∧
      ((PlayerCondition.default minValue maxValue draw).run minValue maxValue
        calls).getValue w c false ≤ maxValue) := by
  have hc0 := PlayerCondition.constructors_bounded minValue maxValue hle hmax
    fatigue fitness health morale form draw
  have hm := PlayerCondition.run_bounded minValue maxValue hle hmax calls _ hc0.2
  have hdf := PlayerCondition.run_bounded minValue maxValue hle hmax calls _ hc0.1
  refine ⟨?_, ?_, ?_⟩
  · have hsome := hm.1.1 c hc
    cases hd : ((PlayerCondition.make minValue maxValue fatigue fitness health morale form
        draw).run minValue maxValue calls).decreaseInCondition c with
    | none => simp [hd] at hsome
    | some d => exact ⟨d, rfl, hm.1.2 c d hd⟩
  · intro hb
    exact PlayerCondition.getValue_within minValue maxValue hle hmax w _ c hc hm.1 hb
  · have hb0 := PlayerCondition.default_bases minValue maxValue draw
    obtain ⟨hinv, f1, f2, f3, f4, f5⟩ := hdf
    refine PlayerCondition.getValue_within minValue maxValue hle hmax w _ c hc hinv ?_
    cases c <;> simp only [Conditions.toNat] at hc <;>
      first
      | omega
      | (simp only [PlayerCondition.baseValue, PlayerCondition.getValueWith, if_true, f1, f2,
           f3, f4, f5, hb0.1, hb0.2.1, hb0.2.2.1, hb0.2.2.2.1, hb0.2.2.2.2]
         exact int_sub_zero_toNat maxValue hmax)

/-- C13 (witness): with limits 1 and 100, a record constructed with base values 100 reads a
morale of 40 after a decrease by 70 and an increase by 10, and its decrement is 60. -/
theorem condition_within_limits_witness :
    (∃ d, ((PlayerCondition.make 1 100 100 100 100 100 100 0).run 1 100
        [.decreaseCondition .MORALE 70, .increaseCondition .MORALE 10]).decreaseInCondition
          .MORALE = some d ∧ d ≤ 100 - 1) ∧
    (1 ≤ ((PlayerCondition.make 1 100 100 100 100 100 100 0).run 1 100
        [.decreaseCondition .MORALE 70, .increaseCondition .MORALE 10]).getValue {} .MORALE
          false ∧
      ((PlayerCondition.make 1 100 100 100 100 100 100 0).run 1 100
        [.decreaseCondition .MORALE 70, .increaseCondition .MORALE 10]).getValue {} .MORALE
          false ≤ 100) ∧
    ((PlayerCondition.make 1 100 100 100 100 100 100 0).run 1 100
        [.decreaseCondition .MORALE 70, .increaseCondition .MORALE 10]).getValue {} .MORALE
          false = 40 :=
  ⟨(condition_within_limits 1 100 (by decide) (by decide) {} 100 100 100 100 100 0
      [.decreaseCondition .MORALE 70, .increaseCondition .MORALE 10] .MORALE (by decide)).1,
   (condition_within_limits 1 100 (by decide) (by decide) {} 100 100 100 100 100 0
      [.decreaseCondition .MORALE 70, .increaseCondition .MORALE 10] .MORALE (by decide)).2.1
      (by decide),
   by decide⟩

/-! ## C11: probability of a completed tackle -/

/-- The binary digits of a number: it is below the power of two of its bit length, and not
below the power before it. -/
theorem bitLength_spec (fuel : Nat) : ∀ n, n ≤ fuel →
    n < 2 ^ bitLength fuel n ∧ (n ≠ 0 → 2 ^ (bitLength fuel n - 1) ≤ n ∧ 1 ≤ bitLength fuel n) := by
  induction fuel with
  | zero =>
    intro n hn
    have : n = 0 := by omega
    subst this
    simp [bitLength]
  | succ fuel ih =>
    intro n hn
    by_cases h0 : n = 0
    · subst h0
      simp [bitLength]
    · have ih2 := ih (n / 2) (by omega)
      simp only [bitLength, h0, if_false]
      refine ⟨?_, fun _ => ⟨?_, by omega⟩⟩
      · have := ih2.1
        rw [Nat.pow_succ]
        omega
      · simp only [Nat.add_sub_cancel]
        by_cases h1 : n / 2 = 0
        · simp only [h1, bitLength]
          cases fuel <;> simp [bitLength] <;> omega
        · have := (ih2.2 h1)
          have e : bitLength fuel (n / 2) = (bitLength fuel (n / 2) - 1) + 1 := by omega
          rw [e, Nat.pow_succ]
          omega

/-- The `double` nearest to a fraction is finite, and it is not zero when the fraction is
not. -/
theorem roundToBinary64_pos (n d : Nat) (hn : 0 < n) (hd : 0 < d) :
    ∃ num den, roundToBinary64 n d = .finite num den ∧ 0 < num ∧ 0 < den := by
  have bn := bitLength_spec n n (Nat.le_refl _)
  have bd := bitLength_spec d d (Nat.le_refl _)
  have bn2 := bn.2 (by omega)
  have bd2 := bd.2 (by omega)
  simp only [roundToBinary64, show n ≠ 0 by omega, if_false]
  refine ⟨_, _, rfl, ?_, Nat.two_pow_pos _⟩
  generalize hup : bitLength d d + 53 - bitLength n n = up
  generalize hdown : bitLength n n - (bitLength d d + 53) = down
  -- the numerator is not below the denominator without the extra factor
  have hge : d * 2 ^ down ≤ n * 2 ^ up := by
    by_cases hc : bitLength d d + 53 ≤ bitLength n n
    · have hu : up = 0 := by omega
      subst hu
      have e : bitLength n n - 1 = bitLength d d + (down + 52) := by omega
      have h1 : d * 2 ^ down < 2 ^ bitLength d d * 2 ^ down :=
        Nat.mul_lt_mul_of_pos_right bd.1 (Nat.two_pow_pos _)
      have h2 : 2 ^ bitLength d d * 2 ^ down ≤ 2 ^ (bitLength n n - 1) := by
        rw [e, ← Nat.pow_add]
        exact Nat.pow_le_pow_right (by decide) (by omega)
      simp only [Nat.pow_zero, Nat.mul_one]
      omega
    · have hdn : down = 0 := by omega
      subst hdn
      have e : bitLength n n - 1 + up = bitLength d d + 52 := by omega
      have h1 : 2 ^ (bitLength n n - 1) * 2 ^ up ≤ n * 2 ^ up :=
        Nat.mul_le_mul_right _ bn2.1
      have h2 : 2 ^ bitLength d d ≤ 2 ^ (bitLength n n - 1) * 2 ^ up := by
        rw [← Nat.pow_add, e]
        exact Nat.pow_le_pow_right (by decide) (by omega)
      simp only [Nat.pow_zero, Nat.mul_one]
      omega
  have hdpos : 0 < d * 2 ^ down := Nat.mul_pos hd (Nat.two_pow_pos _)
  split
  · rename_i hw
    -- wide quotient: the denominator is doubled, the quotient is still at least 2^52
    have hq : 1 ≤ n * 2 ^ up / (d * 2 ^ (down + 1)) := by
      rw [Nat.le_div_iff_mul_le (Nat.mul_pos hd (Nat.two_pow_pos _))]
      have h3 : 2 ^ 53 * (d * 2 ^ down) ≤ n * 2 ^ up :=
        (Nat.le_div_iff_mul_le hdpos).mp hw
      have e : d * 2 ^ (down + 1) = 2 * (d * 2 ^ down) := by
        rw [Nat.pow_succ]; ring
      rw [e]
      have : 2 * (d * 2 ^ down) ≤ 2 ^ 53 * (d * 2 ^ down) :=
        Nat.mul_le_mul_right _ (by decide)
      omega
    have hdiv : 1 ≤ d * 2 ^ (down + 1) / d := by
      rw [Nat.mul_div_cancel_left _ hd]
      exact Nat.two_pow_pos _
    apply Nat.mul_pos _ hdiv
    split <;> omega
  · have hq : 1 ≤ n * 2 ^ up / (d * 2 ^ down) := by
      rw [Nat.le_div_iff_mul_le hdpos]
      omega
    have hdiv : 1 ≤ d * 2 ^ down / d := by
      rw [Nat.mul_div_cancel_left _ hd]
      exact Nat.two_pow_pos _
    apply Nat.mul_pos _ hdiv
    split <;> omega

/-- Rounding a quotient of at least `E` to the nearest integer changes it by at most one part
in `2 * E`. -/
theorem round_step (E N D : Nat) (hE : 0 < E) (hD : 0 < D) (hND : E * D ≤ N) :
    (if 2 * (N % D) > D ∨ (2 * (N % D) = D ∧ N / D % 2 = 1) then N / D + 1 else N / D) * D *
        (2 * E) ≤ N * (2 * E + 1) ∧
    N * (2 * E - 1) ≤
      (if 2 * (N % D) > D ∨ (2 * (N % D) = D ∧ N / D % 2 = 1) then N / D + 1 else N / D) *
        D * (2 * E) := by
  have hdm := Nat.div_add_mod N D
  have hmod := Nat.mod_lt N hD
  generalize N / D = q at hdm ⊢
  generalize N % D = r at hdm hmod ⊢
  obtain ⟨F, hF⟩ : ∃ F, 2 * E - 1 = F ∧ F + 1 = 2 * E := ⟨2 * E - 1, rfl, by omega⟩
  rw [hF.1]
  split
  · rename_i hc
    have hr : D ≤ 2 * r := by omega
    have e : (q + 1) * D = D * q + D := by ring
    rw [e]
    constructor
    · nlinarith
    · nlinarith
  · rename_i hc
    have hr : 2 * r ≤ D := by omega
    have e : q * D = D * q := by ring
    rw [e]
    constructor
    · nlinarith
    · nlinarith

/-- The scaling of `roundToBinary64` gives a quotient of at least 53 binary digits. -/
theorem roundToBinary64_scaled (n d : Nat) (hn : 0 < n) (hd : 0 < d) :
    2 ^ 52 * (d * 2 ^ (bitLength n n - (bitLength d d + 53))) ≤
      n * 2 ^ (bitLength d d + 53 - bitLength n n) := by
  have bn := bitLength_spec n n (Nat.le_refl _)
  have bd := bitLength_spec d d (Nat.le_refl _)
  have bn2 := bn.2 (by omega)
  have bd2 := bd.2 (by omega)
  generalize hup : bitLength d d + 53 - bitLength n n = up
  generalize hdown : bitLength n n - (bitLength d d + 53) = down
  by_cases hc : bitLength d d + 53 ≤ bitLength n n
  · have hu : up = 0 := by omega
    subst hu
    have e : bitLength n n - 1 = 52 + (bitLength d d + down) := by omega
    have h1 : d * 2 ^ down ≤ 2 ^ bitLength d d * 2 ^ down :=
      Nat.mul_le_mul_right _ (Nat.le_of_lt bd.1)
    have h2 : 2 ^ 52 * (2 ^ bitLength d d * 2 ^ down) = 2 ^ (bitLength n n - 1) := by
      rw [e, Nat.pow_add, Nat.pow_add]
    have h3 : 2 ^ 52 * (d * 2 ^ down) ≤ 2 ^ 52 * (2 ^ bitLength d d * 2 ^ down) :=
      Nat.mul_le_mul_left _ h1
    rw [Nat.pow_zero, Nat.mul_one]
    exact Nat.le_trans h3 (h2 ▸ bn2.1)
  · have hdn : down = 0 := by omega
    subst hdn
    have e : bitLength n n - 1 + up = 52 + bitLength d d := by omega
    have h1 : 2 ^ (bitLength n n - 1) * 2 ^ up ≤ n * 2 ^ up :=
      Nat.mul_le_mul_right _ bn2.1
    have h2 : 2 ^ (bitLength n n - 1) * 2 ^ up = 2 ^ 52 * 2 ^ bitLength d d := by
      rw [← Nat.pow_add, e, Nat.pow_add]
    have h3 : 2 ^ 52 * d ≤ 2 ^ 52 * 2 ^ bitLength d d :=
      Nat.mul_le_mul_left _ (Nat.le_of_lt bd.1)
    rw [Nat.pow_zero, Nat.mul_one]
    exact Nat.le_trans h3 (h2 ▸ h1)

/-- The `double` nearest to a fraction differs from it by at most the fraction times 2^-53
(half a unit in the last place of a significand of 53 binary digits). -/
theorem roundToBinary64_near (n d : Nat) (hn : 0 < n) (hd : 0 < d) :
    ∃ num den, roundToBinary64 n d = .finite num den ∧ 0 < den ∧
      num * d * (2 * 2 ^ 52) ≤ n * den * (2 * 2 ^ 52 + 1) ∧
      n * den * (2 * 2 ^ 52 - 1) ≤ num * d * (2 * 2 ^ 52) := by
  have hge := roundToBinary64_scaled n d hn hd
  have e53 : (2 : Nat) ^ 53 = 2 * 2 ^ 52 := by norm_num
  simp only [roundToBinary64, show n ≠ 0 by omega, if_false]
  refine ⟨_, _, rfl, Nat.two_pow_pos _, ?_⟩
  rw [e53]
  generalize bitLength d d + 53 - bitLength n n = up at hge ⊢
  generalize bitLength n n - (bitLength d d + 53) = down at hge ⊢
  have hE : 0 < 2 ^ 52 := Nat.two_pow_pos _
  generalize (2 : Nat) ^ 52 = E at hge hE ⊢
  have hdpos : 0 < d * 2 ^ down := Nat.mul_pos hd (Nat.two_pow_pos _)
  have hval : ∀ (s : Nat) (m : Nat), m * (d * 2 ^ s / d) * d = m * (d * 2 ^ s) := by
    intro s m
    rw [Nat.mul_div_cancel_left _ hd]
    ring
  split
  · rename_i hw
    have h3 : 2 * E * (d * 2 ^ down) ≤ n * 2 ^ up := (Nat.le_div_iff_mul_le hdpos).mp hw
    have e : d * 2 ^ (down + 1) = 2 * (d * 2 ^ down) := by
      rw [Nat.pow_succ]; ring
    have h4 : E * (d * 2 ^ (down + 1)) ≤ n * 2 ^ up := by
      rw [e]
      have : E * (2 * (d * 2 ^ down)) = 2 * E * (d * 2 ^ down) := by ring
      omega
    have hr := round_step E (n * 2 ^ up) (d * 2 ^ (down + 1)) hE
      (Nat.mul_pos hd (Nat.two_pow_pos _)) h4
    rw [hval]
    exact hr
  · have hr := round_step E (n * 2 ^ up) (d * 2 ^ down) hE hdpos hge
    rw [hval]
    exact hr

/-- The `double` nearest to a fraction, as a rational number: it is finite and differs from
the fraction by at most the fraction times 2^-53. -/
theorem roundToBinary64_rat (n d : Nat) (hd : 0 < d) :
    ∃ num den, roundToBinary64 n d = .finite num den ∧ 0 < den ∧
      |(num : ℚ) / den - (n : ℚ) / d| ≤ (n : ℚ) / d * (1 / 2 ^ 53) := by
  by_cases hn : n = 0
  · subst hn
    exact ⟨0, 1, by simp [roundToBinary64], by decide, by simp⟩
  · obtain ⟨num, den, h1, h2, h3, h4⟩ := roundToBinary64_near n d (by omega) hd
    refine ⟨num, den, h1, h2, ?_⟩
    have hdq : (0 : ℚ) < d := by exact_mod_cast hd
    have hdenq : (0 : ℚ) < den := by exact_mod_cast h2
    have h3q : (num : ℚ) * d * 2 ^ 53 ≤ n * den * (2 ^ 53 + 1) := by
      have := (Nat.cast_le (α := ℚ)).mpr h3
      push_cast at this
      norm_num at this ⊢
      linarith
    have h4q : (n : ℚ) * den * (2 ^ 53 - 1) ≤ num * d * 2 ^ 53 := by
      have h5 : n * den * (2 * 2 ^ 52) ≤ num * d * (2 * 2 ^ 52) + n * den := by
        have e2 : 2 * 2 ^ 52 - 1 + 1 = 2 * 2 ^ 52 := by norm_num
        have : n * den * (2 * 2 ^ 52 - 1 + 1) = n * den * (2 * 2 ^ 52 - 1) + n * den := by ring
        rw [e2] at this
        omega
      have := (Nat.cast_le (α := ℚ)).mpr h5
      push_cast at this
      norm_num at this ⊢
      linarith
    rw [abs_le]
    have key : (num : ℚ) / den - (n : ℚ) / d = (num * d - n * den) / (den * d) := by
      field_simp
      ring
    have key2 : (n : ℚ) / d * (1 / 2 ^ 53) = (n * den) / (den * d * 2 ^ 53) := by
      field_simp
      ring
    rw [key, key2]
    have hpos : (0 : ℚ) < den * d := mul_pos hdenq hdq
    constructor
    · rw [neg_le, ← neg_div, neg_sub, div_le_div_iff₀ hpos (by positivity)]
      nlinarith
    · rw [div_le_div_iff₀ hpos (by positivity)]
      nlinarith

/-- A value within the relative distance `e` of `x` lies between `x * (1 - e)` and
`x * (1 + e)`. -/
theorem near_interval (x v e : ℚ) (h : |v - x| ≤ x * e) : x * (1 - e) ≤ v ∧ v ≤ x * (1 + e) := by
  rw [abs_le] at h
  constructor <;> linarith [h.1, h.2]

/-- The quotient of two finite values of type `double`, the divisor not zero, is finite and
within the relative distance 2^-53 of the exact quotient. -/
theorem Binary64.div_near (n1 d1 n2 d2 : Nat) (hd1 : 0 < d1) (hn2 : 0 < n2) (hd2 : 0 < d2) :
    ∃ num den, Binary64.div (.finite n1 d1) (.finite n2 d2) = .finite num den ∧ 0 < den ∧
      (n1 : ℚ) / d1 / ((n2 : ℚ) / d2) * (1 - 1 / 2 ^ 53) ≤ (num : ℚ) / den ∧
      (num : ℚ) / den ≤ (n1 : ℚ) / d1 / ((n2 : ℚ) / d2) * (1 + 1 / 2 ^ 53) ∧
      (0 < n1 → 0 < num) := by
  obtain ⟨num, den, h1, h2, h3⟩ := roundToBinary64_rat (n1 * d2) (d1 * n2) (Nat.mul_pos hd1 hn2)
  refine ⟨num, den, ?_, h2, ?_, ?_, ?_⟩
  · simp only [Binary64.div, show n2 ≠ 0 by omega, if_false, h1]
  · have e : ((n1 * d2 : Nat) : ℚ) / ((d1 * n2 : Nat) : ℚ) = (n1 : ℚ) / d1 / ((n2 : ℚ) / d2) := by
      have : (d1 : ℚ) ≠ 0 := by positivity
      have : (n2 : ℚ) ≠ 0 := by positivity
      have : (d2 : ℚ) ≠ 0 := by positivity
      push_cast
      field_simp
    rw [e] at h3
    exact (near_interval _ _ _ h3).1
  · have e : ((n1 * d2 : Nat) : ℚ) / ((d1 * n2 : Nat) : ℚ) = (n1 : ℚ) / d1 / ((n2 : ℚ) / d2) := by
      have : (d1 : ℚ) ≠ 0 := by positivity
      have : (n2 : ℚ) ≠ 0 := by positivity
      have : (d2 : ℚ) ≠ 0 := by positivity
      push_cast
      field_simp
    rw [e] at h3
    exact (near_interval _ _ _ h3).2
  · intro hn1
    obtain ⟨num2, den2, k1, k2, _⟩ := roundToBinary64_pos (n1 * d2) (d1 * n2)
      (Nat.mul_pos hn1 hd2) (Nat.mul_pos hd1 hn2)
    rw [h1] at k1
    injection k1 with k3 k4
    omega

/-- The product of two finite values of type `double` is finite and within the relative
distance 2^-53 of the exact product. -/
theorem Binary64.mul_near (n1 d1 n2 d2 : Nat) (hd1 : 0 < d1) (hd2 : 0 < d2) :
    ∃ num den, Binary64.mul (.finite n1 d1) (.finite n2 d2) = .finite num den ∧ 0 < den ∧
      (n1 : ℚ) / d1 * ((n2 : ℚ) / d2) * (1 - 1 / 2 ^ 53) ≤ (num : ℚ) / den ∧
      (num : ℚ) / den ≤ (n1 : ℚ) / d1 * ((n2 : ℚ) / d2) * (1 + 1 / 2 ^ 53) := by
  obtain ⟨num, den, h1, h2, h3⟩ := roundToBinary64_rat (n1 * n2) (d1 * d2) (Nat.mul_pos hd1 hd2)
  have e : ((n1 * n2 : Nat) : ℚ) / ((d1 * d2 : Nat) : ℚ) = (n1 : ℚ) / d1 * ((n2 : ℚ) / d2) := by
    have : (d1 : ℚ) ≠ 0 := by positivity
    have : (d2 : ℚ) ≠ 0 := by positivity
    push_cast
    field_simp
  rw [e] at h3
  exact ⟨num, den, by simp only [Binary64.mul, h1], h2, (near_interval _ _ _ h3).1,
    (near_interval _ _ _ h3).2⟩

/-- The function `std::round` on a finite value: an integer within one half of it. -/
theorem Binary64.round_near (num den : Nat) (hden : 0 < den) :
    (Binary64.finite num den).round = .finite ((2 * num + den) / (2 * den)) 1 ∧
    (((2 * num + den) / (2 * den) : Nat) : ℚ) ≤ (num : ℚ) / den + 1 / 2 ∧
    (num : ℚ) / den - 1 / 2 ≤ (((2 * num + den) / (2 * den) : Nat) : ℚ) := by
  refine ⟨rfl, ?_, ?_⟩
  · have h := Nat.div_mul_le_self (2 * num + den) (2 * den)
    have hq := (Nat.cast_le (α := ℚ)).mpr h
    push_cast at hq
    have hd : (0 : ℚ) < den := by exact_mod_cast hden
    rw [← sub_le_iff_le_add, le_div_iff₀ hd]
    nlinarith
  · have h := Nat.lt_div_mul_add (a := 2 * num + den) (b := 2 * den) (by omega)
    have hq := (Nat.cast_lt (α := ℚ)).mpr h
    push_cast at hq
    have hd : (0 : ℚ) < den := by exact_mod_cast hden
    rw [sub_le_iff_le_add, div_le_iff₀ hd]
    nlinarith

/-- An integer within one half of a value that lies within the relative distance 2^-51 of `X`
is within one half plus `X / 2^51` of `X`. -/
theorem round_of_interval (X v lo hi r : ℚ) (hX : 0 ≤ X) (h1 : X * lo ≤ v) (h2 : v ≤ X * hi)
    (hlo : 1 - 1 / 2 ^ 51 ≤ lo) (hhi : hi ≤ 1 + 1 / 2 ^ 51)
    (hr1 : r ≤ v + 1 / 2) (hr2 : v - 1 / 2 ≤ r) : |r - X| ≤ 1 / 2 + X / 2 ^ 51 := by
  rw [abs_le]
  have e : X / 2 ^ 51 = X * (1 / 2 ^ 51) := by ring
  rw [e]
  constructor <;> nlinarith

/-- The rounded raw probability of `playerIsTackled`, with at least one player of either side
on the pitch: it is finite and within one half plus a relative 2^-51 of the exact product of
the probability with the quotient defenders over attackers. -/
theorem GamePlay.probabilityRaw_round (g : GamePlay) (adjusted : Nat)
    (hdef : 1 ≤ (g._match.team g.whoIsInPossession.2).numberOfPlayersOnPitch g._match.players)
    (hatt : 1 ≤ (g._match.team g.whoIsInPossession.1).numberOfPlayersOnPitch g._match.players) :
    ∃ r : Nat, (g.probabilityRaw adjusted).round = .finite r 1 ∧
      |(r : ℚ) - ((g._match.team g.whoIsInPossession.2).numberOfPlayersOnPitch
            g._match.players : ℚ) /
          ((g._match.team g.whoIsInPossession.1).numberOfPlayersOnPitch g._match.players : ℚ) *
          adjusted| ≤
        1 / 2 + ((g._match.team g.whoIsInPossession.2).numberOfPlayersOnPitch
            g._match.players : ℚ) /
          ((g._match.team g.whoIsInPossession.1).numberOfPlayersOnPitch g._match.players : ℚ) *
          adjusted / 2 ^ 51 := by
  unfold GamePlay.probabilityRaw Match.playersOnPitchRatio
  by_cases hpos : g.teamInPossession = some .HOSTS
  · -- the visitors defend: the ratio is 1 / (hosts / visitors)
    have hw : g.whoIsInPossession = (.HOSTS, .VISITORS) := by
      simp only [GamePlay.whoIsInPossession, hpos, if_true]
    rw [hw] at hdef hatt ⊢
    simp only [Match.team] at hdef hatt ⊢
    generalize g._match.teamHosts.numberOfPlayersOnPitch g._match.players = H at hdef hatt ⊢
    generalize g._match.teamVisitors.numberOfPlayersOnPitch g._match.players = V at hdef hatt ⊢
    obtain ⟨n1, d1, e1, hd1, lo1, hi1, pos1⟩ := Binary64.div_near H 1 V 1 (by decide)
      (by omega) (by decide)
    have hn1 := pos1 (by omega)
    obtain ⟨n2, d2, e2, hd2, lo2, hi2, _⟩ := Binary64.div_near 1 1 n1 d1 (by decide) hn1 hd1
    obtain ⟨n3, d3, e3, hd3, lo3, hi3⟩ := Binary64.mul_near n2 d2 adjusted 1 hd2 (by decide)
    simp only [Binary64.ofNat, reduceCtorEq, if_false, e1, e2, e3]
    obtain ⟨r1, r2, r3⟩ := Binary64.round_near n3 d3 hd3
    refine ⟨_, r1, ?_⟩
    have hH : (0 : ℚ) < H := by exact_mod_cast hatt
    have hV : (0 : ℚ) < V := by exact_mod_cast hdef
    have hv1 : (0 : ℚ) < (n1 : ℚ) / d1 := by positivity
    simp only [Nat.cast_one, div_one] at lo1 hi1 lo2 hi2 lo3 hi3
    -- 1 / v1 between the reciprocals of the bounds of v1
    have hHV : (0 : ℚ) < H / V := by positivity
    have rlo : (V : ℚ) / H / (1 + 1 / 2 ^ 53) ≤ 1 / ((n1 : ℚ) / d1) := by
      rw [div_le_div_iff₀ (by positivity) hv1]
      have : (V : ℚ) / H * (H / V) = 1 := by field_simp
      nlinarith
    have rhi : 1 / ((n1 : ℚ) / d1) ≤ (V : ℚ) / H / (1 - 1 / 2 ^ 53) := by
      rw [div_le_div_iff₀ hv1 (by norm_num)]
      have : (V : ℚ) / H * (H / V) = 1 := by field_simp
      nlinarith
    have hX : (0 : ℚ) ≤ (V : ℚ) / H * adjusted := by positivity
    have hVH : (0 : ℚ) < (V : ℚ) / H := by positivity
    have ha : (0 : ℚ) ≤ adjusted := by positivity
    have hv2 : (0 : ℚ) ≤ (n2 : ℚ) / d2 := by positivity
    refine round_of_interval _ ((n3 : ℚ) / d3)
      ((1 - 1 / 2 ^ 53) * (1 - 1 / 2 ^ 53) / (1 + 1 / 2 ^ 53))
      ((1 + 1 / 2 ^ 53) * (1 + 1 / 2 ^ 53) / (1 - 1 / 2 ^ 53)) _ hX ?_ ?_
      (by norm_num) (by norm_num) r2 r3
    · have s1 : (V : ℚ) / H / (1 + 1 / 2 ^ 53) * (1 - 1 / 2 ^ 53) ≤ (n2 : ℚ) / d2 :=
        le_trans (mul_le_mul_of_nonneg_right rlo (by norm_num)) lo2
      have s2 : (V : ℚ) / H / (1 + 1 / 2 ^ 53) * (1 - 1 / 2 ^ 53) * adjusted *
          (1 - 1 / 2 ^ 53) ≤ (n3 : ℚ) / d3 :=
        le_trans (mul_le_mul_of_nonneg_right (mul_le_mul_of_nonneg_right s1 ha) (by norm_num))
          lo3
      calc (V : ℚ) / H * adjusted * ((1 - 1 / 2 ^ 53) * (1 - 1 / 2 ^ 53) / (1 + 1 / 2 ^ 53))
          = (V : ℚ) / H / (1 + 1 / 2 ^ 53) * (1 - 1 / 2 ^ 53) * adjusted *
            (1 - 1 / 2 ^ 53) := by ring
        _ ≤ (n3 : ℚ) / d3 := s2
    · have s1 : (n2 : ℚ) / d2 ≤ (V : ℚ) / H / (1 - 1 / 2 ^ 53) * (1 + 1 / 2 ^ 53) :=
        le_trans hi2 (mul_le_mul_of_nonneg_right rhi (by norm_num))
      have s2 : (n3 : ℚ) / d3 ≤ (V : ℚ) / H / (1 - 1 / 2 ^ 53) * (1 + 1 / 2 ^ 53) * adjusted *
          (1 + 1 / 2 ^ 53) :=
        le_trans hi3 (mul_le_mul_of_nonneg_right (mul_le_mul_of_nonneg_right s1 ha)
          (by norm_num))
      calc (n3 : ℚ) / d3 ≤ (V : ℚ) / H / (1 - 1 / 2 ^ 53) * (1 + 1 / 2 ^ 53) * adjusted *
            (1 + 1 / 2 ^ 53) := s2
        _ = (V : ℚ) / H * adjusted *
            ((1 + 1 / 2 ^ 53) * (1 + 1 / 2 ^ 53) / (1 - 1 / 2 ^ 53)) := by ring
  · -- the hosts defend: the ratio is hosts / visitors
    have hw : g.whoIsInPossession = (.VISITORS, .HOSTS) := by
      simp only [GamePlay.whoIsInPossession, hpos, if_false]
    rw [hw] at hdef hatt ⊢
    simp only [Match.team] at hdef hatt ⊢
    generalize g._match.teamHosts.numberOfPlayersOnPitch g._match.players = H at hdef hatt ⊢
    generalize g._match.teamVisitors.numberOfPlayersOnPitch g._match.players = V at hdef hatt ⊢
    obtain ⟨n1, d1, e1, hd1, lo1, hi1, _⟩ := Binary64.div_near H 1 V 1 (by decide)
      (by omega) (by decide)
    obtain ⟨n3, d3, e3, hd3, lo3, hi3⟩ := Binary64.mul_near n1 d1 adjusted 1 hd1 (by decide)
    simp only [Binary64.ofNat, if_true, e1, e3]
    obtain ⟨r1, r2, r3⟩ := Binary64.round_near n3 d3 hd3
    refine ⟨_, r1, ?_⟩
    have hH : (0 : ℚ) < H := by exact_mod_cast hdef
    have hV : (0 : ℚ) < V := by exact_mod_cast hatt
    simp only [Nat.cast_one, div_one] at lo1 hi1 lo3 hi3
    have hX : (0 : ℚ) ≤ (H : ℚ) / V * adjusted := by positivity
    have ha : (0 : ℚ) ≤ adjusted := by positivity
    refine round_of_interval _ ((n3 : ℚ) / d3)
      ((1 - 1 / 2 ^ 53) * (1 - 1 / 2 ^ 53)) ((1 + 1 / 2 ^ 53) * (1 + 1 / 2 ^ 53)) _ hX ?_ ?_
      (by norm_num) (by norm_num) r2 r3
    · have s2 : (H : ℚ) / V * (1 - 1 / 2 ^ 53) * adjusted * (1 - 1 / 2 ^ 53) ≤ (n3 : ℚ) / d3 :=
        le_trans (mul_le_mul_of_nonneg_right (mul_le_mul_of_nonneg_right lo1 ha) (by norm_num))
          lo3
      calc (H : ℚ) / V * adjusted * ((1 - 1 / 2 ^ 53) * (1 - 1 / 2 ^ 53))
          = (H : ℚ) / V * (1 - 1 / 2 ^ 53) * adjusted * (1 - 1 / 2 ^ 53) := by ring
        _ ≤ (n3 : ℚ) / d3 := s2
    · have s2 : (n3 : ℚ) / d3 ≤ (H : ℚ) / V * (1 + 1 / 2 ^ 53) * adjusted * (1 + 1 / 2 ^ 53) :=
        le_trans hi3 (mul_le_mul_of_nonneg_right (mul_le_mul_of_nonneg_right hi1 ha)
          (by norm_num))
      calc (n3 : ℚ) / d3 ≤ (H : ℚ) / V * (1 + 1 / 2 ^ 53) * adjusted * (1 + 1 / 2 ^ 53) := s2
        _ = (H : ℚ) / V * adjusted * ((1 + 1 / 2 ^ 53) * (1 + 1 / 2 ^ 53)) := by ring

/-- C11 (code evaluated): with a defined adjusted probability and at least one player of
either side on the pitch, the value std::round(probabilityRaw) is an integer r within one
half (plus the rounding error of the double operations, a relative 2^-51) of the product of
the adjusted probability and the quotient defenders over attackers.  The tackle probability
is min(r, 100) as long as r fits into 8 bits; from 256 on the narrowing conversion that
precedes the clamp is undefined and the model yields no value.  Whenever a value results it
is at most 100. -/
theorem tackleProbability_cast_before_clamp (g : GamePlay) (adjusted : Nat)
    (hp : g.probability MatchActivityType.RUN_TACKLE_COMPLETED true = some adjusted)
    (hdef : 1 ≤ (g._match.team g.whoIsInPossession.2).numberOfPlayersOnPitch g._match.players)
    (hatt : 1 ≤ (g._match.team g.whoIsInPossession.1).numberOfPlayersOnPitch g._match.players) :
    ∃ r : Nat, (g.probabilityRaw adjusted).round = .finite r 1 ∧
      |(r : ℚ) - ((g._match.team g.whoIsInPossession.2).numberOfPlayersOnPitch
            g._match.players : ℚ) /
          ((g._match.team g.whoIsInPossession.1).numberOfPlayersOnPitch g._match.players : ℚ) *
          adjusted| ≤
        1 / 2 + ((g._match.team g.whoIsInPossession.2).numberOfPlayersOnPitch
            g._match.players : ℚ) /
          ((g._match.team g.whoIsInPossession.1).numberOfPlayersOnPitch g._match.players : ℚ) *
          adjusted / 2 ^ 51 ∧
      (r < 256 → g.tackleProbability = some (min r 100)) ∧
      (256 ≤ r → g.tackleProbability = none) ∧
      (∀ v, g.tackleProbability = some v → v ≤ 100) := by
  obtain ⟨r, h1, h2⟩ := GamePlay.probabilityRaw_round g adjusted hdef hatt
  have hcast : Binary64.toUInt 8 (.finite r 1) = if r < 256 then some r else none := by
    simp only [Binary64.toUInt, Nat.div_one]
    rfl
  have key : g.tackleProbability = if r < 256 then some (min r 100) else none := by
    unfold GamePlay.tackleProbability
    rw [hp]
    simp only []
    rw [h1, hcast]
    by_cases hr : r < 256
    · simp only [hr, if_true]
    · simp only [hr, if_false]
  refine ⟨r, h1, h2, ?_, ?_, ?_⟩
  · intro h
    rw [key, if_pos h]
  · intro h
    rw [key, if_neg (by omega)]
  · intro v hv
    rw [key] at hv
    split at hv
    · simp only [Option.some.injEq] at hv
      omega
    · simp at hv

/-- C11 (witness): fifteen defenders against five attackers with adjusted probability 91: the
rounded product is 273, min(273, 100) would be 100, and the code has no defined value.
Thirteen defenders against twelve attackers with adjusted probability 54: the double
quotient 13/12 is rounded down, the product 58.4999... rounds to 58 (the exact product is
58.5), and the tackle probability is 58. -/
theorem tackleProbability_cast_before_clamp_witness :
    sampleFifteenAgainstFive.probability MatchActivityType.RUN_TACKLE_COMPLETED true = some 91 ∧
    (sampleFifteenAgainstFive.probabilityRaw 91).round = .finite 273 1 ∧
    sampleFifteenAgainstFive.tackleProbability = none ∧
    (sampleThirteenAgainstTwelve.probabilityRaw 54).round = .finite 58 1 ∧
    sampleThirteenAgainstTwelve.tackleProbability = some 58 ∧
    (∃ r : Nat, (sampleFifteenAgainstFive.probabilityRaw 91).round = .finite r 1 ∧
      (256 ≤ r → sampleFifteenAgainstFive.tackleProbability = none)) :=
  ⟨by decide, by decide, by decide, by decide, by decide,
   (fun ⟨r, h1, _, _, h4, _⟩ => ⟨r, h1, h4⟩)
     (tackleProbability_cast_before_clamp sampleFifteenAgainstFive 91 (by decide) (by decide)
       (by decide))⟩

/-! ## C12: the ball position after metres made -/

/-- C12 (counterexample): the hosts, in possession 5 m from the goal line (45 m past the
halfway line), make 10 metres: the position becomes 55, past the goal line, and the distance
to the goal line is -5. -/
theorem ball_crosses_goal_line :
    (GamePlay.changeBallPositionOnPitch sampleTrailingByFive 10).distanceFromHalfwayLine = 55 ∧
    ¬ ((GamePlay.changeBallPositionOnPitch sampleTrailingByFive 10).distanceFromHalfwayLine
      ≤ 50) ∧
    (GamePlay.changeBallPositionOnPitch sampleTrailingByFive 10).distanceToGoalLine = -5 := by
  decide

/-- C12 (amended): changeBallPositionOnPitch does not clamp.  For every ball position on the
pitch and every metresMade that is at most the distance to the goal line the side in
possession attacks, the ball is still on the pitch afterwards and that distance has shrunk by
metresMade; for a larger metresMade (up to 77) the ball is past the goal line: the distance
to the goal line is negative and |distanceFromHalfwayLine| exceeds 50. -/
theorem ball_position_after_metres_made (g : GamePlay) (metresMade : Nat)
    (hm : metresMade < 256)
    (hlo : -50 ≤ g.distanceFromHalfwayLine) (hhi : g.distanceFromHalfwayLine ≤ 50) :
    (0 ≤ g.distanceToGoalLine ∧ g.distanceToGoalLine ≤ 100) ∧
    ((metresMade : Int) ≤ g.distanceToGoalLine →
      -50 ≤ (g.changeBallPositionOnPitch metresMade).distanceFromHalfwayLine ∧
      (g.changeBallPositionOnPitch metresMade).distanceFromHalfwayLine ≤ 50 ∧
      (g.changeBallPositionOnPitch metresMade).distanceToGoalLine =
        g.distanceToGoalLine - metresMade) ∧
    (g.distanceToGoalLine < (metresMade : Int) → metresMade ≤ 77 →
      (g.changeBallPositionOnPitch metresMade).distanceToGoalLine =
        g.distanceToGoalLine - metresMade ∧
      (g.changeBallPositionOnPitch metresMade).distanceToGoalLine < 0 ∧
      ¬ (-50 ≤ (g.changeBallPositionOnPitch metresMade).distanceFromHalfwayLine ∧
         (g.changeBallPositionOnPitch metresMade).distanceFromHalfwayLine ≤ 50)) := by
  have e8 : u8 metresMade = metresMade := Nat.mod_eq_of_lt hm
  by_cases hH : g.teamInPossession = some .HOSTS
  · have hw : g.whoIsInPossession = (.HOSTS, .VISITORS) := by
      simp [GamePlay.whoIsInPossession, hH]
    have hd : g.distanceToGoalLine = 50 - g.distanceFromHalfwayLine := by
      simp only [GamePlay.distanceToGoalLine, hH, if_true, groundDimensions, i8]
      omega
    have hnew : (g.changeBallPositionOnPitch metresMade) =
        { g with distanceFromHalfwayLine := i8 (g.distanceFromHalfwayLine + metresMade) } := by
      simp [GamePlay.changeBallPositionOnPitch, GamePlay.whoIsInPossession, hH, e8]
    rw [hnew]
    simp only [GamePlay.distanceToGoalLine, hH, if_true, groundDimensions, i8] at hd ⊢
    refine ⟨by omega, ?_, ?_⟩
    · intro h
      omega
    · intro h h77
      omega
  · have hw : g.whoIsInPossession = (.VISITORS, .HOSTS) := by
      simp [GamePlay.whoIsInPossession, hH]
    have hnew : (g.changeBallPositionOnPitch metresMade) =
        { g with distanceFromHalfwayLine := i8 (g.distanceFromHalfwayLine - metresMade) } := by
      simp [GamePlay.changeBallPositionOnPitch, GamePlay.whoIsInPossession, hH, e8]
    rw [hnew]
    simp only [GamePlay.distanceToGoalLine, hH, if_false, groundDimensions, i8]
    refine ⟨by omega, ?_, ?_⟩
    · intro h
      omega
    · intro h h77
      omega

/-- C12 (witness): the hosts, 5 m from the goal line, make 3 metres and stay on the pitch,
2 m from the goal line. -/
theorem ball_position_after_metres_made_witness :
    (sampleTrailingByFive.changeBallPositionOnPitch 3).distanceFromHalfwayLine ≤ 50 ∧
    (sampleTrailingByFive.changeBallPositionOnPitch 3).distanceToGoalLine = 5 - 3 :=
  ((ball_position_after_metres_made sampleTrailingByFive 3 (by decide) (by decide)
    (by decide)).2.1 (by decide)).2

/-! ## C14: the losing bonus point -/

/-- The points total of a score sheet is at most 255 * 13 = 3315. -/
theorem MatchScore.pointsTotal_le (s : MatchScore) : s.pointsTotal ≤ 3315 := by
  simp only [MatchScore.pointsTotal, MatchScore.points, u8, u16, pointValue]
  have h : s.tries % 256 * 5 + s.conversions % 256 * 2 + s.penalties % 256 * 3 +
      s.dropGoals % 256 * 3 < 65536 := by omega
  rw [Nat.mod_eq_of_lt h]
  omega

/-- C14: diffBonusPoint(loc) is true exactly when the side at loc has lost by at least 1 and at
most 7 points: for the hosts when the visitors lead by 1..7, for the visitors when the hosts
lead by 1..7 (so it is false for the winner, for a draw and for a loss by more than 7). -/
theorem diffBonusPoint_iff_narrow_loss (m : Match) :
    (m.diffBonusPoint .HOSTS = true ↔
      (m.score .HOSTS).pointsTotal + 1 ≤ (m.score .VISITORS).pointsTotal ∧
      (m.score .VISITORS).pointsTotal ≤ (m.score .HOSTS).pointsTotal + 7) ∧
    (m.diffBonusPoint .VISITORS = true ↔
      (m.score .VISITORS).pointsTotal + 1 ≤ (m.score .HOSTS).pointsTotal ∧
      (m.score .HOSTS).pointsTotal ≤ (m.score .VISITORS).pointsTotal + 7) := by
  have hH := MatchScore.pointsTotal_le m.scoreHosts
  have hV := MatchScore.pointsTotal_le m.scoreVisitors
  simp only [Match.score, Match.diffBonusPoint, matchPoints]
  generalize m.scoreHosts.pointsTotal = H at hH ⊢
  generalize m.scoreVisitors.pointsTotal = V at hV ⊢
  have e : i16 ((H : Int) - (V : Int)) = (H : Int) - (V : Int) := by
    simp only [i16]
    omega
  rw [e]
  constructor
  · simp only [if_true]
    split
    · constructor
      · intro h
        simp at h
      · intro h
        omega
    · simp only [decide_eq_true_eq]
      omega
  · split
    · constructor
      · intro h
        simp at h
      · intro h
        omega
    · simp only [reduceCtorEq, if_false, decide_eq_true_eq]
      omega

/-! ## C18: the squad check is a check sum -/

/-- C18 (counterexample): fifteen available base players wearing the shirts 2, 2, 2, 4, 5, ...,
15 are accepted as a complete squad, although nobody wears 1 or 3 and three players wear 2. -/
theorem areAllPlayersSelected_accepts_duplicates :
    sampleSquadWithoutOneAndThree.areAllPlayersSelected samplePlayersWithoutOneAndThree = true ∧
    sampleSquadWithoutOneAndThree.selectedShirtNumbers samplePlayersWithoutOneAndThree =
      [2, 2, 2, 4, 5, 6, 7, 8, 9, 10, 11, 12, 13, 14, 15] := by
  decide

/-- A sum accumulated in 16 bits is the sum modulo 65536. -/
theorem foldl_u16_sum (l : List Nat) (a : Nat) :
    l.foldl (fun x n => u16 (x + n)) (a % 65536) = (a + l.sum) % 65536 := by
  induction l generalizing a with
  | nil => simp
  | cons n l ih =>
    show List.foldl (fun x n => u16 (x + n)) ((a % 65536 + n) % 65536) l = _
    rw [ih, List.sum_cons]
    omega

/-- The check of `areAllPlayersSelected` compares the 16-bit sum of the shirt numbers with 120. -/
theorem Team.areAllPlayersSelected_eq (t : Team) (players : Nat → Player) :
    t.areAllPlayersSelected players =
      decide ((t.selectedShirtNumbers players).sum % 65536 = 120) := by
  have h1 := foldl_u16_sum (t.selectedShirtNumbers players) 0
  have h2 : (List.range' 1 numberOfPlayers.PlayersOnPitch).foldl (fun x i => u16 (x + i)) 0 =
      120 := by decide
  simp only [Nat.zero_mod, Nat.zero_add] at h1
  simp only [Team.areAllPlayersSelected, h1, h2]

/-- C18 (amended): areAllPlayersSelected() returns true if and only if the shirt numbers of the
available base players of the squad add up (in 16 bits) to 120 = 1 + 2 + ... + 15.  Every
squad in which each number 1..15 is worn by exactly one available base player is accepted; a
squad in which exactly one of the numbers is missing, or exactly one is worn twice, while the
others are worn once, is reported as incomplete. -/
theorem areAllPlayersSelected_iff_checksum (t : Team) (players : Nat → Player) :
    (t.areAllPlayersSelected players = true ↔
      (t.selectedShirtNumbers players).sum % 65536 = 120) ∧
    ((t.selectedShirtNumbers players).Perm (List.range' 1 15) →
      t.areAllPlayersSelected players = true) ∧
    (∀ k, 1 ≤ k → k ≤ 15 →
      (t.selectedShirtNumbers players).Perm ((List.range' 1 15).erase k) →
      t.areAllPlayersSelected players = false) ∧
    (∀ k, 1 ≤ k → k ≤ 15 →
      (t.selectedShirtNumbers players).Perm (k :: List.range' 1 15) →
      t.areAllPlayersSelected players = false) := by
  rw [Team.areAllPlayersSelected_eq]
  have hsum : (List.range' 1 15).sum = 120 := by decide
  refine ⟨by simp, ?_, ?_, ?_⟩
  · intro h
    rw [h.sum_eq, hsum]
    decide
  · intro k h1 h15 h
    have hmem : k ∈ List.range' 1 15 := by
      simp only [List.mem_range'_1]
      omega
    have he := List.sum_erase hmem
    rw [hsum] at he
    rw [h.sum_eq]
    simp only [decide_eq_false_iff_not]
    omega
  · intro k h1 h15 h
    rw [h.sum_eq, List.sum_cons, hsum]
    simp only [decide_eq_false_iff_not]
    omega

/-- C18 (witness): the squad in which player c wears shirt c for c = 1..15 is accepted. -/
theorem areAllPlayersSelected_iff_checksum_witness :
    sampleSquadWithoutOneAndThree.selectedShirtNumbers samplePlayersComplete =
      List.range' 1 15 ∧
    sampleSquadWithoutOneAndThree.areAllPlayersSelected samplePlayersComplete = true :=
  ⟨by decide,
   (areAllPlayersSelected_iff_checksum sampleSquadWithoutOneAndThree samplePlayersComplete).2.1
     (by
       have h : sampleSquadWithoutOneAndThree.selectedShirtNumbers samplePlayersComplete =
           List.range' 1 15 := by decide
       rw [h])⟩

/-! ## C20: the option chosen after a penalty infringement -/

/-- No point difference d satisfies d > -3 together with d <= -7 (or d < -7): with the bounds
passed by `selectActionAfterPenaltyInfringement` the range check fails for every score. -/
theorem Match.pointDifferenceInRange_swapped (m : Match) (loc : Location) (maxClosed : Bool) :
    m.pointDifferenceInRange loc (-(pointValue.Penalty : Int))
      (-((pointValue.Try : Int) + (pointValue.Conversion : Int))) false maxClosed = false := by
  simp only [Match.pointDifferenceInRange, pointValue]
  generalize i8 ((i16 (m.scoreHosts.pointsTotal : Int) - i16 (m.scoreVisitors.pointsTotal : Int)) *
    (if loc = .VISITORS then -1 else 1)) = d
  have h3 : i8 (-((3 : Nat) : Int)) = -3 := by decide
  have h7 : i8 (-(((5 : Nat) : Int) + ((2 : Nat) : Int))) = -7 := by decide
  simp only [h3, h7]
  cases maxClosed <;> simp <;> omega

/-- C20 (code evaluated): with the scrum among the options and the ball at most 10 m from the
goal line, the point-difference test of selectActionAfterPenaltyInfringement is false for
every score; the scrum is chosen when the side in possession has scored exactly 6 tries, and
otherwise (a kick at goal being offered from at most 12 m off the middle) the kick at goal is
chosen, whatever the point difference and also with exactly 3 tries. -/
theorem penalty_scrum_rule (g : GamePlay) (optionsForPenalty : List PenaltyAction)
    (distanceFromMiddle draw : Nat)
    (hs : optionsForPenalty.contains .SCRUM = true)
    (hd : g.distanceToGoalLine ≤ 10) :
    g.pointsInSpecifiedRange = false ∧
    ((g._match.score g.whoIsInPossession.1).points .TRY = 6 →
      g.selectActionAfterPenaltyInfringement optionsForPenalty distanceFromMiddle draw =
        some .SCRUM) ∧
    ((g._match.score g.whoIsInPossession.1).points .TRY ≠ 6 →
      optionsForPenalty.contains .KICK_AT_GOAL = true → u8 distanceFromMiddle ≤ 12 →
      g.selectActionAfterPenaltyInfringement optionsForPenalty distanceFromMiddle draw =
        some .KICK_AT_GOAL) := by
  have hr : g.pointsInSpecifiedRange = false :=
    Match.pointDifferenceInRange_swapped g._match g.whoIsInPossession.1 true
  refine ⟨hr, ?_, ?_⟩
  · intro ht
    simp only [GamePlay.selectActionAfterPenaltyInfringement, hr, hs, ht, matchPoints,
      groundDimensions]
    simp [hd]
  · intro ht hk hm
    have hd22 : g.distanceToGoalLine ≤ 22 := by omega
    have ht2 : ¬ (((g._match.score g.whoIsInPossession.1).points .TRY : Nat) : Int) = 6 := by
      omega
    simp only [GamePlay.selectActionAfterPenaltyInfringement, hr, hs, hk, matchPoints,
      groundDimensions]
    simp [hd, hd22, ht2, hm]

/-- C20 (witness): the hosts trail 0 : 5 (more than 3, at most 7 points) with the ball 5 m from
the goal line and all four options offered: the kick at goal is chosen, not the scrum; the
same happens at 15 : 15 with exactly three tries scored. -/
theorem penalty_scrum_rule_witness :
    (sampleThreeTries._match.score .HOSTS).points .TRY = 3 ∧
    sampleThreeTries.selectActionAfterPenaltyInfringement
      [.KICK_AT_GOAL, .KICK_TO_TOUCH, .SCRUM, .TAP_PENALTY] 0 0 = some .KICK_AT_GOAL ∧
    sampleTrailingByFive.distanceToGoalLine = 5 ∧
    (sampleTrailingByFive._match.score .HOSTS).pointsTotal = 0 ∧
    (sampleTrailingByFive._match.score .VISITORS).pointsTotal = 5 ∧
    sampleTrailingByFive.selectActionAfterPenaltyInfringement
      [.KICK_AT_GOAL, .KICK_TO_TOUCH, .SCRUM, .TAP_PENALTY] 0 0 = some .KICK_AT_GOAL :=
  ⟨by decide, by decide, by decide, by decide, by decide,
   (penalty_scrum_rule sampleTrailingByFive [.KICK_AT_GOAL, .KICK_TO_TOUCH, .SCRUM, .TAP_PENALTY]
     0 0 (by decide) (by decide)).2.2 (by decide) (by decide) (by decide)⟩

/-! ## C15: eligibility of a replacement -/

/-- C15: isEligibleForSubstitution(playerGoingOut, candidate, loc, injuryReplacement) is true
if and only if the candidate has the position base type of the outgoing player, is on the
bench, is healthy, and either has no statistics record in this match, or a record that
counts no match played, or injuryReplacement is true. -/
theorem isEligibleForSubstitution_iff (g : GamePlay) (playerGoingOut candidate : Nat)
    (loc : Location) (injuryReplacement : Bool) :
    g.isEligibleForSubstitution playerGoingOut candidate loc injuryReplacement = true ↔
      (findPositionBaseTypeByType g.playerPosition_index
          (g._match.players candidate).positionType =
        findPositionBaseTypeByType g.playerPosition_index
          (g._match.players playerGoingOut).positionType ∧
       (g._match.players candidate).onBench = true ∧
       (g._match.players candidate).healthy = true ∧
       (g._match.playerStats loc candidate = none ∨
        (∃ st, g._match.playerStats loc candidate = some st ∧ st.noMatchesPlayed = true) ∨
        injuryReplacement = true)) := by
  unfold GamePlay.isEligibleForSubstitution
  cases h : g._match.playerStats loc candidate with
  | none =>
    simp only [Bool.and_eq_true, decide_eq_true_eq, true_or, and_true]
    tauto
  | some st =>
    simp only [Bool.and_eq_true, Bool.or_eq_true, decide_eq_true_eq, Option.some.injEq,
      exists_eq_left', reduceCtorEq, false_or]
    tauto

/-! ## C16, C17: substitutions in the background -/

/-- The running maximum of `std::max_element` is an element seen so far and dominates all of
them. -/
theorem foldl_max_spec (key : Nat → Nat) (xs : List Nat) (a : Nat) :
    ((xs.foldl (fun largest y => if key largest < key y then y else largest) a = a) ∨
      (xs.foldl (fun largest y => if key largest < key y then y else largest) a ∈ xs)) ∧
    key a ≤ key (xs.foldl (fun largest y => if key largest < key y then y else largest) a) ∧
    ∀ y ∈ xs,
      key y ≤ key (xs.foldl (fun largest y => if key largest < key y then y else largest) a) := by
  induction xs generalizing a with
  | nil => simp
  | cons x xs ih =>
    simp only [List.foldl_cons, List.mem_cons]
    have h := ih (if key a < key x then x else a)
    obtain ⟨h1, h2, h3⟩ := h
    refine ⟨?_, ?_, ?_⟩
    · by_cases hlt : key a < key x
      · simp only [hlt, if_true] at h1 ⊢
        rcases h1 with h1 | h1
        · right; left; exact h1
        · right; right; exact h1
      · simp only [hlt, if_false] at h1 ⊢
        rcases h1 with h1 | h1
        · left; exact h1
        · right; right; exact h1
    · by_cases hlt : key a < key x
      · simp only [hlt, if_true] at h2 ⊢
        omega
      · simp only [hlt, if_false] at h2 ⊢
        exact h2
    · intro y hy
      rcases hy with hy | hy
      · subst hy
        by_cases hlt : key a < key y
        · simp only [hlt, if_true] at h2 ⊢
          exact h2
        · simp only [hlt, if_false] at h2 ⊢
          omega
      · exact h3 y hy

/-- The element `std::max_element` returns belongs to the list and no element has a larger
key. -/
theorem maxElementBy_some (key : Nat → Nat) (l : List Nat) (x : Nat)
    (h : maxElementBy key l = some x) : x ∈ l ∧ ∀ y ∈ l, key y ≤ key x := by
  cases l with
  | nil => simp [maxElementBy] at h
  | cons a xs =>
    simp only [maxElementBy, Option.some.injEq] at h
    have hs := foldl_max_spec key xs a
    rw [h] at hs
    obtain ⟨h1, h2, h3⟩ := hs
    refine ⟨?_, ?_⟩
    · rcases h1 with h1 | h1
      · rw [h1]
        exact List.mem_cons_self _ _
      · exact List.mem_cons_of_mem _ h1
    · intro y hy
      rcases List.mem_cons.mp hy with hy | hy
      · rw [hy]
        exact h2
      · exact h3 y hy

/-- The algorithm `std::max_element` returns the end iterator only for the empty list. -/
theorem maxElementBy_none (key : Nat → Nat) (l : List Nat) :
    maxElementBy key l = none ↔ l = [] := by
  cases l <;> simp [maxElementBy]

/-- A call of `switchPlayers` returns, and the outgoing player is off the pitch afterwards. -/
theorem GamePlay.switchPlayers_withdraws (g : GamePlay) (playerOut playerIn : Nat)
    (loc : Location) (formDraw : Bool) :
    ∃ g1, g.switchPlayers playerOut playerIn loc formDraw = some g1 ∧
      (g1._match.players playerOut).onPitch = false := by
  cases loc <;>
    simp [GamePlay.switchPlayers, GamePlay.updateStatistics, Match.addNewStatsRecordForPlayer,
      Match.setPlayerStats, Match.setPlayer, Match.playerStats, Player.withdrawPlayer]

/-- A replacement inside the background loop returns; the outgoing player is off the pitch
afterwards and one more replacement is counted. -/
theorem GamePlay.replace_some (loc : Location) (formDraws : Nat → Bool) (s : SubstitutionRun)
    (oldPlayer newPlayer : Nat) :
    ∃ s1, GamePlay.replace loc formDraws s oldPlayer newPlayer = some s1 ∧
      (s1.g._match.players oldPlayer).onPitch = false ∧
      s1.noOfReplacedPlayers = u8 (s.noOfReplacedPlayers + 1) := by
  obtain ⟨g1, h1, h2⟩ := GamePlay.switchPlayers_withdraws
    { s.g with _match := (s.g._match.addSubstitution oldPlayer newPlayer loc).2 }
    oldPlayer newPlayer loc (formDraws s.noOfReplacedPlayers)
  simp only [GamePlay.replace, h1]
  exact ⟨_, rfl, h2, rfl⟩

/-- The three outcomes of the loop body for a regular substitution. -/
theorem GamePlay.substitutionStep_regular (loc : Location) (formDraws : Nat → Bool)
    (s : SubstitutionRun) (squadPlayer : Nat) :
    GamePlay.substitutionStep loc none formDraws s squadPlayer = none ∨
    GamePlay.substitutionStep loc none formDraws s squadPlayer = some s ∨
    ∃ newPlayer,
      (s.g._match.players squadPlayer).onPitch = true ∧
      newPlayer ∈ (s.g._match.team loc).squad ∧
      s.g.isEligibleForSubstitution squadPlayer newPlayer loc false = true ∧
      (∀ c ∈ (s.g._match.team loc).squad,
        s.g.isEligibleForSubstitution squadPlayer c loc false = true →
        s.g.playerCondition c .OVERALL ≤ s.g.playerCondition newPlayer .OVERALL) ∧
      20 * s.g.playerCondition newPlayer .OVERALL >
        21 * s.g.playerCondition squadPlayer .OVERALL ∧
      GamePlay.substitutionStep loc none formDraws s squadPlayer =
        GamePlay.replace loc formDraws s squadPlayer newPlayer := by
  unfold GamePlay.substitutionStep
  simp only [Option.isSome_none, Bool.false_or, reduceCtorEq, if_false]
  by_cases hp : (s.g._match.players squadPlayer).onPitch = false
  · simp [hp]
  · simp only [hp, if_false]
    by_cases hh : (s.g._match.players squadPlayer).healthy = false
    · simp [hh]
    · simp only [hh, if_false]
      cases hst : s.g._match.playerStats loc squadPlayer with
      | none => simp
      | some st =>
        simp only []
        by_cases hmin : st.getStatsValue .MINS_PLAYED ≥ max 1 (u8 s.g.consts.MIN_PLAY_INTERVAL)
        · simp only [hmin, decide_True]
          cases hmax : maxElementBy (fun player => s.g.playerCondition player .OVERALL)
              (s.g.playersForSubstitution squadPlayer loc false) with
          | none => simp
          | some newPlayer =>
            simp only []
            by_cases hm : clearsMargin (s.g.playerCondition newPlayer .OVERALL)
                (s.g.playerCondition squadPlayer .OVERALL) = true
            · right; right
              obtain ⟨hmem, hbest⟩ := maxElementBy_some _ _ _ hmax
              simp only [GamePlay.playersForSubstitution, List.mem_filter] at hmem hbest
              refine ⟨newPlayer, ?_, hmem.1, hmem.2, ?_, ?_, ?_⟩
              · trivial
              · intro c hc he
                exact hbest c ⟨hc, he⟩
              · simpa [clearsMargin] using hm
              · simp [hm]
            · simp [hm]
        · simp [hmin]

/-- The loop body leaves the run unchanged when no eligible candidate clears the margin (the
statistics record of a healthy player on the pitch being present). -/
theorem GamePlay.substitutionStep_stays (loc : Location) (formDraws : Nat → Bool)
    (s : SubstitutionRun) (squadPlayer : Nat)
    (hrec : (s.g._match.players squadPlayer).onPitch = true →
      (s.g._match.players squadPlayer).healthy = true →
      s.g._match.playerStats loc squadPlayer ≠ none)
    (hno : ∀ c ∈ (s.g._match.team loc).squad,
      s.g.isEligibleForSubstitution squadPlayer c loc false = true →
      20 * s.g.playerCondition c .OVERALL ≤ 21 * s.g.playerCondition squadPlayer .OVERALL) :
    GamePlay.substitutionStep loc none formDraws s squadPlayer = some s := by
  unfold GamePlay.substitutionStep
  simp only [Option.isSome_none, Bool.false_or, reduceCtorEq, if_false]
  by_cases hp : (s.g._match.players squadPlayer).onPitch = false
  · simp [hp]
  · simp only [hp, if_false]
    by_cases hh : (s.g._match.players squadPlayer).healthy = false
    · simp [hh]
    · simp only [hh, if_false]
      cases hst : s.g._match.playerStats loc squadPlayer with
      | none =>
        exact absurd hst (hrec (by simpa using hp) (by simpa using hh))
      | some st =>
        simp only []
        by_cases hmin : st.getStatsValue .MINS_PLAYED ≥ max 1 (u8 s.g.consts.MIN_PLAY_INTERVAL)
        · simp only [hmin, decide_True]
          cases hmax : maxElementBy (fun player => s.g.playerCondition player .OVERALL)
              (s.g.playersForSubstitution squadPlayer loc false) with
          | none => simp
          | some newPlayer =>
            simp only []
            obtain ⟨hmem, _⟩ := maxElementBy_some _ _ _ hmax
            simp only [GamePlay.playersForSubstitution, List.mem_filter] at hmem
            have h := hno newPlayer hmem.1 hmem.2
            have hm : clearsMargin (s.g.playerCondition newPlayer .OVERALL)
                (s.g.playerCondition squadPlayer .OVERALL) = false := by
              simp only [clearsMargin, decide_eq_false_iff_not]
              omega
            simp [hm]
        · simp [hmin]

/-- The background loop leaves the run unchanged when, for every player of the list, no
eligible candidate clears the margin. -/
theorem GamePlay.substitutionLoop_stays (loc : Location) (formDraws : Nat → Bool)
    (s : SubstitutionRun) (hzero : s.noOfReplacedPlayers = 0) (l : List Nat)
    (hrec : ∀ p ∈ l, (s.g._match.players p).onPitch = true →
      (s.g._match.players p).healthy = true → s.g._match.playerStats loc p ≠ none)
    (hno : ∀ p ∈ l, ∀ c ∈ (s.g._match.team loc).squad,
      s.g.isEligibleForSubstitution p c loc false = true →
      20 * s.g.playerCondition c .OVERALL ≤ 21 * s.g.playerCondition p .OVERALL) :
    GamePlay.substitutionLoop loc none formDraws s l = some s := by
  induction l with
  | nil => rfl
  | cons p rest ih =>
    have hstep := GamePlay.substitutionStep_stays loc formDraws s p
      (hrec p (List.mem_cons_self _ _)) (hno p (List.mem_cons_self _ _))
    simp only [GamePlay.substitutionLoop, hstep, Option.isSome_none, Bool.false_or, hzero]
    have h3 : ((0 : Nat) == 3) = false := by decide
    simp only [h3, Bool.false_eq_true, if_false]
    exact ih (fun q hq => hrec q (List.mem_cons_of_mem _ hq))
      (fun q hq => hno q (List.mem_cons_of_mem _ hq))

/-- The loop body for an injured player returns, and the injured player is off the pitch
afterwards: unchanged run when the player was off the pitch already, withdrawal when no
candidate is eligible, replacement by the best eligible candidate otherwise. -/
theorem GamePlay.substitutionStep_injured (loc : Location) (formDraws : Nat → Bool)
    (s : SubstitutionRun) (squadPlayer injured : Nat) :
    ∃ s1, GamePlay.substitutionStep loc (some injured) formDraws s squadPlayer = some s1 ∧
      (s1.g._match.players injured).onPitch = false ∧
      ((s.g._match.players injured).onPitch = true →
        s.g.playersForSubstitution injured loc true = [] →
        s1.timePassed = s.timePassed ∧
        s1.g = { s.g with _match :=
          s.g._match.setPlayer injured (s.g._match.players injured).withdrawPlayer }) ∧
      ((s.g._match.players injured).onPitch = true →
        ∀ newPlayer, maxElementBy (fun player => s.g.playerCondition player .OVERALL)
            (s.g.playersForSubstitution injured loc true) = some newPlayer →
          GamePlay.replace loc formDraws s injured newPlayer = some s1) := by
  unfold GamePlay.substitutionStep
  simp only [Option.isSome_some, Bool.true_or, if_true]
  by_cases hp : (s.g._match.players injured).onPitch = false
  · simp [hp]
  · have hp1 : (s.g._match.players injured).onPitch = true := by simpa using hp
    simp only [hp, if_false]
    cases hmax : maxElementBy (fun player => s.g.playerCondition player .OVERALL)
        (s.g.playersForSubstitution injured loc true) with
    | none =>
      have hnil := (maxElementBy_none _ _).mp hmax
      simp [Match.setPlayer, Player.withdrawPlayer, hnil, maxElementBy]
    | some newPlayer =>
      obtain ⟨s1, h1, h2, _⟩ := GamePlay.replace_some loc formDraws s injured newPlayer
      simp only [h1]
      refine ⟨s1, rfl, h2, ?_, ?_⟩
      · intro _ hnil
        rw [hnil] at hmax
        simp [maxElementBy] at hmax
      · intro _ n hn
        simp only [Option.some.injEq] at hn
        subst hn
        exact h1

/-- C16: in the background (automatic) block of substitution, the loop body for a regular
substitution either fails on a missing statistics record, or leaves the run unchanged, or
replaces the player on the pitch by an eligible candidate of the squad whose overall
condition is maximal among the eligible candidates and strictly greater than 1.05 times the
outgoing player's (20 * new > 21 * old).  If for no player of the squad an eligible
candidate clears that margin, substitution returns time 0 and the unchanged state: every
player stays on. -/
theorem regular_substitution_best_candidate (g : GamePlay) (team : Location)
    (formDraws : Nat → Bool) (dialogs : GamePlay → Nat × GamePlay) :
    (∀ (s : SubstitutionRun) (squadPlayer : Nat),
      GamePlay.substitutionStep team none formDraws s squadPlayer = none ∨
      GamePlay.substitutionStep team none formDraws s squadPlayer = some s ∨
      ∃ newPlayer,
        (s.g._match.players squadPlayer).onPitch = true ∧
        newPlayer ∈ (s.g._match.team team).squad ∧
        s.g.isEligibleForSubstitution squadPlayer newPlayer team false = true ∧
        (∀ c ∈ (s.g._match.team team).squad,
          s.g.isEligibleForSubstitution squadPlayer c team false = true →
          s.g.playerCondition c .OVERALL ≤ s.g.playerCondition newPlayer .OVERALL) ∧
        20 * s.g.playerCondition newPlayer .OVERALL >
          21 * s.g.playerCondition squadPlayer .OVERALL ∧
        GamePlay.substitutionStep team none formDraws s squadPlayer =
          GamePlay.replace team formDraws s squadPlayer newPlayer) ∧
    (g.substitutionByDialog team = false → g.substitutionInBackground team = true →
      (∀ p ∈ (g._match.team team).squad, (g._match.players p).onPitch = true →
        (g._match.players p).healthy = true → g._match.playerStats team p ≠ none) →
      (∀ p ∈ (g._match.team team).squad, ∀ c ∈ (g._match.team team).squad,
        g.isEligibleForSubstitution p c team false = true →
        20 * g.playerCondition c .OVERALL ≤ 21 * g.playerCondition p .OVERALL) →
      g.substitution team none formDraws dialogs = some (0, g)) := by
  refine ⟨fun s squadPlayer => GamePlay.substitutionStep_regular team formDraws s squadPlayer,
    ?_⟩
  intro hd hb hrec hno
  have hloop := GamePlay.substitutionLoop_stays team formDraws { g := g } rfl
    (g._match.team team).squad hrec hno
  simp only [GamePlay.substitution, hd, hb, Bool.false_eq_true, if_false, if_true, hloop]

/-- C16 (witness): with one candidate of overall condition 310 against 300 nobody is replaced;
with a candidate of overall condition 400 in the squad, player 1 leaves the pitch and
player 2 enters. -/
theorem regular_substitution_best_candidate_witness :
    sampleBenchMarginal.playersForSubstitution 1 .HOSTS false = [3] ∧
    sampleBenchMarginal.playerCondition 3 .OVERALL = 310 ∧
    sampleBenchMarginal.playerCondition 1 .OVERALL = 300 ∧
    sampleBenchMarginal.substitution .HOSTS none (fun _ => false) sampleNoDialogs =
      some (0, sampleBenchMarginal) ∧
    (sampleBench.substitution .HOSTS none (fun _ => false) sampleNoDialogs).map
      (fun r => (r.1, (r.2._match.players 1).onPitch, (r.2._match.players 2).onPitch,
        (r.2._match.players 3).onPitch, r.2._match.replacements)) =
      some (30, false, true, false,
        [{ playerOut := 1, playerIn := 2, team := .HOSTS, minute := 41 }]) :=
  ⟨by decide, by decide, by decide,
   (regular_substitution_best_candidate sampleBenchMarginal .HOSTS (fun _ => false)
     sampleNoDialogs).2 (by decide) (by decide) (by decide) (by decide),
   by decide⟩

/-- C17 (code evaluated): substitution(team, injuredPlayer) with an injured player.  When the
engine is bound to no widget the call returns time 0 and changes nothing, so an injured
player on the pitch stays there.  When the background block runs (and no dialog is shown)
for a non-empty squad, the call returns and the injured player is off the pitch afterwards:
withdrawn when no candidate is eligible, replaced by the eligible candidate of maximal
overall condition otherwise. -/
theorem injured_player_substitution (g : GamePlay) (team : Location) (injured : Nat)
    (formDraws : Nat → Bool) (dialogs : GamePlay → Nat × GamePlay) :
    (g.displayMW = false → g.displayFW = false →
      g.substitution team (some injured) formDraws dialogs = some (0, g)) ∧
    (g.substitutionByDialog team = false → g.substitutionInBackground team = true →
      (g._match.team team).squad ≠ [] →
      ∃ t g1, g.substitution team (some injured) formDraws dialogs = some (t, g1) ∧
        (g1._match.players injured).onPitch = false ∧
        ((g._match.players injured).onPitch = true →
          g.playersForSubstitution injured team true = [] →
          t = 0 ∧
          g1 = { g with
                 _match := g._match.setPlayer injured (g._match.players injured).withdrawPlayer }) ∧
        ((g._match.players injured).onPitch = true →
          ∀ newPlayer, maxElementBy (fun player => g.playerCondition player .OVERALL)
              (g.playersForSubstitution injured team true) = some newPlayer →
            (GamePlay.replace team formDraws { g := g } injured newPlayer).map
              (fun s => (s.timePassed, s.g)) = some (t, g1))) := by
  constructor
  · intro hmw hfw
    simp [GamePlay.substitution, GamePlay.substitutionByDialog,
      GamePlay.substitutionInBackground, hmw, hfw]
  · intro hd hb hsquad
    cases hsq : (g._match.team team).squad with
    | nil => exact absurd hsq hsquad
    | cons squadPlayer rest =>
      obtain ⟨s1, h1, h2, h3, h4⟩ :=
        GamePlay.substitutionStep_injured team formDraws { g := g } squadPlayer injured
      refine ⟨s1.timePassed, s1.g, ?_, h2, ?_, ?_⟩
      · simp only [GamePlay.substitution, hd, hb, Bool.false_eq_true, if_false, if_true, hsq,
          GamePlay.substitutionLoop, h1, Option.isSome_some, Bool.true_or]
      · intro hp hnil
        exact h3 hp hnil
      · intro hp newPlayer hnew
        rw [h4 hp newPlayer hnew]
        rfl

/-- C17 (witness): in non-interactive mode the injured player 1, for whom the players 2 and 3
are eligible replacements, is still on the pitch after substitution; called from the fixtures
widget the same substitution takes the player off. -/
theorem injured_player_substitution_witness :
    (sampleBenchNonInteractive._match.players 1).onPitch = true ∧
    sampleBenchNonInteractive.playersForSubstitution 1 .HOSTS true = [2, 3] ∧
    sampleBenchNonInteractive.substitution .HOSTS (some 1) (fun _ => false) sampleNoDialogs =
      some (0, sampleBenchNonInteractive) ∧
    (sampleBench.substitution .HOSTS (some 1) (fun _ => false) sampleNoDialogs).map
      (fun r => ((r.2._match.players 1).onPitch, (r.2._match.players 2).onPitch)) =
      some (false, true) :=
  ⟨by decide, by decide,
   (injured_player_substitution sampleBenchNonInteractive .HOSTS 1 (fun _ => false)
     sampleNoDialogs).1 (by decide) (by decide),
   by decide⟩

/-! ## C22: advancing the period -/

/-- C22 (counterexample): at FULL_TIME, switchTimePeriodTo without a target yields the value 14,
which is past FULL_TIME (13) and is no enumerator of the period enumeration. -/
theorem switchTimePeriodTo_past_full_time :
    (MatchTime.switchTimePeriodTo { currentTimePeriod := TimePeriod.FULL_TIME.code }
      TimePeriod.UNDETERMINED.code).currentTimePeriod = 14 ∧
    TimePeriod.ofCode 14 = none ∧
    TimePeriod.FULL_TIME.code < 14 := by
  decide

/-- C22 (amended): for every clock state whose current period is an enumerator before
FULL_TIME (UNDETERMINED included), switchTimePeriodTo without a target yields the next
enumerator of the period enumeration, which is at most FULL_TIME, and records it with
length 0. -/
theorem switchTimePeriodTo_next_period (t : MatchTime) (p : TimePeriod)
    (hp : t.currentTimePeriod = p.code) (hlt : p.code < TimePeriod.FULL_TIME.code) :
    (t.switchTimePeriodTo TimePeriod.UNDETERMINED.code).currentTimePeriod = p.code + 1 ∧
    (∃ q : TimePeriod, q.code = p.code + 1 ∧
      TimePeriod.ofCode (t.switchTimePeriodTo TimePeriod.UNDETERMINED.code).currentTimePeriod =
        some q) ∧
    (t.switchTimePeriodTo TimePeriod.UNDETERMINED.code).currentTimePeriod ≤
      TimePeriod.FULL_TIME.code ∧
    (t.switchTimePeriodTo TimePeriod.UNDETERMINED.code).timePeriodLengths (p.code + 1) =
      some 0 := by
  have hcur : (t.switchTimePeriodTo TimePeriod.UNDETERMINED.code).currentTimePeriod =
      p.code + 1 := by
    simp only [MatchTime.switchTimePeriodTo, hp]
    cases p <;> decide
  have hlen : (t.switchTimePeriodTo TimePeriod.UNDETERMINED.code).timePeriodLengths
      (p.code + 1) = some 0 := by
    have h := hcur
    simp only [MatchTime.switchTimePeriodTo] at h ⊢
    simp only [mapInsert, h, if_true]
  rw [hcur]
  refine ⟨rfl, ?_, ?_, hlen⟩
  · have hsome : (TimePeriod.ofCode (p.code + 1)).isSome = true := by
      cases p <;> first | decide | (exact absurd hlt (by decide))
    obtain ⟨q, hq⟩ := Option.isSome_iff_exists.mp hsome
    have hqc := List.find?_some hq
    simp only [decide_eq_true_eq] at hqc
    exact ⟨q, hqc, hq⟩
  · cases p <;> first | decide | (exact absurd hlt (by decide))

/-- C22 (witness): from the second half the clock advances to the interval before extra
time. -/
theorem switchTimePeriodTo_next_period_witness :
    (MatchTime.switchTimePeriodTo { currentTimePeriod := TimePeriod.SECOND_HALF_TIME.code }
      TimePeriod.UNDETERMINED.code).currentTimePeriod =
      TimePeriod.BEFORE_EXTRA_TIME_INTERVAL.code :=
  (switchTimePeriodTo_next_period { currentTimePeriod := TimePeriod.SECOND_HALF_TIME.code }
    .SECOND_HALF_TIME rfl (by decide)).1

/-! ## C23: the effect of addTime -/

/-- Increment counter after `addTime`. -/
theorem MatchTime.addTime_lastIncrement (t : MatchTime) (s : Nat) :
    (t.addTime s).lastIncrement =
      u8 (u8 (t.lastIncrement + u8 (s / 60)) + u8 (t.secondsPlayed + u8 (s % 60)) / 60) := by
  simp only [MatchTime.addTime]
  split <;> rfl

/-- Banked seconds after `addTime`. -/
theorem MatchTime.addTime_timePeriodLengths (t : MatchTime) (s : Nat) (k : Int) :
    (t.addTime s).timePeriodLengths k =
      if k = t.currentTimePeriod then
        (match t.timePeriodLengths t.currentTimePeriod with
         | some v => some (u16 (v + s))
         | none => some s)
      else t.timePeriodLengths k := by
  simp only [MatchTime.addTime, MatchTime.addMinutes, MatchTime.addSeconds]
  split <;> rename_i h <;> simp only [mapInsert, h]

/-- C23 (counterexample): addTime(15360) on the initial clock passes 256 whole minutes to the
8-bit parameter of addMinutes: no minute is added, 60 * minutesPlayed + secondsPlayed stays
0 instead of growing by 15360, and lastIncrement stays 0. -/
theorem addTime_drops_whole_minutes :
    (MatchTime.addTime {} 15360).minutesPlayed = 0 ∧
    (MatchTime.addTime {} 15360).secondsPlayed = 0 ∧
    (MatchTime.addTime {} 15360).lastIncrement = 0 ∧
    60 * (MatchTime.addTime {} 15360).minutesPlayed + (MatchTime.addTime {} 15360).secondsPlayed
      ≠ 60 * (0 : Nat) + 0 + 15360 := by
  decide

/-- C23 (amended): for every clock state with secondsPlayed < 60 and every s such that the
minute counter, the increment counter (both 8-bit) and the banked seconds of the current
period (16-bit) do not overflow, addTime(s) increases lastIncrement and minutesPlayed by the
number of whole-minute boundaries crossed, increases 60 * minutesPlayed + secondsPlayed by
exactly s, keeps secondsPlayed < 60, and adds exactly s to the banked seconds of the current
period only. -/
theorem addTime_exact (t : MatchTime) (s : Nat)
    (hsec : t.secondsPlayed < 60)
    (hmin : t.minutesPlayed + (t.secondsPlayed + s) / 60 < 256)
    (hinc : t.lastIncrement + (t.secondsPlayed + s) / 60 < 256)
    (hbank : (t.timePeriodLengths t.currentTimePeriod).getD 0 + s < 65536) :
    (t.addTime s).lastIncrement = t.lastIncrement +
      ((60 * t.minutesPlayed + t.secondsPlayed + s) / 60 -
        (60 * t.minutesPlayed + t.secondsPlayed) / 60) ∧
    (t.addTime s).minutesPlayed = t.minutesPlayed +
      ((60 * t.minutesPlayed + t.secondsPlayed + s) / 60 -
        (60 * t.minutesPlayed + t.secondsPlayed) / 60) ∧
    60 * (t.addTime s).minutesPlayed + (t.addTime s).secondsPlayed =
      60 * t.minutesPlayed + t.secondsPlayed + s ∧
    (t.addTime s).secondsPlayed < 60 ∧
    (t.addTime s).timePeriodLengths t.currentTimePeriod =
      some ((t.timePeriodLengths t.currentTimePeriod).getD 0 + s) ∧
    (∀ k, k ≠ t.currentTimePeriod →
      (t.addTime s).timePeriodLengths k = t.timePeriodLengths k) := by
  have hq : s / 60 < 256 := by omega
  have e1 : u8 (s / 60) = s / 60 := Nat.mod_eq_of_lt hq
  have e2 : u8 (s % 60) = s % 60 := Nat.mod_eq_of_lt (by omega)
  have e3 : u8 (t.secondsPlayed + s % 60) = t.secondsPlayed + s % 60 :=
    Nat.mod_eq_of_lt (by omega)
  have e4 : u8 (t.minutesPlayed + s / 60) = t.minutesPlayed + s / 60 :=
    Nat.mod_eq_of_lt (by omega)
  have e5 : u8 (t.lastIncrement + s / 60) = t.lastIncrement + s / 60 :=
    Nat.mod_eq_of_lt (by omega)
  have e6 : u8 (t.minutesPlayed + s / 60 + (t.secondsPlayed + s % 60) / 60) =
      t.minutesPlayed + s / 60 + (t.secondsPlayed + s % 60) / 60 :=
    Nat.mod_eq_of_lt (by omega)
  have e7 : u8 (t.lastIncrement + s / 60 + (t.secondsPlayed + s % 60) / 60) =
      t.lastIncrement + s / 60 + (t.secondsPlayed + s % 60) / 60 :=
    Nat.mod_eq_of_lt (by omega)
  rw [MatchTime.addTime_lastIncrement, MatchTime.addTime_minutesPlayed,
    MatchTime.addTime_secondsPlayed, e1, e2, e3, e4, e5, e6, e7]
  refine ⟨by omega, by omega, by omega, by omega, ?_, ?_⟩
  · rw [MatchTime.addTime_timePeriodLengths]
    simp only [if_true]
    cases h : t.timePeriodLengths t.currentTimePeriod with
    | none => simp
    | some v =>
      rw [h] at hbank
      simp only [Option.getD_some] at hbank ⊢
      simp only [u16, Nat.mod_eq_of_lt hbank]
  · intro k hk
    rw [MatchTime.addTime_timePeriodLengths]
    simp only [hk, if_false]

/-- C23 (witness): at 39:30 with 12 seconds banked in the current period, addTime(45) crosses
one minute boundary: the clock reads 40:15 and 57 seconds are banked. -/
theorem addTime_exact_witness :
    (MatchTime.addTime
      { minutesPlayed := 39, secondsPlayed := 30, lastIncrement := 2,
        timePeriodLengths := mapInsert (fun _ => none) TimePeriod.WARM_UP.code 12 }
      45).lastIncrement = 2 + ((60 * 39 + 30 + 45) / 60 - (60 * 39 + 30) / 60) ∧
    (MatchTime.addTime
      { minutesPlayed := 39, secondsPlayed := 30, lastIncrement := 2,
        timePeriodLengths := mapInsert (fun _ => none) TimePeriod.WARM_UP.code 12 }
      45).timePeriodLengths TimePeriod.WARM_UP.code = some 57 :=
  ⟨(addTime_exact
      { minutesPlayed := 39, secondsPlayed := 30, lastIncrement := 2,
        timePeriodLengths := mapInsert (fun _ => none) TimePeriod.WARM_UP.code 12 }
      45 (by decide) (by decide) (by decide) (by decide)).1,
   (addTime_exact
      { minutesPlayed := 39, secondsPlayed := 30, lastIncrement := 2,
        timePeriodLengths := mapInsert (fun _ => none) TimePeriod.WARM_UP.code 12 }
      45 (by decide) (by decide) (by decide) (by decide)).2.2.2.2.1⟩

/-! ## C30: the time banked in an interval -/

/-- C30 (counterexample): with 40000 seconds banked in the first half and 30000 in the
half-time interval, setTimeForInterval(600) stores 70000 - 65536 = 4464 seconds for the
first half: the sum of the period lengths falls from 70000 to 5064 instead of rising to
70600. -/
theorem setTimeForInterval_loses_time :
    (MatchTime.setTimeForInterval
      { currentTimePeriod := TimePeriod.HALF_TIME_INTERVAL.code,
        timePeriodLengths := mapInsert (mapInsert (fun _ => none)
          TimePeriod.FIRST_HALF_TIME.code 40000) TimePeriod.HALF_TIME_INTERVAL.code 30000 }
      600).bankedTotal = 5064 ∧
    MatchTime.bankedTotal
      { currentTimePeriod := TimePeriod.HALF_TIME_INTERVAL.code,
        timePeriodLengths := mapInsert (mapInsert (fun _ => none)
          TimePeriod.FIRST_HALF_TIME.code 40000) TimePeriod.HALF_TIME_INTERVAL.code 30000 }
      = 70000 ∧
    (MatchTime.recordedPeriods
      { currentTimePeriod := TimePeriod.HALF_TIME_INTERVAL.code,
        timePeriodLengths := mapInsert (mapInsert (fun _ => none)
          TimePeriod.FIRST_HALF_TIME.code 40000) TimePeriod.HALF_TIME_INTERVAL.code 30000
      }).length = 2 := by
  decide

/-- An `int8_t` value is in the list of all of them. -/
theorem mem_int8Values (k : Int) (h1 : -128 ≤ k) (h2 : k ≤ 127) : k ∈ int8Values := by
  simp only [int8Values, List.mem_map, List.mem_range]
  have h : (((k + 128).toNat : Nat) : Int) = k + 128 := Int.toNat_of_nonneg (by omega)
  refine ⟨(k + 128).toNat, by omega, ?_⟩
  simp only [Int.ofNat_eq_coe, h]
  omega

/-- The list of `int8_t` values has no duplicates. -/
theorem int8Values_nodup : int8Values.Nodup := by
  unfold int8Values
  refine List.Nodup.map ?_ (List.nodup_range 256)
  intro a b h
  simp only [Int.ofNat_eq_coe] at h
  omega

/-- A sum over a duplicate-free list after the summand changed at one place. -/
theorem sum_map_update (f g : Int → Nat) (k : Int) (hg : ∀ x, x ≠ k → g x = f x)
    (l : List Int) (hnd : l.Nodup) (hk : k ∈ l) :
    (l.map g).sum + f k = (l.map f).sum + g k := by
  induction l with
  | nil => simp at hk
  | cons a l ih =>
    simp only [List.map_cons, List.sum_cons]
    rw [List.nodup_cons] at hnd
    by_cases hak : a = k
    · subst hak
      have hsame : l.map g = l.map f := by
        apply List.map_congr_left
        intro x hx
        exact hg x (fun h => hnd.1 (h ▸ hx))
      rw [hsame]
      omega
    · have hkl : k ∈ l := by
        rcases List.mem_cons.mp hk with h | h
        · exact absurd h.symm hak
        · exact h
      have := ih hnd.2 hkl
      rw [hg a hak]
      omega

/-- A subscript access does not change the value read at any key. -/
theorem mapTouch_getD (m : Int → Option Nat) (k x : Int) :
    ((mapTouch m k) x).getD 0 = (m x).getD 0 := by
  unfold mapTouch
  cases h : m k with
  | some v => rfl
  | none =>
    simp only [mapInsert]
    by_cases hx : x = k
    · simp [hx, h]
    · simp [hx]

/-- A subscript access changes the map at most at its key. -/
theorem mapTouch_other (m : Int → Option Nat) (k x : Int) (hx : x ≠ k) :
    (mapTouch m k) x = m x := by
  unfold mapTouch
  cases h : m k with
  | some v => rfl
  | none => simp [mapInsert, hx]

/-- Summing the recorded periods only gives the same total: a period that is not recorded
counts 0. -/
theorem sum_filter_isSome (m : Int → Option Nat) (l : List Int) :
    ((l.filter (fun k => (m k).isSome)).map (fun k => (m k).getD 0)).sum =
      (l.map (fun k => (m k).getD 0)).sum := by
  induction l with
  | nil => rfl
  | cons a l ih =>
    cases h : m a with
    | none => simp [List.filter_cons, h, ih]
    | some v => simp [List.filter_cons, h, ih]

/-- The value `timePlayedInSecondsRaw()` is the sum of all period lengths modulo 65536. -/
theorem MatchTime.timePlayedInSecondsRaw_eq (t : MatchTime) :
    t.timePlayedInSecondsRaw = t.bankedTotal % 65536 := by
  have h := foldl_u16_sum
    (t.recordedPeriods.map (fun k => (t.timePeriodLengths k).getD 0)) 0
  simp only [Nat.zero_mod, Nat.zero_add] at h
  unfold MatchTime.timePlayedInSecondsRaw
  rw [h]
  simp only [MatchTime.recordedPeriods, MatchTime.bankedTotal, sum_filter_isSome]

/-- C30 (amended): when at least two periods are recorded, the preceding period (the result of
lastPeriodPlayed at FULL_TIME, the numeric predecessor otherwise) differs from the current
one, and the two banked lengths together stay below 65536, setTimeForInterval(s) adds the
seconds banked in the current period to the preceding period and sets the length of the
current period to s: the sum of all period lengths afterwards is the sum before plus s (and
timePlayedInSecondsRaw() returns it modulo 65536), and no other period changes. -/
theorem setTimeForInterval_moves_banked_time (t : MatchTime) (s : Nat)
    (hlo : -128 ≤ t.currentTimePeriod) (hhi : t.currentTimePeriod ≤ 127)
    (hplo : -128 ≤ t.previousPeriod) (hphi : t.previousPeriod ≤ 127)
    (hs : s < 65536)
    (hsize : t.recordedPeriods.length > 1)
    (hne : t.previousPeriod ≠ t.currentTimePeriod)
    (hfit : (t.timePeriodLengths t.previousPeriod).getD 0 +
      (t.timePeriodLengths t.currentTimePeriod).getD 0 < 65536) :
    (t.setTimeForInterval s).timePeriodLengths t.currentTimePeriod = some s ∧
    (t.setTimeForInterval s).timePeriodLengths t.previousPeriod =
      some ((t.timePeriodLengths t.previousPeriod).getD 0 +
        (t.timePeriodLengths t.currentTimePeriod).getD 0) ∧
    (∀ k, k ≠ t.currentTimePeriod → k ≠ t.previousPeriod →
      (t.setTimeForInterval s).timePeriodLengths k = t.timePeriodLengths k) ∧
    (t.setTimeForInterval s).bankedTotal = t.bankedTotal + s ∧
    (t.setTimeForInterval s).timePlayedInSecondsRaw = (t.bankedTotal + s) % 65536 := by
  have hcur : (t.setTimeForInterval s).timePeriodLengths t.currentTimePeriod = some s := by
    simp only [MatchTime.setTimeForInterval, mapInsert, if_true, u16, Nat.mod_eq_of_lt hs]
  have hprev : (t.setTimeForInterval s).timePeriodLengths t.previousPeriod =
      some ((t.timePeriodLengths t.previousPeriod).getD 0 +
        (t.timePeriodLengths t.currentTimePeriod).getD 0) := by
    simp only [MatchTime.setTimeForInterval, hsize, if_true, mapInsert, hne, if_false,
      mapTouch_getD, u16, Nat.mod_eq_of_lt hfit]
  have hother : ∀ k, k ≠ t.currentTimePeriod → k ≠ t.previousPeriod →
      (t.setTimeForInterval s).timePeriodLengths k = t.timePeriodLengths k := by
    intro k hk1 hk2
    simp only [MatchTime.setTimeForInterval, hsize, if_true, mapInsert, hk1, hk2, if_false]
    rw [mapTouch_other _ _ _ hk2, mapTouch_other _ _ _ hk1]
  have key : (t.setTimeForInterval s).bankedTotal = t.bankedTotal + s := by
    have hmid := sum_map_update (fun x => (t.timePeriodLengths x).getD 0)
      (fun x => if x = t.previousPeriod then
          (t.timePeriodLengths t.previousPeriod).getD 0 +
            (t.timePeriodLengths t.currentTimePeriod).getD 0
        else (t.timePeriodLengths x).getD 0)
      t.previousPeriod (fun x hx => by simp only [hx, if_false])
      int8Values int8Values_nodup (mem_int8Values _ hplo hphi)
    have hfin := sum_map_update
      (fun x => if x = t.previousPeriod then
          (t.timePeriodLengths t.previousPeriod).getD 0 +
            (t.timePeriodLengths t.currentTimePeriod).getD 0
        else (t.timePeriodLengths x).getD 0)
      (fun x => ((t.setTimeForInterval s).timePeriodLengths x).getD 0)
      t.currentTimePeriod
      (fun x hx => by
        beta_reduce
        by_cases hxp : x = t.previousPeriod
        · rw [hxp, hprev]
          simp only [if_true, Option.getD_some]
        · rw [hother x hx hxp]
          simp only [hxp, if_false])
      int8Values int8Values_nodup (mem_int8Values _ hlo hhi)
    simp only [if_true, hcur, Option.getD_some, hne.symm, if_false] at hmid hfin
    simp only [MatchTime.bankedTotal]
    omega
  exact ⟨hcur, hprev, hother, key, by rw [MatchTime.timePlayedInSecondsRaw_eq, key]⟩

/-- C30 (witness): with 2450 seconds banked in the first half and 7 in the half-time interval,
setTimeForInterval(600) leaves 2457 seconds for the first half and 600 for the interval. -/
theorem setTimeForInterval_moves_banked_time_witness :
    (MatchTime.setTimeForInterval
      { currentTimePeriod := TimePeriod.HALF_TIME_INTERVAL.code,
        timePeriodLengths := mapInsert (mapInsert (fun _ => none)
          TimePeriod.FIRST_HALF_TIME.code 2450) TimePeriod.HALF_TIME_INTERVAL.code 7 }
      600).bankedTotal = 2457 + 600 :=
  (setTimeForInterval_moves_banked_time
      { currentTimePeriod := TimePeriod.HALF_TIME_INTERVAL.code,
        timePeriodLengths := mapInsert (mapInsert (fun _ => none)
          TimePeriod.FIRST_HALF_TIME.code 2450) TimePeriod.HALF_TIME_INTERVAL.code 7 }
      600 (by decide) (by decide) (by decide) (by decide) (by decide) (by decide) (by decide)
      (by decide)).2.2.2.1

/-! ## C29: moving the ball back from the goal line -/

/-- The quotient of a non-zero integer by its absolute value is its sign. -/
theorem tdiv_natAbs (d : Int) (h : d ≠ 0) :
    d.tdiv (d.natAbs : Int) = if 0 < d then 1 else -1 := by
  by_cases hpos : 0 < d
  · rw [Int.natAbs_of_nonneg (by omega), Int.tdiv_self h, if_pos hpos]
  · rw [Int.ofNat_natAbs_of_nonpos (by omega), Int.tdiv_neg, Int.tdiv_self h, if_neg hpos]

/-- C29: for every ball position and every m <= 50, moveBallToSpecificPositionOnPitch(m)
returns (no division by zero); afterwards the ball is not on the other side of the halfway
line and is at least m metres from the nearer goal line; the state is unchanged when the ball
was already that far out; for m > 50 the state is always unchanged. -/
theorem moveBall_keeps_distance_from_goal_line (g : GamePlay) (m : Nat) (hm : m < 256) :
    (m ≤ 50 →
      ∃ r g1, g.moveBallToSpecificPositionOnPitch m = some (r, g1) ∧
        (0 ≤ g.distanceFromHalfwayLine → 0 ≤ g1.distanceFromHalfwayLine) ∧
        (g.distanceFromHalfwayLine ≤ 0 → g1.distanceFromHalfwayLine ≤ 0) ∧
        (50 : Int) - (g1.distanceFromHalfwayLine.natAbs : Int) ≥ (m : Int) ∧
        ((50 : Int) - (g.distanceFromHalfwayLine.natAbs : Int) ≥ (m : Int) → g1 = g)) ∧
    (50 < m → ∃ r, g.moveBallToSpecificPositionOnPitch m = some (r, g)) := by
  have e8 : u8 m = m := Nat.mod_eq_of_lt hm
  have e50 : i8 ((50 : Nat) : Int) = 50 := by decide
  constructor
  · intro hle
    have h1 : ¬ m > 50 := by omega
    simp only [GamePlay.moveBallToSpecificPositionOnPitch, groundDimensions, e8, h1, if_false,
      e50]
    by_cases hfar : (50 : Int) - (g.distanceFromHalfwayLine.natAbs : Int) < (m : Int)
    · have hd : g.distanceFromHalfwayLine ≠ 0 := by
        intro h0
        rw [h0] at hfar
        simp only [Int.natAbs_zero, Nat.cast_zero, sub_zero] at hfar
        omega
      have habs : ¬ ((g.distanceFromHalfwayLine.natAbs : Int) = 0) := by omega
      simp only [hfar, if_true, habs, if_false, tdiv_natAbs _ hd]
      refine ⟨_, _, rfl, ?_, ?_, ?_, ?_⟩
      · intro h0
        have hp : 0 < g.distanceFromHalfwayLine := by omega
        simp only [hp, if_true, i8]
        omega
      · intro h0
        have hp : ¬ 0 < g.distanceFromHalfwayLine := by omega
        simp only [hp, if_false, i8]
        omega
      · by_cases hp : 0 < g.distanceFromHalfwayLine
        · simp only [hp, if_true, i8]
          omega
        · simp only [hp, if_false, i8]
          omega
      · intro hge
        omega
    · simp only [hfar, if_false]
      exact ⟨_, _, rfl, fun h => h, fun h => h, by omega, fun _ => rfl⟩
  · intro hgt
    have h1 : m > 50 := hgt
    simp only [GamePlay.moveBallToSpecificPositionOnPitch, groundDimensions, e8, h1, if_true]
    exact ⟨_, rfl⟩

/-- C29 (witness): the hosts' ball 2 m from the goal line (position 48) is moved back to 5 m
(position 45); the returned distance is 5. -/
theorem moveBall_keeps_distance_from_goal_line_witness :
    (∃ r g1, GamePlay.moveBallToSpecificPositionOnPitch
        { sampleTrailingByFive with distanceFromHalfwayLine := 48 } 5 = some (r, g1) ∧
      (50 : Int) - (g1.distanceFromHalfwayLine.natAbs : Int) ≥ ((5 : Nat) : Int)) ∧
    (GamePlay.moveBallToSpecificPositionOnPitch
        { sampleTrailingByFive with distanceFromHalfwayLine := 48 } 5).map
      (fun r => (r.1, r.2.distanceFromHalfwayLine)) = some (5, 45) :=
  ⟨match (moveBall_keeps_distance_from_goal_line
      { sampleTrailingByFive with distanceFromHalfwayLine := 48 } 5 (by decide)).1
      (by decide) with
    | ⟨r, g1, h1, _, _, h4, _⟩ => ⟨r, g1, h1, h4⟩,
   by decide⟩

/-! ## C25: the chance passed to the injury draw -/

/-- C25 (counterexample): with agility, dexterity and tackling 20 each, all within 1..99,
probabilityOfInjury is 50 + 200 / 2 = 150 and the value passed to the random draw is
100 - 150 = -50, which is no probability in [0, 100]. -/
theorem injuryChance_negative_at_twenty :
    1 ≤ (sampleAttributesTwenty._match.players 1).agility ∧
    (sampleAttributesTwenty._match.players 1).agility ≤ 99 ∧
    1 ≤ (sampleAttributesTwenty._match.players 1).dexterity ∧
    (sampleAttributesTwenty._match.players 1).dexterity ≤ 99 ∧
    1 ≤ (sampleAttributesTwenty._match.players 1).tackling ∧
    (sampleAttributesTwenty._match.players 1).tackling ≤ 99 ∧
    sampleAttributesTwenty.probabilityOfInjury 1 = 150 ∧
    sampleAttributesTwenty.injuryChance 1 = -50 ∧
    ¬ (0 ≤ sampleAttributesTwenty.injuryChance 1 ∧
       sampleAttributesTwenty.injuryChance 1 ≤ 100) := by
  decide

/-- C25 (amended): for every player whose agility, dexterity and tackling are each in 1..10,
the value passed to the random draw, 100 - probabilityOfInjury, equals 50 minus half the
weighted sum 2 * agility + 5 * dexterity + 3 * tackling and is a probability: it lies in
[0, 45]. -/
theorem injuryChance_valid_up_to_ten (g : GamePlay) (player : Nat)
    (ha : 1 ≤ (g._match.players player).agility ∧ (g._match.players player).agility ≤ 10)
    (hd : 1 ≤ (g._match.players player).dexterity ∧ (g._match.players player).dexterity ≤ 10)
    (ht : 1 ≤ (g._match.players player).tackling ∧ (g._match.players player).tackling ≤ 10) :
    g.probabilityOfInjury player =
      50 + (2 * (g._match.players player).agility + 5 * (g._match.players player).dexterity +
        3 * (g._match.players player).tackling) / 2 ∧
    g.injuryChance player = 50 - ((2 * (g._match.players player).agility +
        5 * (g._match.players player).dexterity +
        3 * (g._match.players player).tackling) / 2 : Nat) ∧
    0 ≤ g.injuryChance player ∧ g.injuryChance player ≤ 45 := by
  simp only [GamePlay.injuryChance, GamePlay.probabilityOfInjury, u8]
  generalize (g._match.players player).agility = a at ha ⊢
  generalize (g._match.players player).dexterity = d at hd ⊢
  generalize (g._match.players player).tackling = t at ht ⊢
  have ea : a % 256 = a := Nat.mod_eq_of_lt (by omega)
  have ed : d % 256 = d := Nat.mod_eq_of_lt (by omega)
  have et : t % 256 = t := Nat.mod_eq_of_lt (by omega)
  rw [ea, ed, et]
  have e : (50 + (a * 2 + d * 5 + t * 3) / 2) % 256 = 50 + (a * 2 + d * 5 + t * 3) / 2 :=
    Nat.mod_eq_of_lt (by omega)
  rw [e]
  omega

/-- C25 (witness): with agility, dexterity and tackling 5 each probabilityOfInjury is 75 and the
value passed to the draw is 25. -/
theorem injuryChance_valid_up_to_ten_witness :
    sampleAttributesFive.probabilityOfInjury 1 = 75 ∧
    sampleAttributesFive.injuryChance 1 = 25 ∧
    0 ≤ sampleAttributesFive.injuryChance 1 ∧ sampleAttributesFive.injuryChance 1 ≤ 45 :=
  ⟨by decide, by decide,
   (injuryChance_valid_up_to_ten sampleAttributesFive 1 (by decide) (by decide)
     (by decide)).2.2⟩

/-! ## C28: assigning a team to a play-off match -/

/-- C28 (code evaluated): setTeam(loc, team) assigns the team to the side loc for HOSTS as for
VISITORS, leaves the other side alone, and returns true only for VISITORS: the flag set for
HOSTS is overwritten by the test for VISITORS.  Consequently drawPlayoffs, run on a play-off
match whose hosts are still to be drawn and whose visitors are known, assigns the hosts and
returns false. -/
theorem setTeam_returns_visitors_only (m : Match) (team : Team) (table : Nat → List Team) :
    (m.setTeam .HOSTS team).1 = false ∧
    (m.setTeam .HOSTS team).2.teamHosts = { team with inPlayoffs := true } ∧
    (m.setTeam .HOSTS team).2.teamVisitors = m.teamVisitors ∧
    (m.setTeam .VISITORS team).1 = true ∧
    (m.setTeam .VISITORS team).2.teamVisitors = { team with inPlayoffs := true } ∧
    (m.setTeam .VISITORS team).2.teamHosts = m.teamHosts ∧
    (m.played = false → m.type = .PLAYOFFS → m.playoffsType = .FROM_REGULAR →
      m.teamHostsNull = true → m.teamVisitorsNull = false →
      (table (m.playoffsRanking .HOSTS).1).get?
        ((((m.playoffsRanking .HOSTS).2 : Int) - 1) % 256).toNat = some team →
      Playoffs.drawPlayoffs [m] table = some (false, [(m.setTeam .HOSTS team).2])) := by
  refine ⟨by simp [Match.setTeam], by simp [Match.setTeam], by simp [Match.setTeam],
    by simp [Match.setTeam], by simp [Match.setTeam], by simp [Match.setTeam], ?_⟩
  intro hplayed htype hkind hhosts hvisitors hteam
  have hbegin : Playoffs.from_match [m] .FROM_REGULAR = 0 := by
    simp [Playoffs.from_match, List.findIdx_cons, hplayed, htype, hkind]
  have hside1 : Playoffs.drawSide table (0, m) .HOSTS = some (0, (m.setTeam .HOSTS team).2) := by
    simp only [Playoffs.drawSide, Match.teamIsNull, hhosts, if_true, hteam]
    simp [Match.setTeam, u8]
  have hside2 : Playoffs.drawSide table (0, (m.setTeam .HOSTS team).2) .VISITORS =
      some (0, (m.setTeam .HOSTS team).2) := by
    have hv : ((m.setTeam .HOSTS team).2).teamVisitorsNull = false := by
      simp [Match.setTeam, hvisitors]
    simp only [Playoffs.drawSide, Match.teamIsNull, hv, Bool.false_eq_true, if_false]
  have hmatch : Playoffs.drawMatch table 0 m = some (0, (m.setTeam .HOSTS team).2) := by
    simp only [Playoffs.drawMatch, htype, ne_eq, not_true_eq_false, if_false, hkind, if_true,
      hside1, hside2]
  simp only [Playoffs.drawPlayoffs, hbegin, List.drop_zero, List.take_zero, Playoffs.drawLoop,
    hmatch, List.nil_append]
  simp

/-- C28 (witness): the hosts of the sample match are drawn from the table (the team ranked 7
is assigned and flagged), and drawPlayoffs reports false. -/
theorem setTeam_returns_visitors_only_witness :
    (Playoffs.drawPlayoffs [sampleSemiFinal] sampleTable).map
      (fun r => (r.1, r.2.map (fun m => (m.teamHosts, m.teamHostsNull)))) =
      some (false, [({ ranking := 7, group := 1, inPlayoffs := true }, false)]) :=
  (congrArg (Option.map (fun r => (r.1, r.2.map (fun m => (m.teamHosts, m.teamHostsNull)))))
    ((setTeam_returns_visitors_only sampleSemiFinal { ranking := 7, group := 1 }
      sampleTable).2.2.2.2.2.2 rfl rfl rfl rfl rfl (by decide))).trans (by decide)

/-! ## C21: the weight of the pack -/

/-- C21 (counterexample): a pack of two players of 110 and 120 kg: the weight is known for
fewer than 3 pack players, and packWeight returns their sum 230, not 0. -/
theorem packWeight_small_pack_not_scrapped :
    (samplePackOfTwo.packPlayersWithWeight samplePackOfTwoPlayers).length = 2 ∧
    samplePackOfTwo.packWeight samplePackOfTwoPlayers (.finite 1 1) = some (230, false) := by
  decide

/-- The counters after the loop of `packWeight`, started from counters within their types. -/
theorem PackCount.foldl_add (players : Nat → Player) (l : List Nat) (c : PackCount)
    (h1 : c.packWeight < 65536) (h2 : c.noOfPlayersWithWeight < 256)
    (h3 : c.numberOfPackPlayersOnPitch < 256) :
    (l.foldl (PackCount.add players) c).packWeight =
      (c.packWeight + ((l.filter (fun x => (players x).packPlayer)).map
        (fun x => u8 (players x).weight)).sum) % 65536 ∧
    (l.foldl (PackCount.add players) c).noOfPlayersWithWeight =
      (c.noOfPlayersWithWeight + ((l.filter (fun x => (players x).packPlayer)).filter
        (fun x => decide (u8 (players x).weight > 0))).length) % 256 ∧
    (l.foldl (PackCount.add players) c).numberOfPackPlayersOnPitch =
      (c.numberOfPackPlayersOnPitch +
        (l.filter (fun x => (players x).packPlayer)).length) % 256 := by
  induction l generalizing c with
  | nil =>
    simp only [List.foldl_nil, List.filter_nil, List.map_nil, List.sum_nil, List.length_nil,
      Nat.add_zero]
    exact ⟨(Nat.mod_eq_of_lt h1).symm, (Nat.mod_eq_of_lt h2).symm, (Nat.mod_eq_of_lt h3).symm⟩
  | cons a l ih =>
    simp only [List.foldl_cons]
    by_cases hp : (players a).packPlayer = false
    · have hadd : PackCount.add players c a = c := by
        simp only [PackCount.add, hp, if_true]
      rw [hadd]
      have := ih c h1 h2 h3
      simp only [List.filter_cons, hp, Bool.false_eq_true, if_false]
      exact this
    · have hp1 : (players a).packPlayer = true := by simpa using hp
      by_cases hw : u8 (players a).weight > 0
      · have hadd : PackCount.add players c a =
            { packWeight := u16 (c.packWeight + u8 (players a).weight),
              noOfPlayersWithWeight := u8 (c.noOfPlayersWithWeight + 1),
              numberOfPackPlayersOnPitch := u8 (c.numberOfPackPlayersOnPitch + 1) } := by
          simp [PackCount.add, hp1, hw]
        rw [hadd]
        have := ih
          { packWeight := u16 (c.packWeight + u8 (players a).weight),
            noOfPlayersWithWeight := u8 (c.noOfPlayersWithWeight + 1),
            numberOfPackPlayersOnPitch := u8 (c.numberOfPackPlayersOnPitch + 1) }
          (by simp only [u16]; omega) (by simp only [u8]; omega) (by simp only [u8]; omega)
        simp only [List.filter_cons, hp1, if_true, hw, decide_True, List.map_cons,
          List.sum_cons, List.length_cons]
        simp only [u8, u16] at this ⊢
        refine ⟨?_, ?_, ?_⟩
        · rw [this.1]
          omega
        · rw [this.2.1]
          omega
        · rw [this.2.2]
          omega
      · have hadd : PackCount.add players c a =
            { c with numberOfPackPlayersOnPitch := u8 (c.numberOfPackPlayersOnPitch + 1) } := by
          simp [PackCount.add, hp1, hw]
        rw [hadd]
        have := ih { c with numberOfPackPlayersOnPitch := u8 (c.numberOfPackPlayersOnPitch + 1) }
          h1 h2 (by simp only [u8]; omega)
        have hw0 : u8 (players a).weight = 0 := by omega
        simp only [List.filter_cons, hp1, if_true, hw, decide_False, Bool.false_eq_true,
          if_false, List.map_cons, List.sum_cons, List.length_cons, hw0]
        simp only [u8] at this ⊢
        refine ⟨?_, this.2.1, ?_⟩
        · rw [this.1]
          omega
        · rw [this.2.2]
          omega

/-- The sum of 8-bit values is at most 255 times the number of those that are not 0. -/
theorem sum_le_of_positive (f : Nat → Nat) (hf : ∀ c, f c ≤ 255) (l : List Nat) :
    (l.map f).sum ≤ 255 * (l.filter (fun c => decide (f c > 0))).length := by
  induction l with
  | nil => simp
  | cons a l ih =>
    simp only [List.map_cons, List.sum_cons, List.filter_cons]
    by_cases h : f a > 0
    · simp only [h, decide_True, if_true, List.length_cons]
      have := hf a
      omega
    · simp only [h, decide_False, Bool.false_eq_true, if_false]
      omega

/-- The rounded adjusted pack weight for a finite coefficient and at least one known weight:
it is finite and within one half plus a relative 2^-51 of the known average times the
number of pack players times the coefficient. -/
theorem Team.adjustedPackWeight_round (packWeight known pack cn cd : Nat)
    (hknown : 0 < known) (hcd : 0 < cd) :
    ∃ r : Nat, (Team.adjustedPackWeight packWeight known pack (.finite cn cd)).round =
        .finite r 1 ∧
      |(r : ℚ) - (packWeight : ℚ) / known * pack * ((cn : ℚ) / cd)| ≤
        1 / 2 + (packWeight : ℚ) / known * pack * ((cn : ℚ) / cd) / 2 ^ 51 := by
  unfold Team.adjustedPackWeight
  obtain ⟨n1, d1, e1, hd1, lo1, hi1, _⟩ := Binary64.div_near packWeight 1 known 1 (by decide)
    hknown (by decide)
  obtain ⟨n2, d2, e2, hd2, lo2, hi2⟩ := Binary64.mul_near n1 d1 pack 1 hd1 (by decide)
  obtain ⟨n3, d3, e3, hd3, lo3, hi3⟩ := Binary64.mul_near n2 d2 cn cd hd2 hcd
  simp only [Binary64.ofNat, e1, e2, e3]
  obtain ⟨r1, r2, r3⟩ := Binary64.round_near n3 d3 hd3
  refine ⟨_, r1, ?_⟩
  simp only [Nat.cast_one, div_one] at lo1 hi1 lo2 hi2
  have hk : (0 : ℚ) < known := by exact_mod_cast hknown
  have hcdq : (0 : ℚ) < cd := by exact_mod_cast hcd
  have hp : (0 : ℚ) ≤ pack := by positivity
  have hc : (0 : ℚ) ≤ (cn : ℚ) / cd := by positivity
  have hX : (0 : ℚ) ≤ (packWeight : ℚ) / known * pack * ((cn : ℚ) / cd) := by positivity
  refine round_of_interval _ ((n3 : ℚ) / d3)
    ((1 - 1 / 2 ^ 53) * (1 - 1 / 2 ^ 53) * (1 - 1 / 2 ^ 53))
    ((1 + 1 / 2 ^ 53) * (1 + 1 / 2 ^ 53) * (1 + 1 / 2 ^ 53)) _ hX ?_ ?_
    (by norm_num) (by norm_num) r2 r3
  · have s2 : (packWeight : ℚ) / known * (1 - 1 / 2 ^ 53) * pack * (1 - 1 / 2 ^ 53) ≤
        (n2 : ℚ) / d2 :=
      le_trans (mul_le_mul_of_nonneg_right (mul_le_mul_of_nonneg_right lo1 hp) (by norm_num))
        lo2
    have s3 : (packWeight : ℚ) / known * (1 - 1 / 2 ^ 53) * pack * (1 - 1 / 2 ^ 53) *
        ((cn : ℚ) / cd) * (1 - 1 / 2 ^ 53) ≤ (n3 : ℚ) / d3 :=
      le_trans (mul_le_mul_of_nonneg_right (mul_le_mul_of_nonneg_right s2 hc) (by norm_num))
        lo3
    calc (packWeight : ℚ) / known * pack * ((cn : ℚ) / cd) *
          ((1 - 1 / 2 ^ 53) * (1 - 1 / 2 ^ 53) * (1 - 1 / 2 ^ 53))
        = (packWeight : ℚ) / known * (1 - 1 / 2 ^ 53) * pack * (1 - 1 / 2 ^ 53) *
          ((cn : ℚ) / cd) * (1 - 1 / 2 ^ 53) := by ring
      _ ≤ (n3 : ℚ) / d3 := s3
  · have s2 : (n2 : ℚ) / d2 ≤
        (packWeight : ℚ) / known * (1 + 1 / 2 ^ 53) * pack * (1 + 1 / 2 ^ 53) :=
      le_trans hi2 (mul_le_mul_of_nonneg_right (mul_le_mul_of_nonneg_right hi1 hp)
        (by norm_num))
    have s3 : (n3 : ℚ) / d3 ≤
        (packWeight : ℚ) / known * (1 + 1 / 2 ^ 53) * pack * (1 + 1 / 2 ^ 53) *
          ((cn : ℚ) / cd) * (1 + 1 / 2 ^ 53) :=
      le_trans hi3 (mul_le_mul_of_nonneg_right (mul_le_mul_of_nonneg_right s2 hc)
        (by norm_num))
    calc (n3 : ℚ) / d3 ≤
          (packWeight : ℚ) / known * (1 + 1 / 2 ^ 53) * pack * (1 + 1 / 2 ^ 53) *
            ((cn : ℚ) / cd) * (1 + 1 / 2 ^ 53) := s3
      _ = (packWeight : ℚ) / known * pack * ((cn : ℚ) / cd) *
          ((1 + 1 / 2 ^ 53) * (1 + 1 / 2 ^ 53) * (1 + 1 / 2 ^ 53)) := by ring

/-- C21 (amended): for a squad of fewer than 256 players packWeight divides by a count of at
least 3, never by zero.  When the weight of every pack player is known (also when there are
fewer than 3 of them) it returns the exact sum with the adjusted flag false; when the weight
is unknown for some pack player and known for fewer than 3 it returns 0, the flag false;
otherwise it returns, with the adjusted flag true, the value
round(double(sum) / known * pack * INCOMPLETE_WEIGHT) converted to 16 bits: for a finite
coefficient an integer within one half (plus the rounding error of the double operations,
a relative 2^-51) of the known average times the number of pack players times the
coefficient.  The conversion is defined, and the call returns, whenever 255 times the number
of pack players times the coefficient is at most 65535. -/
theorem packWeight_cases (t : Team) (players : Nat → Player) (INCOMPLETE_WEIGHT : Binary64)
    (hsize : t.squad.length < 256) :
    ((t.packPlayersWithWeight players).length = (t.packPlayers players).length →
      t.packWeight players INCOMPLETE_WEIGHT = some (t.knownPackWeight players, false)) ∧
    ((t.packPlayersWithWeight players).length ≠ (t.packPlayers players).length →
      (t.packPlayersWithWeight players).length < 3 →
      t.packWeight players INCOMPLETE_WEIGHT = some (0, false)) ∧
    ((t.packPlayersWithWeight players).length ≠ (t.packPlayers players).length →
      3 ≤ (t.packPlayersWithWeight players).length →
      t.packWeight players INCOMPLETE_WEIGHT =
        ((Team.adjustedPackWeight (t.knownPackWeight players)
          (t.packPlayersWithWeight players).length (t.packPlayers players).length
          INCOMPLETE_WEIGHT).round.toUInt 16).map (fun weight => (weight, true))) ∧
    (∀ cn cd, INCOMPLETE_WEIGHT = .finite cn cd → 0 < cd →
      (t.packPlayersWithWeight players).length ≠ (t.packPlayers players).length →
      3 ≤ (t.packPlayersWithWeight players).length →
      ∃ r : Nat,
        (Team.adjustedPackWeight (t.knownPackWeight players)
          (t.packPlayersWithWeight players).length (t.packPlayers players).length
          INCOMPLETE_WEIGHT).round = .finite r 1 ∧
        |(r : ℚ) - (t.knownPackWeight players : ℚ) / (t.packPlayersWithWeight players).length *
            (t.packPlayers players).length * ((cn : ℚ) / cd)| ≤
          1 / 2 + (t.knownPackWeight players : ℚ) / (t.packPlayersWithWeight players).length *
            (t.packPlayers players).length * ((cn : ℚ) / cd) / 2 ^ 51 ∧
        (r < 65536 → t.packWeight players INCOMPLETE_WEIGHT = some (r, true)) ∧
        (65536 ≤ r → t.packWeight players INCOMPLETE_WEIGHT = none)) ∧
    (∀ cn cd, INCOMPLETE_WEIGHT = .finite cn cd → 0 < cd →
      255 * (t.packPlayers players).length * cn ≤ 65535 * cd →
      t.packWeight players INCOMPLETE_WEIGHT ≠ none) := by
  have hfold : (t.squad.foldl (PackCount.add players) {}).packWeight =
        (0 + t.knownPackWeight players) % 65536 ∧
      (t.squad.foldl (PackCount.add players) {}).noOfPlayersWithWeight =
        (0 + (t.packPlayersWithWeight players).length) % 256 ∧
      (t.squad.foldl (PackCount.add players) {}).numberOfPackPlayersOnPitch =
        (0 + (t.packPlayers players).length) % 256 :=
    PackCount.foldl_add players t.squad {} (by decide) (by decide) (by decide)
  have hpack : (t.packPlayers players).length ≤ t.squad.length := List.length_filter_le _ _
  have hknown : (t.packPlayersWithWeight players).length ≤ (t.packPlayers players).length :=
    List.length_filter_le _ _
  have hsum : t.knownPackWeight players ≤ 255 * (t.packPlayersWithWeight players).length :=
    sum_le_of_positive (fun c => u8 (players c).weight)
      (fun c => by simp only [u8]; omega) (t.packPlayers players)
  simp only [Nat.zero_add] at hfold
  have e1 : (t.squad.foldl (PackCount.add players) {}).packWeight = t.knownPackWeight players := by
    rw [hfold.1]
    exact Nat.mod_eq_of_lt (by omega)
  have e2 : (t.squad.foldl (PackCount.add players) {}).noOfPlayersWithWeight =
      (t.packPlayersWithWeight players).length := by
    rw [hfold.2.1]
    exact Nat.mod_eq_of_lt (by omega)
  have e3 : (t.squad.foldl (PackCount.add players) {}).numberOfPackPlayersOnPitch =
      (t.packPlayers players).length := by
    rw [hfold.2.2]
    exact Nat.mod_eq_of_lt (by omega)
  simp only [Team.packWeight, e1, e2, e3, numberOfPlayers]
  generalize (t.packPlayersWithWeight players).length = known at *
  generalize (t.packPlayers players).length = pack at *
  generalize t.knownPackWeight players = sum at *
  have hcast : ∀ r : Nat, Binary64.toUInt 16 (.finite r 1) =
      if r < 65536 then some r else none := by
    intro r
    simp only [Binary64.toUInt, Nat.div_one]
    rfl
  have hthird : ∀ cn cd, INCOMPLETE_WEIGHT = .finite cn cd → 0 < cd → 3 ≤ known →
      ∃ r : Nat, (Team.adjustedPackWeight sum known pack INCOMPLETE_WEIGHT).round =
          .finite r 1 ∧
        |(r : ℚ) - (sum : ℚ) / known * pack * ((cn : ℚ) / cd)| ≤
          1 / 2 + (sum : ℚ) / known * pack * ((cn : ℚ) / cd) / 2 ^ 51 := by
    intro cn cd hc hcd h3
    rw [hc]
    exact Team.adjustedPackWeight_round sum known pack cn cd (by omega) hcd
  refine ⟨?_, ?_, ?_, ?_, ?_⟩
  · intro h
    simp only [h, if_true]
  · intro h1 h2
    have h3 : (known : Int) < ((8 / 2 : Nat) : Int) - 1 := by omega
    simp only [h1, if_false, h3, if_true]
  · intro h1 h2
    have h3 : ¬ (known : Int) < ((8 / 2 : Nat) : Int) - 1 := by omega
    simp only [h1, if_false, h3]
    cases (Team.adjustedPackWeight sum known pack INCOMPLETE_WEIGHT).round.toUInt 16 <;> rfl
  · intro cn cd hc hcd h1 h2
    obtain ⟨r, hr, hnear⟩ := hthird cn cd hc hcd h2
    have h3 : ¬ (known : Int) < ((8 / 2 : Nat) : Int) - 1 := by omega
    refine ⟨r, hr, hnear, ?_, ?_⟩
    · intro hfit
      simp only [h1, if_false, h3, hr, hcast, hfit, if_true]
    · intro hfit
      have : ¬ r < 65536 := by omega
      simp only [h1, if_false, h3, hr, hcast, this]
  · intro cn cd hc hcd hbound
    by_cases h1 : known = pack
    · simp only [h1, if_true]
      exact Option.some_ne_none _
    · by_cases h3 : (known : Int) < ((8 / 2 : Nat) : Int) - 1
      · simp only [h1, if_false, h3, if_true]
        exact Option.some_ne_none _
      · obtain ⟨r, hr, hnear⟩ := hthird cn cd hc hcd (by omega)
        have hfit : r < 65536 := by
          have hk : (0 : ℚ) < known := by
            have : 0 < known := by omega
            exact_mod_cast this
          have hcdq : (0 : ℚ) < cd := by exact_mod_cast hcd
          have hsumq : (sum : ℚ) ≤ 255 * known := by exact_mod_cast hsum
          have hbq : (255 : ℚ) * pack * cn ≤ 65535 * cd := by exact_mod_cast hbound
          have hX : (sum : ℚ) / known * pack * ((cn : ℚ) / cd) ≤ 65535 := by
            have h4 : (sum : ℚ) / known ≤ 255 := by
              rw [div_le_iff₀ hk]
              exact hsumq
            have h5 : (sum : ℚ) / known * pack * ((cn : ℚ) / cd) ≤
                255 * pack * ((cn : ℚ) / cd) := by
              apply mul_le_mul_of_nonneg_right _ (by positivity)
              exact mul_le_mul_of_nonneg_right h4 (by positivity)
            have h6 : (255 : ℚ) * pack * ((cn : ℚ) / cd) ≤ 65535 := by
              rw [← mul_div_assoc, div_le_iff₀ hcdq]
              exact hbq
            linarith
          have hX0 : (0 : ℚ) ≤ (sum : ℚ) / known * pack * ((cn : ℚ) / cd) := by positivity
          rw [abs_le] at hnear
          have hrq : (r : ℚ) < 65536 := by
            have : (sum : ℚ) / known * pack * ((cn : ℚ) / cd) / 2 ^ 51 ≤ 65535 / 2 ^ 51 :=
              div_le_div_of_nonneg_right hX (by positivity)
            have : (65535 : ℚ) / 2 ^ 51 < 1 / 4 := by norm_num
            linarith [hnear.2]
          exact_mod_cast hrq
        simp only [h1, if_false, h3, hr, hcast, hfit, if_true]
        exact Option.some_ne_none _

/-- C21 (witness): a pack of eight with three known weights (100, 110, 120) and the coefficient
1.1: the adjusted value round(330 / 3 * 8 * 1.1) = 968 is returned with the flag true; with
the two known weights of the pack of two the exact sum is returned. -/
theorem packWeight_cases_witness :
    samplePackOfEight.packWeight samplePackOfEightPlayers (roundToBinary64 11 10) =
      some (968, true) ∧
    samplePackOfTwo.packWeight samplePackOfTwoPlayers (roundToBinary64 11 10) =
      some (230, false) ∧
    samplePackOfEight.packWeight samplePackOfEightPlayers (.finite 11 10) ≠ none :=
  ⟨((packWeight_cases samplePackOfEight samplePackOfEightPlayers (roundToBinary64 11 10)
      (by decide)).2.2.1 (by decide) (by decide)).trans (by decide),
   ((packWeight_cases samplePackOfTwo samplePackOfTwoPlayers (roundToBinary64 11 10)
      (by decide)).1 (by decide)).trans (by decide),
   (packWeight_cases samplePackOfEight samplePackOfEightPlayers (.finite 11 10)
      (by decide)).2.2.2.2 11 10 rfl (by decide) (by decide)⟩

/-! ## C26: standings points of a match and the results table -/

/-- The result of a regular match for a side, read off the two point totals. -/
theorem Match.resultTypeForTeam_regular (m : Match) (loc : Location) (hreg : m.type = .REGULAR) :
    m.resultTypeForTeam loc =
      if (m.score loc).pointsTotal >
          (m.score (if loc = .HOSTS then .VISITORS else .HOSTS)).pointsTotal then .WIN
      else if (m.score loc).pointsTotal =
          (m.score (if loc = .HOSTS then .VISITORS else .HOSTS)).pointsTotal then .DRAW
      else .LOSS := by
  have hne : ¬ (m.type = .PLAYOFFS) := by rw [hreg]; decide
  simp only [Match.resultTypeForTeam, hne, false_and, if_false]
  cases loc
  · simp only [Match.score, if_true, reduceCtorEq, false_and, if_false]
    rcases Nat.lt_trichotomy m.scoreHosts.pointsTotal m.scoreVisitors.pointsTotal with h | h | h
    · have h1 : ¬ m.scoreHosts.pointsTotal > m.scoreVisitors.pointsTotal := by omega
      have h2 : ¬ m.scoreHosts.pointsTotal = m.scoreVisitors.pointsTotal := by omega
      simp only [h, h1, h2, if_true, if_false]
    · simp [h]
    · have h1 : ¬ m.scoreHosts.pointsTotal < m.scoreVisitors.pointsTotal := by omega
      have h2 : m.scoreHosts.pointsTotal > m.scoreVisitors.pointsTotal := h
      simp only [h1, h2, if_true, if_false]
  · simp only [Match.score, reduceCtorEq, if_false, true_and]
    rcases Nat.lt_trichotomy m.scoreHosts.pointsTotal m.scoreVisitors.pointsTotal with h | h | h
    · have h1 : ¬ m.scoreHosts.pointsTotal > m.scoreVisitors.pointsTotal := by omega
      have h2 : m.scoreVisitors.pointsTotal > m.scoreHosts.pointsTotal := h
      simp [h, h1, h2, ResultType.negate]
    · simp [h]
    · have h1 : ¬ m.scoreHosts.pointsTotal < m.scoreVisitors.pointsTotal := by omega
      have h2 : m.scoreHosts.pointsTotal > m.scoreVisitors.pointsTotal := h
      have h3 : ¬ m.scoreVisitors.pointsTotal > m.scoreHosts.pointsTotal := by omega
      have h4 : ¬ m.scoreVisitors.pointsTotal = m.scoreHosts.pointsTotal := by omega
      simp [h1, h2, h3, h4, ResultType.negate]

/-- Without overflow `pointsTotal` is the plain sum. -/
theorem TeamResults.pointsTotal_eq_exact (sp : StandingsPoints) (r : TeamResults)
    (h : r.pointsExact sp < 65536) : r.pointsTotal sp = r.pointsExact sp := by
  simp only [TeamResults.pointsTotal, TeamResults.pointsExact, u16] at h ⊢
  generalize r.winsWithBonusPoint * (sp.Win + sp.FourTries) = a1 at h ⊢
  generalize r.winsWithoutBonusPoint * sp.Win = a2 at h ⊢
  generalize r.drawsWithBonusPoint * (sp.Draw + sp.FourTries) = a3 at h ⊢
  generalize r.drawsWithoutBonusPoint * sp.Draw = a4 at h ⊢
  generalize r.lossesWithBothPonusPoints * (sp.FourTries + sp.SevenPointDifference) = a5 at h ⊢
  generalize r.lossesWithTriesBonusPoint * sp.FourTries = a6 at h ⊢
  generalize r.lossesWithDiffBonusPoint * sp.SevenPointDifference = a7 at h ⊢
  have e1 : (a1 + a2) % 65536 = a1 + a2 := Nat.mod_eq_of_lt (by omega)
  have e2 : (a3 + a4) % 65536 = a3 + a4 := Nat.mod_eq_of_lt (by omega)
  have e3 : (a5 + a6 + a7) % 65536 = a5 + a6 + a7 := Nat.mod_eq_of_lt (by omega)
  rw [e1, e2, e3]
  exact Nat.mod_eq_of_lt (by omega)

/-- The plain sum after one more result, the counters having room. -/
theorem TeamResults.pointsExact_updateResults (sp : StandingsPoints) (r : TeamResults)
    (result : ResultType) (TryBonus DiffBonus : Bool) (hroom : r.hasRoom) :
    (r.updateResults result TryBonus DiffBonus).pointsExact sp =
      r.pointsExact sp +
        (match result with
         | .WIN => sp.Win + (if TryBonus then sp.FourTries else 0)
         | .DRAW => sp.Draw + (if TryBonus then sp.FourTries else 0)
         | .LOSS => (if DiffBonus then sp.SevenPointDifference else 0) +
             (if TryBonus then sp.FourTries else 0)) := by
  obtain ⟨h1, h2, h3, h4, h5, h6, h7, h8⟩ := hroom
  have e1 : u8 (r.winsWithBonusPoint + 1) = r.winsWithBonusPoint + 1 :=
    Nat.mod_eq_of_lt (by omega)
  have e2 : u8 (r.winsWithoutBonusPoint + 1) = r.winsWithoutBonusPoint + 1 :=
    Nat.mod_eq_of_lt (by omega)
  have e3 : u8 (r.drawsWithBonusPoint + 1) = r.drawsWithBonusPoint + 1 :=
    Nat.mod_eq_of_lt (by omega)
  have e4 : u8 (r.drawsWithoutBonusPoint + 1) = r.drawsWithoutBonusPoint + 1 :=
    Nat.mod_eq_of_lt (by omega)
  have e5 : u8 (r.lossesWithBothPonusPoints + 1) = r.lossesWithBothPonusPoints + 1 :=
    Nat.mod_eq_of_lt (by omega)
  have e6 : u8 (r.lossesWithTriesBonusPoint + 1) = r.lossesWithTriesBonusPoint + 1 :=
    Nat.mod_eq_of_lt (by omega)
  have e7 : u8 (r.lossesWithDiffBonusPoint + 1) = r.lossesWithDiffBonusPoint + 1 :=
    Nat.mod_eq_of_lt (by omega)
  cases result <;> cases TryBonus <;> cases DiffBonus <;>
    simp only [TeamResults.updateResults, TeamResults.pointsExact, e1, e2, e3, e4, e5, e6, e7,
      Bool.false_eq_true, if_false, if_true, Bool.and_self, Bool.and_false, Bool.false_and,
      Bool.not_false, Bool.not_true, Bool.and_true, Bool.true_and] <;>
    ring

/-- The losing bonus point as a test on the two point totals. -/
theorem Match.diffBonusPoint_eq (m : Match) (loc : Location) :
    m.diffBonusPoint loc =
      decide ((m.score loc).pointsTotal <
          (m.score (if loc = .HOSTS then .VISITORS else .HOSTS)).pointsTotal ∧
        (m.score (if loc = .HOSTS then .VISITORS else .HOSTS)).pointsTotal ≤
          (m.score loc).pointsTotal + 7) := by
  have hH := MatchScore.pointsTotal_le m.scoreHosts
  have hV := MatchScore.pointsTotal_le m.scoreVisitors
  cases loc <;>
    simp only [Match.score, Match.diffBonusPoint, matchPoints, if_true, reduceCtorEq, if_false]
  · generalize m.scoreHosts.pointsTotal = H at hH ⊢
    generalize m.scoreVisitors.pointsTotal = V at hV ⊢
    have e : i16 ((H : Int) - (V : Int)) = (H : Int) - (V : Int) := by
      simp only [i16]
      omega
    rw [e]
    split
    · symm
      simp only [decide_eq_false_iff_not]
      omega
    · simp only [decide_eq_decide]
      omega
  · generalize m.scoreHosts.pointsTotal = H at hH ⊢
    generalize m.scoreVisitors.pointsTotal = V at hV ⊢
    have e : i16 ((H : Int) - (V : Int)) = (H : Int) - (V : Int) := by
      simp only [i16]
      omega
    rw [e]
    split
    · symm
      simp only [decide_eq_false_iff_not]
      omega
    · simp only [decide_eq_decide]
      omega

/-- The standings points of a match for a side, read off the two point totals. -/
theorem Match.points_eq (sp : StandingsPoints) (m : Match) (loc : Location)
    (hW : sp.Win + sp.FourTries < 256) (hD : sp.Draw + sp.FourTries < 256)
    (hS : sp.SevenPointDifference + sp.FourTries < 256) :
    m.points sp loc =
      (if (m.score loc).pointsTotal >
          (m.score (if loc = .HOSTS then .VISITORS else .HOSTS)).pointsTotal then sp.Win
       else if (m.score loc).pointsTotal =
          (m.score (if loc = .HOSTS then .VISITORS else .HOSTS)).pointsTotal then sp.Draw
       else if (m.score (if loc = .HOSTS then .VISITORS else .HOSTS)).pointsTotal ≤
          (m.score loc).pointsTotal + 7 then sp.SevenPointDifference
       else 0) + (if (m.score loc).bonusPointTry then sp.FourTries else 0) := by
  have eW : u8 (0 + sp.Win) = sp.Win := by
    simp only [u8, Nat.zero_add]
    exact Nat.mod_eq_of_lt (by omega)
  have eD : u8 (0 + sp.Draw) = sp.Draw := by
    simp only [u8, Nat.zero_add]
    exact Nat.mod_eq_of_lt (by omega)
  have eS : u8 (0 + sp.SevenPointDifference) = sp.SevenPointDifference := by
    simp only [u8, Nat.zero_add]
    exact Nat.mod_eq_of_lt (by omega)
  have key : ∀ (own opp : MatchScore),
      (let points1 :=
        if own.pointsTotal > opp.pointsTotal then u8 (0 + sp.Win)
        else if own.pointsTotal = opp.pointsTotal then u8 (0 + sp.Draw)
        else if (opp.pointsTotal : Int) - (own.pointsTotal : Int) ≤
            (matchPoints.NoOfPointsForDiffPoint : Int) then u8 (0 + sp.SevenPointDifference)
        else 0
       if own.bonusPointTry then u8 (points1 + sp.FourTries) else points1) =
      (if own.pointsTotal > opp.pointsTotal then sp.Win
       else if own.pointsTotal = opp.pointsTotal then sp.Draw
       else if opp.pointsTotal ≤ own.pointsTotal + 7 then sp.SevenPointDifference
       else 0) + (if own.bonusPointTry then sp.FourTries else 0) := by
    intro own opp
    simp only [eW, eD, eS, matchPoints]
    generalize own.pointsTotal = a
    generalize opp.pointsTotal = b
    by_cases h1 : a > b
    · simp only [h1, if_true]
      cases own.bonusPointTry
      · simp
      · simp only [if_true, u8]
        exact Nat.mod_eq_of_lt (by omega)
    · by_cases h2 : a = b
      · simp only [h1, h2, if_false, if_true]
        cases own.bonusPointTry
        · simp
        · simp only [if_true, u8, gt_iff_lt, lt_self_iff_false, if_false]
          exact Nat.mod_eq_of_lt (by omega)
      · by_cases h3 : b ≤ a + 7
        · have h4 : (b : Int) - (a : Int) ≤ ((7 : Nat) : Int) := by omega
          simp only [h1, h2, h3, h4, if_false, if_true]
          cases own.bonusPointTry
          · simp
          · simp only [if_true, u8]
            exact Nat.mod_eq_of_lt (by omega)
        · have h4 : ¬ ((b : Int) - (a : Int) ≤ ((7 : Nat) : Int)) := by omega
          simp only [h1, h2, h3, h4, if_false]
          cases own.bonusPointTry
          · simp
          · simp only [if_true, u8, Nat.zero_add]
            exact Nat.mod_eq_of_lt (by omega)
  cases loc
  · exact key m.scoreHosts m.scoreVisitors
  · exact key m.scoreVisitors m.scoreHosts

/-- A non-zero stored value tells the captain by its sign. -/
theorem Player.isCaptain_eq (p : Player) (h : p.preferredFor ≠ 0) :
    p.isCaptain = some (decide (p.preferredFor < 0)) := by
  have habs : ¬ ((p.preferredFor.natAbs : Int) = 0) := by omega
  simp only [Player.isCaptain, habs, if_false, tdiv_natAbs _ h, PreferredForAction.CAPTAIN]
  by_cases hpos : 0 < p.preferredFor
  · have hn : ¬ p.preferredFor < 0 := by omega
    simp [hpos, hn]
  · have hn : p.preferredFor < 0 := by omega
    simp [hpos, hn]

/-- The test for an action with a code between 2 and 127 is divisibility by the code. -/
theorem Player.isPreferredFor_eq (p : Player) (a : Int) (h1 : 1 < a) (h2 : a ≤ 127) :
    p.isPreferredFor a = some (decide (a ∣ p.preferredFor)) := by
  have hc : ¬ a = PreferredForAction.CAPTAIN := by
    simp only [PreferredForAction.CAPTAIN]
    omega
  have h8 : i8 a = a := by
    simp only [i8]
    omega
  have h0 : ¬ a = 0 := by omega
  simp only [Player.isPreferredFor, hc, if_false, h8, h0, Option.some.injEq, decide_eq_decide]
  exact ⟨Int.dvd_of_tmod_eq_zero, Int.tmod_eq_zero_of_dvd⟩

/-- A value in the range of `int16_t` is stored unchanged. -/
theorem i16_of_range (x : Int) (h1 : -32768 ≤ x) (h2 : x ≤ 32767) : i16 x = x := by
  simp only [i16]
  omega

/-- Adding a preference for an action with a code between 2 and 127. -/
theorem Player.setAsPreferredFor_add (p : Player) (a : Int) (h1 : 1 < a) (h2 : a ≤ 127) :
    p.setAsPreferredFor a true =
      some (if a ∣ p.preferredFor then p
        else { p with preferredFor := i16 (p.preferredFor * a) }) := by
  have hna : ¬ a = PreferredForAction.NO_ACTION := by
    simp only [PreferredForAction.NO_ACTION]
    omega
  have h8 : i8 a = a := by
    simp only [i8]
    omega
  simp only [Player.setAsPreferredFor, hna, if_false, Player.isPreferredFor_eq p a h1 h2, h8]
  by_cases hd : a ∣ p.preferredFor <;> simp [hd]

/-- Removing a preference for an action with a code between 2 and 127. -/
theorem Player.setAsPreferredFor_remove (p : Player) (a : Int) (h1 : 1 < a) (h2 : a ≤ 127) :
    p.setAsPreferredFor a false =
      some (if a ∣ p.preferredFor then { p with preferredFor := i16 (p.preferredFor.tdiv a) }
        else p) := by
  have hna : ¬ a = PreferredForAction.NO_ACTION := by
    simp only [PreferredForAction.NO_ACTION]
    omega
  have h8 : i8 a = a := by
    simp only [i8]
    omega
  have h0 : ¬ a = 0 := by omega
  simp only [Player.setAsPreferredFor, hna, if_false, Player.isPreferredFor_eq p a h1 h2, h8, h0]
  by_cases hd : a ∣ p.preferredFor <;> simp [hd]

/-- The sign of a product with a positive factor. -/
theorem mul_pos_neg_iff (v a : Int) (ha : 0 < a) : v * a < 0 ↔ v < 0 := by
  constructor
  · intro h
    by_contra hn
    have : 0 ≤ v * a := Int.mul_nonneg (by omega) (by omega)
    omega
  · intro h
    exact Int.mul_neg_of_neg_of_pos h ha

/-- A factor of a product within the 16-bit range is within that range. -/
theorem factor_in_range (v a : Int) (ha : 1 < a) (hlo : -32768 ≤ v * a) (hhi : v * a ≤ 32767) :
    -32768 ≤ v ∧ v ≤ 32767 := by
  constructor
  · by_contra hn
    have h1 : v * a ≤ v * 1 := Int.mul_le_mul_of_nonpos_left (by omega) (by omega)
    omega
  · by_contra hn
    have h1 : v * 1 ≤ v * a := Int.mul_le_mul_of_nonneg_left (by omega) (by omega)
    omega

/-- Setting or removing the preference for an action whose code is coprime to the code of
another action, for a stored value that is a signed product in which the code occurs at most
once. -/
theorem Player.setAsPreferredFor_product (p : Player) (a b : Int) (add : Bool)
    (ha1 : 1 < a) (ha2 : a ≤ 127) (hb1 : 1 < b) (hb2 : b ≤ 127) (hcop : Int.gcd b a = 1)
    (hv : p.preferredFor ≠ 0) (hsq : ¬ a * a ∣ p.preferredFor)
    (hvlo : -32768 ≤ p.preferredFor) (hvhi : p.preferredFor ≤ 32767)
    (hfit : ¬ a ∣ p.preferredFor →
      -32768 ≤ p.preferredFor * a ∧ p.preferredFor * a ≤ 32767) :
    ∃ q, p.setAsPreferredFor a add = some q ∧
      q.isPreferredFor a = some add ∧
      q.isPreferredFor b = p.isPreferredFor b ∧
      q.isCaptain = p.isCaptain ∧
      (p.isPreferredFor a = some false →
        (p.setAsPreferredFor a true).bind (fun q1 => q1.setAsPreferredFor a false) =
          some p) := by
  have hcop2 : IsCoprime b a := Int.isCoprime_iff_gcd_eq_one.mpr hcop
  have ha0 : a ≠ 0 := by omega
  have hapos : 0 < a := by omega
  by_cases hd : a ∣ p.preferredFor
  · obtain ⟨w, hw⟩ := hd
    have hd : a ∣ p.preferredFor := ⟨w, hw⟩
    have hw0 : w ≠ 0 := by
      intro h0
      rw [h0, Int.mul_zero] at hw
      exact hv hw
    have hnw : ¬ a ∣ w := by
      intro ⟨u, hu⟩
      apply hsq
      exact ⟨u, by rw [hw, hu, Int.mul_assoc]⟩
    have hquot : p.preferredFor.tdiv a = w := by
      rw [hw]
      exact Int.mul_tdiv_cancel_left w ha0
    have hwr : -32768 ≤ w ∧ w ≤ 32767 := by
      have h1 : w * a = p.preferredFor := by rw [hw, Int.mul_comm]
      exact factor_in_range w a ha1 (by omega) (by omega)
    have hstore : i16 w = w := i16_of_range _ hwr.1 hwr.2
    have hnotfalse : ¬ (p.isPreferredFor a = some false) := by
      rw [Player.isPreferredFor_eq p a ha1 ha2]
      simp [hd]
    cases add
    · rw [Player.setAsPreferredFor_remove p a ha1 ha2, if_pos hd, hquot, hstore]
      refine ⟨_, rfl, ?_, ?_, ?_, fun h => absurd h hnotfalse⟩
      · rw [Player.isPreferredFor_eq _ a ha1 ha2]
        simp [hnw]
      · rw [Player.isPreferredFor_eq _ b hb1 hb2, Player.isPreferredFor_eq _ b hb1 hb2]
        simp only [Option.some.injEq, decide_eq_decide]
        rw [hw]
        exact ⟨fun h => Dvd.dvd.mul_left h a, fun h => hcop2.dvd_of_dvd_mul_left h⟩
      · have hq0 : ({ p with preferredFor := w } : Player).preferredFor ≠ 0 := hw0
        rw [Player.isCaptain_eq _ hq0, Player.isCaptain_eq p hv]
        simp only [Option.some.injEq, decide_eq_decide]
        rw [hw, Int.mul_comm]
        exact (mul_pos_neg_iff w a hapos).symm
    · rw [Player.setAsPreferredFor_add p a ha1 ha2, if_pos hd]
      refine ⟨_, rfl, ?_, rfl, rfl, fun h => absurd h hnotfalse⟩
      rw [Player.isPreferredFor_eq p a ha1 ha2]
      simp [hd]
  · have hprod : i16 (p.preferredFor * a) = p.preferredFor * a :=
      i16_of_range _ (hfit hd).1 (hfit hd).2
    have hback : (p.preferredFor * a).tdiv a = p.preferredFor :=
      Int.mul_tdiv_cancel p.preferredFor ha0
    have hvstore : i16 p.preferredFor = p.preferredFor := i16_of_range _ hvlo hvhi
    have hdvd : a ∣ ({ p with preferredFor := p.preferredFor * a } : Player).preferredFor :=
      Int.dvd_mul_left _ _
    have hrestore : (p.setAsPreferredFor a true).bind (fun q1 => q1.setAsPreferredFor a false) =
        some p := by
      rw [Player.setAsPreferredFor_add p a ha1 ha2, if_neg hd, hprod, Option.some_bind,
        Player.setAsPreferredFor_remove _ a ha1 ha2, if_pos hdvd]
      simp only [hback, hvstore]
    cases add
    · rw [Player.setAsPreferredFor_remove p a ha1 ha2, if_neg hd]
      refine ⟨_, rfl, ?_, rfl, rfl, fun _ => hrestore⟩
      rw [Player.isPreferredFor_eq p a ha1 ha2]
      simp [hd]
    · have hrestore2 := hrestore
      rw [Player.setAsPreferredFor_add p a ha1 ha2, if_neg hd, hprod] at hrestore2 ⊢
      refine ⟨_, rfl, ?_, ?_, ?_, fun _ => hrestore2⟩
      · rw [Player.isPreferredFor_eq _ a ha1 ha2]
        simp
      · rw [Player.isPreferredFor_eq _ b hb1 hb2, Player.isPreferredFor_eq _ b hb1 hb2]
        simp only [Option.some.injEq, decide_eq_decide]
        exact ⟨fun h => hcop2.dvd_of_dvd_mul_right h, fun h => Dvd.dvd.mul_right h a⟩
      · have hne : ({ p with preferredFor := p.preferredFor * a } : Player).preferredFor ≠ 0 :=
          Int.mul_ne_zero hv ha0
        rw [Player.isCaptain_eq _ hne, Player.isCaptain_eq p hv]
        simp only [Option.some.injEq, decide_eq_decide]
        exact mul_pos_neg_iff _ a hapos

/-- A number coprime to every element of a list is coprime to the product of the list. -/
theorem isCoprime_list_prod (x : Int) (l : List Int) (h : ∀ y ∈ l, IsCoprime x y) :
    IsCoprime x l.prod := by
  induction l with
  | nil => simp only [List.prod_nil]; exact isCoprime_one_right
  | cons y l ih =>
    rw [List.prod_cons]
    exact IsCoprime.mul_right (h y (List.mem_cons_self _ _))
      (ih (fun z hz => h z (List.mem_cons_of_mem _ hz)))

/-- What valid codes give: the product of all codes is positive and fits into 16 bits, two
different codes are coprime, and every code is coprime to the product of the others. -/
theorem PreferenceCodes.valid_facts (c : PreferenceCodes) (hc : c.valid) :
    (0 < c.actions.prod ∧ c.actions.prod ≤ 32767) ∧
    (∀ a ∈ c.actions, ∀ b ∈ c.actions, a ≠ b → IsCoprime a b) ∧
    (∀ a ∈ c.actions, ∃ r, c.actions.prod = a * r ∧ IsCoprime a r) := by
  obtain ⟨hrange, hpair, hprod⟩ := hc
  have hsymm : Symmetric (fun a b : Int => Int.gcd a b = 1) := by
    intro a b h
    rw [Int.gcd_comm]
    exact h
  have hcop : ∀ a ∈ c.actions, ∀ b ∈ c.actions, a ≠ b → IsCoprime a b := by
    intro a ha b hb hab
    exact Int.isCoprime_iff_gcd_eq_one.mpr (hpair.forall hsymm ha hb hab)
  have hnodup : c.actions.Nodup := by
    refine hpair.imp_of_mem ?_
    intro a b ha _ hg hab
    subst hab
    rw [Int.gcd_self] at hg
    have := (hrange a ha).1
    omega
  refine ⟨⟨?_, hprod⟩, hcop, ?_⟩
  · apply List.prod_pos
    intro a ha
    have := (hrange a ha).1
    omega
  · intro a ha
    refine ⟨(c.actions.erase a).prod, (List.prod_erase ha).symm, ?_⟩
    apply isCoprime_list_prod
    intro y hy
    have hy2 := (hnodup.mem_erase_iff).mp hy
    exact hcop a ha y hy2.2 (Ne.symm hy2.1)

/-- The stored values that keep the encoding: divisors of the product of all codes that
contain each code entirely or not at all. -/
theorem preference_value_facts (c : PreferenceCodes) (hc : c.valid) (v : Int)
    (hdvd : v ∣ c.actions.prod) (hall : ∀ a ∈ c.actions, a ∣ v ∨ IsCoprime a v) :
    v ≠ 0 ∧ -32767 ≤ v ∧ v ≤ 32767 ∧
    (∀ a ∈ c.actions, ¬ a * a ∣ v) ∧
    (∀ a ∈ c.actions, ¬ a ∣ v →
      v * a ∣ c.actions.prod ∧ -32768 ≤ v * a ∧ v * a ≤ 32767) := by
  obtain ⟨⟨hPpos, hP⟩, hcop, hR⟩ := c.valid_facts hc
  have hbound : ∀ w : Int, w ∣ c.actions.prod → -32767 ≤ w ∧ w ≤ 32767 := by
    intro w hw
    have h1 := Int.le_of_dvd hPpos hw
    have h2 := Int.le_of_dvd hPpos ((Int.neg_dvd).mpr hw)
    omega
  refine ⟨?_, (hbound v hdvd).1, (hbound v hdvd).2, ?_, ?_⟩
  · intro h0
    rw [h0] at hdvd
    have := zero_dvd_iff.mp hdvd
    omega
  · intro a ha hsq
    obtain ⟨r, hr, hcr⟩ := hR a ha
    have ha1 := (hc.1 a ha).1
    have h1 : a * a ∣ a * r := hr ▸ Dvd.dvd.trans hsq hdvd
    have h2 : a ∣ r := (mul_dvd_mul_iff_left (by omega : a ≠ 0)).mp h1
    have h3 : IsUnit a := hcr.isUnit_of_dvd' (dvd_refl a) h2
    rcases Int.isUnit_iff.mp h3 with h | h <;> omega
  · intro a ha hnd
    have hcav : IsCoprime a v := by
      rcases hall a ha with h | h
      · exact absurd h hnd
      · exact h
    obtain ⟨r, hr, _⟩ := hR a ha
    have hmul : v * a ∣ c.actions.prod :=
      hcav.symm.mul_dvd hdvd ⟨r, hr⟩
    have := hbound _ hmul
    exact ⟨hmul, by omega, this.2⟩

/-- Every reachable player stores a value that keeps the encoding. -/
theorem Player.Reachable.invariant (c : PreferenceCodes) (hc : c.valid) (p : Player)
    (h : p.Reachable c) :
    p.preferredFor ∣ c.actions.prod ∧
    ∀ a ∈ c.actions, a ∣ p.preferredFor ∨ IsCoprime a p.preferredFor := by
  have hone : ∀ v : Int, v = 1 ∨ v = -1 →
      v ∣ c.actions.prod ∧ ∀ a ∈ c.actions, a ∣ v ∨ IsCoprime a v := by
    intro v hv
    rcases hv with rfl | rfl
    · exact ⟨one_dvd _, fun a _ => Or.inr isCoprime_one_right⟩
    · exact ⟨(Int.neg_dvd).mpr (one_dvd _), fun a _ => Or.inr isCoprime_one_right.neg_right⟩
  have hreset : ∀ (p q : Player), p.resetAllPreferences = some q →
      q.preferredFor = 1 ∨ q.preferredFor = -1 := by
    intro p q hq
    simp only [Player.resetAllPreferences] at hq
    cases hcap : p.isCaptain with
    | none => simp [hcap] at hq
    | some cap =>
      simp only [hcap, Option.some.injEq] at hq
      subst hq
      cases cap
      · left; rfl
      · right; rfl
  induction h with
  | constructed p captain hv =>
    apply hone
    rw [hv]
    cases captain
    · left; decide
    · right; decide
  | resetAllPreferences p q _ hq _ => exact hone _ (hreset p q hq)
  | otherMembers p q _ hq ih =>
    rw [hq]
    exact ih
  | setAsPreferredFor p q action add _ hact hq ih =>
    obtain ⟨hdvd, hall⟩ := ih
    obtain ⟨hv0, hvlo, hvhi, hsq, hmul⟩ := preference_value_facts c hc _ hdvd hall
    obtain ⟨_, hcop, hR⟩ := c.valid_facts hc
    rcases hact with hact | hact | hact
    · -- one of the five actions
      have ha1 := (hc.1 action hact).1
      have ha2 := (hc.1 action hact).2
      have ha0 : action ≠ 0 := by omega
      cases add
      · rw [Player.setAsPreferredFor_remove p action ha1 ha2] at hq
        simp only [Option.some.injEq] at hq
        subst hq
        by_cases hd : action ∣ p.preferredFor
        · simp only [hd, if_true]
          obtain ⟨w, hw⟩ := hd
          have hquot : p.preferredFor.tdiv action = w := by
            rw [hw]
            exact Int.mul_tdiv_cancel_left w ha0
          have hwdvd : w ∣ p.preferredFor := ⟨action, by rw [hw, Int.mul_comm]⟩
          have hwP : w ∣ c.actions.prod := Dvd.dvd.trans hwdvd hdvd
          have hwr : -32768 ≤ w ∧ w ≤ 32767 := by
            have h1 := Int.le_of_dvd (c.valid_facts hc).1.1 hwP
            have h2 := Int.le_of_dvd (c.valid_facts hc).1.1 ((Int.neg_dvd).mpr hwP)
            have := (c.valid_facts hc).1.2
            omega
          rw [hquot, i16_of_range _ hwr.1 hwr.2]
          refine ⟨hwP, ?_⟩
          intro b hb
          by_cases hba : b = action
          · right
            subst hba
            obtain ⟨r, hr, hcr⟩ := hR b hb
            have h1 : b * w ∣ b * r := by
              rw [← hw, ← hr]
              exact hdvd
            have h2 : w ∣ r := (mul_dvd_mul_iff_left ha0).mp h1
            exact IsCoprime.of_isCoprime_of_dvd_right hcr h2
          · rcases hall b hb with h | h
            · left
              rw [hw] at h
              exact (hcop b hb action hact hba).dvd_of_dvd_mul_left h
            · right
              exact IsCoprime.of_isCoprime_of_dvd_right h hwdvd
        · simp only [hd, if_false]
          exact ⟨hdvd, hall⟩
      · rw [Player.setAsPreferredFor_add p action ha1 ha2] at hq
        simp only [Option.some.injEq] at hq
        subst hq
        by_cases hd : action ∣ p.preferredFor
        · simp only [hd, if_true]
          exact ⟨hdvd, hall⟩
        · simp only [hd, if_false]
          obtain ⟨hm1, hm2, hm3⟩ := hmul action hact hd
          rw [i16_of_range _ hm2 hm3]
          refine ⟨hm1, ?_⟩
          intro b hb
          by_cases hba : b = action
          · left
            rw [hba]
            exact Dvd.intro_left _ rfl
          · rcases hall b hb with h | h
            · left
              exact Dvd.dvd.mul_right h action
            · right
              exact IsCoprime.mul_right h (hcop b hb action hact hba)
    · -- the captaincy: the sign
      subst hact
      have hcapt : p.isCaptain = some (decide (p.preferredFor < 0)) := Player.isCaptain_eq p hv0
      have hneg : q.preferredFor = p.preferredFor ∨ q.preferredFor = -p.preferredFor := by
        simp only [Player.setAsPreferredFor, PreferredForAction.CAPTAIN,
          PreferredForAction.NO_ACTION, Player.isPreferredFor, hcapt,
          show ¬ ((-1 : Int) = 1) by decide, if_false, if_true] at hq
        have e8 : i8 (-1) = -1 := by decide
        rw [e8] at hq
        have e1 : i16 (p.preferredFor * -1) = -p.preferredFor := by
          rw [Int.mul_neg_one]
          exact i16_of_range _ (by omega) (by omega)
        have e2 : i16 (p.preferredFor.tdiv (-1)) = -p.preferredFor := by
          rw [Int.tdiv_neg, Int.tdiv_one]
          exact i16_of_range _ (by omega) (by omega)
        rw [e1, e2] at hq
        split at hq
        · simp only [Option.some.injEq] at hq
          subst hq
          left; rfl
        · split at hq
          · simp only [Option.some.injEq] at hq
            subst hq
            right; rfl
          · split at hq
            · simp at hq
            · simp only [Option.some.injEq] at hq
              subst hq
              right; rfl
      rcases hneg with h | h
      · rw [h]
        exact ⟨hdvd, hall⟩
      · rw [h]
        exact ⟨(Int.neg_dvd).mpr hdvd, fun b hb => (hall b hb).imp
          (fun h1 => (Int.dvd_neg).mpr h1) (fun h1 => h1.neg_right)⟩
    · -- no action: the preferences are reset
      subst hact
      apply hone
      simp only [Player.setAsPreferredFor, PreferredForAction.NO_ACTION, if_true] at hq
      cases hres : p.resetAllPreferences with
      | none => simp [hres] at hq
      | some p1 =>
        have h1 := hreset p p1 hres
        simp only [hres, Player.isPreferredFor, PreferredForAction.CAPTAIN,
          show ¬ ((1 : Int) = -1) by decide, if_false] at hq
        have e8 : i8 1 = 1 := by decide
        simp only [e8, show ¬ ((1 : Int) = 0) by decide, if_false, Int.tmod_one,
          decide_True, Bool.true_and, Bool.not_true, Bool.false_and, Bool.or_false,
          Int.tdiv_one] at hq
        cases add
        · simp only [Bool.false_eq_true, if_false, Option.some.injEq] at hq
          subst hq
          rcases h1 with h | h <;> simp only [h] <;> decide
        · simp only [if_true, Option.some.injEq] at hq
          subst hq
          exact h1

/-- C24: for codes as the encoding requires them (positive 8-bit values that are pairwise
coprime, the product of all five within 16 bits), for every player the program can hold and
every two distinct preference actions a and b (kick-off, penalty, conversion, scrum,
line-out), setAsPreferredFor(a, add) returns, makes isPreferredFor(a) equal to add and
leaves isPreferredFor(b) and isCaptain() unchanged; adding a preference that was absent and
then removing it restores the player, stored preference value included. -/
theorem setAsPreferredFor_keeps_other_preferences (c : PreferenceCodes) (hc : c.valid)
    (p : Player) (hp : p.Reachable c) (a b : Int) (ha : a ∈ c.actions) (hb : b ∈ c.actions)
    (hab : a ≠ b) (add : Bool) :
    ∃ q, p.setAsPreferredFor a add = some q ∧
      q.isPreferredFor a = some add ∧
      q.isPreferredFor b = p.isPreferredFor b ∧
      q.isCaptain = p.isCaptain ∧
      (p.isPreferredFor a = some false →
        (p.setAsPreferredFor a true).bind (fun q1 => q1.setAsPreferredFor a false) =
          some p) := by
  obtain ⟨hdvd, hall⟩ := Player.Reachable.invariant c hc p hp
  obtain ⟨hv0, hvlo, hvhi, hsq, hmul⟩ := preference_value_facts c hc _ hdvd hall
  obtain ⟨_, hcop, _⟩ := c.valid_facts hc
  exact Player.setAsPreferredFor_product p a b add (hc.1 a ha).1 (hc.1 a ha).2 (hc.1 b hb).1
    (hc.1 b hb).2 (Int.isCoprime_iff_gcd_eq_one.mp (hcop b hb a ha (Ne.symm hab)))
    hv0 (hsq a ha) (by omega) hvhi (fun hd => (hmul a ha hd).2)

/-- C24 (witness): with the codes 2, 3, 5, 7 and 11, a player constructed as captain and then
made preferred for kick-offs and penalties stores -6; made preferred for conversions he
stores -30, and the test for kick-offs and the captaincy are as before. -/
theorem setAsPreferredFor_keeps_other_preferences_witness :
    (sampleCaptainKicker.setAsPreferredFor 5 true).map
      (fun q => (q.preferredFor, q.isPreferredFor 5, q.isPreferredFor 2, q.isCaptain)) =
      some (-30, some true, some true, some true) ∧
    ∃ q, sampleCaptainKicker.setAsPreferredFor 5 true = some q ∧
      q.isPreferredFor 5 = some true ∧
      q.isPreferredFor 2 = sampleCaptainKicker.isPreferredFor 2 ∧
      q.isCaptain = sampleCaptainKicker.isCaptain :=
  ⟨by decide,
   match setAsPreferredFor_keeps_other_preferences samplePreferenceCodes
      ⟨by decide, by decide, by decide⟩ sampleCaptainKicker
      (Player.Reachable.setAsPreferredFor { code := 1, preferredFor := -2 } _ 3 true
        (Player.Reachable.setAsPreferredFor { code := 1, preferredFor := -1 } _ 2 true
          (Player.Reachable.constructed _ true rfl) (Or.inl (by decide)) rfl)
        (Or.inl (by decide)) rfl)
      5 2 (by decide) (by decide) (by decide) true with
   | ⟨q, h1, h2, h3, h4, _⟩ => ⟨q, h1, h2, h3, h4⟩⟩

/-! ## C27: the substitutes -/

/-- In a list sorted by a key, no element of an initial segment has a larger key than an
element that is left out of it. -/
theorem take_insertionSort_le {α : Type} (key : α → Nat) (l : List α) (n : Nat) :
    ∀ x ∈ (l.insertionSort (fun x y => key x ≤ key y)).take n,
    ∀ y ∈ (l.insertionSort (fun x y => key x ≤ key y)).drop n, key x ≤ key y := by
  have htotal : IsTotal α (fun x y => key x ≤ key y) := ⟨fun a b => Nat.le_total _ _⟩
  have htrans : IsTrans α (fun x y => key x ≤ key y) := ⟨fun a b c => Nat.le_trans⟩
  have hs := List.sorted_insertionSort (fun x y => key x ≤ key y) l
  unfold List.Sorted at hs
  rw [← List.take_append_drop n (l.insertionSort (fun x y => key x ≤ key y)),
    List.pairwise_append] at hs
  exact hs.2.2

/-- The shirt loop leaves every player alone that is not in the list. -/
theorem assignBenchShirts_other (l : List (Nat × Nat)) :
    ∀ (players : Nat → Player) (n c : Nat), c ∉ l.map Prod.fst →
      assignBenchShirts players n l c = players c := by
  induction l with
  | nil => intro players n c _; rfl
  | cons x rest ih =>
    intro players n c hc
    simp only [List.map_cons, List.mem_cons, not_or] at hc
    simp only [assignBenchShirts]
    rw [ih _ _ c hc.2, if_neg hc.1]

/-- The shirt loop gives the element at index i the number after `n + i`, when the players of
the list are different and the numbers fit into 8 bits. -/
theorem assignBenchShirts_get (l : List (Nat × Nat)) :
    ∀ (players : Nat → Player) (n : Nat), (l.map Prod.fst).Nodup → n + l.length < 256 →
      ∀ (i : Nat) (hi : i < l.length),
        (assignBenchShirts players n l (l.get ⟨i, hi⟩).1).shirtNo = n + i + 1 := by
  induction l with
  | nil => intro players n _ _ i hi; exact absurd hi (Nat.not_lt_zero _)
  | cons x rest ih =>
    intro players n hnd hlen i hi
    simp only [List.map_cons, List.nodup_cons] at hnd
    simp only [List.length_cons] at hlen
    have hn : u8 (n + 1) = n + 1 := by
      simp only [u8]
      exact Nat.mod_eq_of_lt (by omega)
    cases i with
    | zero =>
      change (assignBenchShirts _ (u8 (n + 1)) rest x.1).shirtNo = n + 0 + 1
      rw [assignBenchShirts_other rest _ _ x.1 hnd.1, if_pos rfl, hn]
    | succ j =>
      have hj : j < rest.length := by simpa using hi
      change (assignBenchShirts _ (u8 (n + 1)) rest (rest.get ⟨j, hj⟩).1).shirtNo =
        n + (j + 1) + 1
      rw [hn, ih _ (n + 1) hnd.2 (by omega) j hj]
      omega

/-- C27 (code evaluated): when selectSubstitutes returns, at most 8 players are selected, each
of them a candidate, they are in ascending order of their current position number and
receive the shirts 16, 17, ... in that order, all other players being left alone; but every
selected candidate has a smaller shape than every candidate left out: the 8 with the lowest
position-weighted overall condition are kept. -/
theorem benchSelection_keeps_lowest (t : Team) (players : Nat → Player) (w : ConditionWeights)
    (applyWeight : Nat → MatchTypes → Nat) (selection : List (Nat × Nat))
    (h : t.benchSelection players w applyWeight = some selection) :
    selection.length ≤ 8 ∧
    (∀ x ∈ selection, x ∈ t.playersForSelection players w applyWeight) ∧
    (∀ x ∈ selection, ∀ y ∈ t.playersForSelection players w applyWeight, y ∉ selection →
      x.2 < y.2) ∧
    selection.Pairwise
      (fun x y => (players x.1).currentPosition < (players y.1).currentPosition) ∧
    (∃ ps, t.selectSubstitutes players w applyWeight = some ps ∧
      (∀ (i : Nat) (hi : i < selection.length),
        (ps (selection.get ⟨i, hi⟩).1).shirtNo = 16 + i) ∧
      (∀ c, c ∉ selection.map Prod.fst → ps c = players c)) := by
  have hsel : t.selectSubstitutes players w applyWeight =
      some (assignBenchShirts players 15 selection) := by
    simp only [Team.selectSubstitutes, h, numberOfPlayers]
  simp only [Team.benchSelection, sortAscending] at h
  generalize t.playersForSelection players w applyWeight = cands at h ⊢
  by_cases hnd : (cands.map (fun x => x.2)).Nodup
  · simp only [hnd, if_true] at h
    by_cases hnd2 : (((cands.insertionSort (fun x y => x.2 ≤ y.2)).take
        (min (u8 (cands.insertionSort (fun x y => x.2 ≤ y.2)).length)
          numberOfPlayers.PlayersOnBench)).map
        (fun x => (players x.1).currentPosition)).Nodup
    · simp only [hnd2, if_true, Option.some.injEq] at h
      have hperm2 := List.perm_insertionSort
        (fun x y : Nat × Nat => (players x.1).currentPosition ≤ (players y.1).currentPosition)
        ((cands.insertionSort (fun x y => x.2 ≤ y.2)).take
          (min (u8 (cands.insertionSort (fun x y => x.2 ≤ y.2)).length)
            numberOfPlayers.PlayersOnBench))
      rw [h] at hperm2
      have hperm1 := List.perm_insertionSort (fun x y : Nat × Nat => x.2 ≤ y.2) cands
      have hlen : selection.length ≤ 8 := by
        rw [hperm2.length_eq, List.length_take]
        simp only [numberOfPlayers]
        omega
      have hcodes : (selection.map Prod.fst).Nodup := by
        have hpos : ((selection.map Prod.fst).map
            (fun c => (players c).currentPosition)).Nodup := by
          rw [List.map_map]
          exact (hperm2.map _).nodup_iff.mpr hnd2
        exact List.Nodup.of_map _ hpos
      refine ⟨hlen, ?_, ?_, ?_, ⟨_, hsel, ?_, ?_⟩⟩
      · intro x hx
        exact hperm1.mem_iff.mp (List.mem_of_mem_take (hperm2.mem_iff.mp hx))
      · intro x hx y hy hny
        have hx1 := hperm2.mem_iff.mp hx
        have hy1 : y ∈ cands.insertionSort (fun x y => x.2 ≤ y.2) := hperm1.mem_iff.mpr hy
        rw [← List.take_append_drop
          (min (u8 (cands.insertionSort (fun x y => x.2 ≤ y.2)).length)
            numberOfPlayers.PlayersOnBench)
          (cands.insertionSort (fun x y => x.2 ≤ y.2)), List.mem_append] at hy1
        rcases hy1 with hy1 | hy1
        · exact absurd (hperm2.mem_iff.mpr hy1) hny
        · have hle : x.2 ≤ y.2 :=
            take_insertionSort_le (fun x : Nat × Nat => x.2) cands _ x hx1 y hy1
          have hne : x.2 ≠ y.2 := by
            intro heq
            have hxc : x ∈ cands := hperm1.mem_iff.mp (List.mem_of_mem_take hx1)
            have hinj := List.inj_on_of_nodup_map hnd hxc hy heq
            rw [hinj] at hx
            exact hny hx
          omega
      · have htotal : IsTotal (Nat × Nat)
            (fun x y => (players x.1).currentPosition ≤ (players y.1).currentPosition) :=
          ⟨fun a b => Nat.le_total _ _⟩
        have htrans : IsTrans (Nat × Nat)
            (fun x y => (players x.1).currentPosition ≤ (players y.1).currentPosition) :=
          ⟨fun a b c => Nat.le_trans⟩
        have hs := List.sorted_insertionSort
          (fun x y : Nat × Nat => (players x.1).currentPosition ≤ (players y.1).currentPosition)
          ((cands.insertionSort (fun x y => x.2 ≤ y.2)).take
            (min (u8 (cands.insertionSort (fun x y => x.2 ≤ y.2)).length)
              numberOfPlayers.PlayersOnBench))
        rw [h] at hs
        have hnd3 : (selection.map (fun x => (players x.1).currentPosition)).Nodup :=
          (hperm2.map _).nodup_iff.mpr hnd2
        unfold List.Nodup at hnd3
        rw [List.pairwise_map] at hnd3
        unfold List.Sorted at hs
        exact (hs.and hnd3).imp (fun h => by omega)
      · intro i hi
        rw [assignBenchShirts_get selection players 15 hcodes (by omega) i hi]
        omega
      · intro c hc
        exact assignBenchShirts_other selection players 15 c hc
    · simp only [hnd2, if_false] at h
      exact absurd h (by simp)
  · simp only [hnd, if_false] at h
    exact absurd h (by simp)

/-- C27 (witness): of nine candidates with the shapes 255, 260, ..., 295 the eight with the
lowest shapes receive the shirts 16..23; the candidate with the highest shape, player 9,
keeps the shirt number 0. -/
theorem benchSelection_keeps_lowest_witness :
    (sampleReserves.playersForSelection sampleReservesPlayers {} (fun shape _ => shape)).map
      (fun x => x.2) = [255, 260, 265, 270, 275, 280, 285, 290, 295] ∧
    (sampleReserves.selectSubstitutes sampleReservesPlayers {} (fun shape _ => shape)).map
      (fun ps => (List.range' 1 9).map (fun c => (ps c).shirtNo)) =
      some [16, 17, 18, 19, 20, 21, 22, 23, 0] ∧
    (∀ x ∈ [(1, 255), (2, 260), (3, 265), (4, 270), (5, 275), (6, 280), (7, 285), (8, 290)],
      x.2 < 295) :=
  ⟨by decide, by decide,
   fun x hx => (benchSelection_keeps_lowest sampleReserves sampleReservesPlayers {}
     (fun shape _ => shape)
     [(1, 255), (2, 260), (3, 265), (4, 270), (5, 275), (6, 280), (7, 285), (8, 290)]
     (by decide)).2.2.1 x hx (9, 295) (by decide) (by decide)⟩

end RM
